import Mathlib

/-!
# Verification of the citation-formatting core (bibcite_core.py)

A shallow embedding of the citation formatting engine: text is modelled as
lists of Unicode characters, Python string primitives (replace, strip, split,
join) are implemented with their Python semantics, and the formatting
functions (text normalizer, author parser, per-style author-list formatters,
entry-field extraction, the ten reference-style templates and the in-text
formatters) are transcribed from the source.  Theorems at the end settle the
frozen claims about this program.
-/

namespace BibCite

/-- Text is modelled as a list of Unicode characters (a Python `str`). -/
abbrev Str := List Char

/-- Support fact for termination of the scanners below. -/
theorem length_dropWhile_le {α : Type} (p : α → Bool) (l : List α) :
    (l.dropWhile p).length ≤ l.length := by
  induction l with
  | nil => simp
  | cons c t ih =>
    simp only [List.dropWhile_cons]
    split
    · simp only [List.length_cons]; omega
    · simp

/-- Convenience: the character list of a Lean string literal. -/
def str (s : String) : Str := s.data

/-- Python whitespace (the set recognised by `str.isspace`, `str.strip`,
`str.split()` and the regex class `\s` on text patterns). -/
def pyWs (c : Char) : Bool :=
  c = ' ' || c = '\t' || c = '\n' || c = '\r' || c = '\x0b' || c = '\x0c' ||
  c = '\x1c' || c = '\x1d' || c = '\x1e' || c = '\x1f' || c = '\x85' ||
  c = ' ' || c = ' ' || (' ' ≤ c && c ≤ ' ') ||
  c = ' ' || c = ' ' || c = ' ' || c = ' ' || c = '　'

/-- Core loop of Python `str.replace` for a non-empty pattern `o :: os`:
left-to-right scan, non-overlapping matches, replacement text not rescanned.
The fuel argument (instantiated with the length of the scanned text, which
every step shortens) keeps the recursion structural, so that the kernel can
evaluate concrete instances. -/
def pyReplaceCore (o : Char) (os new : Str) : Nat → Str → Str
  | _, [] => []
  | 0, s => s
  | fuel + 1, c :: t =>
    if (o :: os).isPrefixOf (c :: t) then
      new ++ pyReplaceCore o os new fuel (t.drop os.length)
    else
      c :: pyReplaceCore o os new fuel t

/-- Python `s.replace(old, new)`.  (The embedding never calls it with an
empty `old`, where Python would interleave `new` between characters; that
case is returned unchanged here.) -/
def pyReplace (s old new : Str) : Str :=
  match old with
  | [] => s
  | o :: os => pyReplaceCore o os new s.length s

/-- Python `str.lstrip()` (whitespace only). -/
def pyStripLeft (s : Str) : Str := s.dropWhile pyWs

/-- Python `str.rstrip()` (whitespace only). -/
def pyStripRight (s : Str) : Str := (s.reverse.dropWhile pyWs).reverse

/-- Python `str.strip()` (whitespace only). -/
def pyStrip (s : Str) : Str := pyStripLeft (pyStripRight s)

/-- Worker for `pySplitWs`: accumulates the current word (reversed). -/
def splitWsAux : Str → Str → List Str
  | [], acc => if acc = [] then [] else [acc.reverse]
  | c :: t, acc =>
    if pyWs c then
      if acc = [] then splitWsAux t [] else acc.reverse :: splitWsAux t []
    else
      splitWsAux t (c :: acc)

/-- Python `str.split()` with no argument: split on whitespace runs and
drop empty pieces. -/
def pySplitWs (s : Str) : List Str := splitWsAux s []

/-- Python `sep.join(parts)`. -/
def joinSep (sep : Str) : List Str → Str
  | [] => []
  | [x] => x
  | x :: y :: t => x ++ sep ++ joinSep sep (y :: t)

/-- Worker for `decRepr`, structural in its fuel (division by ten strictly
shrinks the argument, so fuel equal to the number suffices). -/
def decReprGo : Nat → Nat → Str
  | 0, n => [Char.ofNat (48 + n % 10)]
  | fuel + 1, n =>
    if n < 10 then [Char.ofNat (48 + n)]
    else decReprGo fuel (n / 10) ++ [Char.ofNat (48 + n % 10)]

/-- Decimal digits of a natural number, most significant first
(Python `str(n)` / `f-string` rendering of a non-negative int). -/
def decRepr (n : Nat) : Str := decReprGo n n

/-- Numeric value of a list of decimal digit characters. -/
def decVal (s : Str) : Nat := s.foldl (fun a c => a * 10 + (c.toNat - 48)) 0

/-! ## RTFBuilder -/

/-- Expansion of characters above code point 127 into RTF numeric escapes,
the final per-character loop of `RTFBuilder.escape`. -/
def uniExpand : Str → Str
  | [] => []
  | c :: t =>
    (if 127 < c.toNat then '\\' :: 'u' :: (decRepr c.toNat ++ ['?']) else [c]) ++ uniExpand t

/-- `RTFBuilder.escape`: escape backslashes and braces, then expand
non-ASCII characters to numeric escapes. -/
def escape (s : Str) : Str :=
  if s = [] then []
  else
    uniExpand (pyReplace (pyReplace (pyReplace s (str "\\") (str "\\\\"))
      (str "\x7b") (str "\\\x7b")) (str "\x7d") (str "\\\x7d"))

/-- `RTFBuilder.italic`. -/
def italic (s : Str) : Str := str "\x7b\\i " ++ escape s ++ str "\x7d"

/-- `RTFBuilder.bold`. -/
def bold (s : Str) : Str := str "\x7b\\b " ++ escape s ++ str "\x7d"

/-- `RTFBuilder.superscript`. -/
def superscript (s : Str) : Str := str "\x7b\\super " ++ escape s ++ str "\x7d"

/-- Strip all RTF markup control sequences from a formatted fragment,
recovering the plain text (§8 of the spec: wrap commands are removed,
numeric escapes are decoded, and the control-character escapes introduced
by `escape` are undone).  Behaviour on malformed fragments is immaterial:
the theorems only apply it to output of the formatters. -/
def unrtfGo : Nat → Str → Str
  | _, [] => []
  | 0, s => s
  | fuel + 1, c :: t =>
    if c = '\\' then
      match t with
      | [] => ['\\']
      | d :: t2 =>
        if d = '\\' then '\\' :: unrtfGo fuel t2
        else if d = '\x7b' then '\x7b' :: unrtfGo fuel t2
        else if d = '\x7d' then '\x7d' :: unrtfGo fuel t2
        else if d = 'u' then
          let ds := t2.takeWhile Char.isDigit
          let r := t2.dropWhile Char.isDigit
          if ds ≠ [] ∧ r.head? = some '?' then
            Char.ofNat (decVal ds) :: unrtfGo fuel (r.drop 1)
          else '\\' :: 'u' :: unrtfGo fuel t2
        else '\\' :: d :: unrtfGo fuel t2
    else if c = '\x7b' then
      if (str "\\i ").isPrefixOf t then unrtfGo fuel (t.drop 3)
      else if (str "\\b ").isPrefixOf t then unrtfGo fuel (t.drop 3)
      else if (str "\\super ").isPrefixOf t then unrtfGo fuel (t.drop 7)
      else c :: unrtfGo fuel t
    else if c = '\x7d' then unrtfGo fuel t
    else c :: unrtfGo fuel t

/-- The markup stripper applied with enough fuel for its input. -/
def unrtf (s : Str) : Str := unrtfGo s.length s

/-! ## BibTeXProcessor.clean_latex -/

/-- One `re.sub` pass for a pattern of the form `pat([^}]*)}` where `pat`
is a literal (e.g. a command name followed by an opening brace): replace
each match by its captured group, scanning left to right without rescanning
replacements. -/
def subCmdGo (pat : Str) : Nat → Str → Str
  | _, [] => []
  | 0, s => s
  | fuel + 1, c :: t =>
    if pat.isPrefixOf (c :: t) then
      let rest := (c :: t).drop pat.length
      let content := rest.takeWhile (fun x => x != '\x7d')
      let after := rest.dropWhile (fun x => x != '\x7d')
      if after = [] then c :: subCmdGo pat fuel t
      else content ++ subCmdGo pat fuel (after.drop 1)
    else c :: subCmdGo pat fuel t

/-- The substitution pass applied with enough fuel for its input. -/
def subCmd (pat s : Str) : Str := subCmdGo pat s.length s

/-- The `re.sub` pass for the pattern matching an opening brace, a literal
em command, one or more whitespace characters, a brace-free capture group
and a closing brace, replaced by the capture. -/
def subEmGo : Nat → Str → Str
  | _, [] => []
  | 0, s => s
  | fuel + 1, c :: t =>
    if (str "\x7b\\em").isPrefixOf (c :: t) then
      let rest := (c :: t).drop 4
      let r2 := rest.dropWhile pyWs
      let content := r2.takeWhile (fun x => x != '\x7d')
      let after := r2.dropWhile (fun x => x != '\x7d')
      if rest.takeWhile pyWs = [] ∨ after = [] then c :: subEmGo fuel t
      else content ++ subEmGo fuel (after.drop 1)
    else c :: subEmGo fuel t

/-- The em-command pass applied with enough fuel for its input. -/
def subEm (s : Str) : Str := subEmGo s.length s

/-- The accent-escape table of `clean_latex`, in source (insertion) order. -/
def accentPairs : List (Str × Str) :=
  [ (str "\\'e", str "é"), (str "\\'a", str "á"), (str "\\'i", str "í"),
    (str "\\'o", str "ó"), (str "\\'u", str "ú"),
    (str "\\`e", str "è"), (str "\\`a", str "à"),
    (str "\\\"o", str "ö"), (str "\\\"u", str "ü"), (str "\\\"a", str "ä"),
    (str "\\~n", str "ñ"), (str "\\c\x7bc\x7d", str "ç"), (str "\\ss", str "ß") ]

/-- `BibTeXProcessor.clean_latex`: strip emphasis commands and brace groups,
normalise a few escapes, collapse hyphen runs, decode accents, trim. -/
def cleanLatex (text : Str) : Str :=
  if text = [] then []
  else
    let t1 := subCmd (str "\\textit\x7b") text
    let t2 := subCmd (str "\\textbf\x7b") t1
    let t3 := subCmd (str "\\emph\x7b") t2
    let t4 := subEm t3
    let t5 := subCmd (str "\x7b") t4
    let t6 := pyReplace t5 (str "\\&") (str "&")
    let t7 := pyReplace t6 (str "~") (str " ")
    let t8 := pyReplace t7 (str "--") (str "-")
    let t9 := pyReplace t8 (str "---") (str "-")
    let t10 := accentPairs.foldl (fun s p => pyReplace s p.1 p.2) t9
    pyStrip t10

/-! ## BibTeXProcessor.parse_authors -/

/-- An author record: `{family, given}`. -/
structure Author where
  family : Str
  given : Str
deriving DecidableEq, Repr

/-- Worker for the case-insensitive split on the author separator word
(a whitespace run, the word "and" in any case, a whitespace run), the
regex split of `parse_authors`.  `acc` holds the current segment reversed. -/
def splitAndGo : Nat → Str → Str → List Str
  | _, [], acc => [acc.reverse]
  | 0, l, acc => [acc.reverse ++ l]
  | fuel + 1, c :: t, acc =>
    if pyWs c then
      match (c :: t).dropWhile pyWs with
      | a :: n :: d :: rest =>
        if a.toLower = 'a' ∧ n.toLower = 'n' ∧ d.toLower = 'd' then
          if rest.takeWhile pyWs = [] then splitAndGo fuel t (c :: acc)
          else acc.reverse :: splitAndGo fuel (rest.dropWhile pyWs) []
        else splitAndGo fuel t (c :: acc)
      | _ => splitAndGo fuel t (c :: acc)
    else splitAndGo fuel t (c :: acc)

/-- Split an author string on the separator word "and" (case-insensitive,
surrounded by whitespace). -/
def splitAnd (s : Str) : List Str := splitAndGo s.length s []

/-- `BibTeXProcessor.parse_authors`: split the (cleaned) author string on
the separator word, then each segment either at its first comma or at its
last whitespace-delimited token. -/
def parseAuthors (authorString : Str) : List Author :=
  if authorString = [] then []
  else
    (splitAnd (cleanLatex authorString)).filterMap fun seg0 =>
      let seg := pyStrip seg0
      if seg = [] then none
      else if ',' ∈ seg then
        some ⟨pyStrip (seg.takeWhile (fun x => x != ',')),
              pyStrip ((seg.dropWhile (fun x => x != ',')).drop 1)⟩
      else
        let toks := pySplitWs seg
        if toks.length = 1 then some ⟨toks.headD [], []⟩
        else some ⟨toks.getLastD [], joinSep (str " ") toks.dropLast⟩

/-! ## AuthorFormatter -/

/-- `AuthorFormatter.initials`: first character of each whitespace-delimited
token of `given`, each followed by `trailing`, joined by `separator`.
(Tokens produced by the split are never empty, so taking the one-character
head is Python's indexing.) -/
def initialsFmt (given separator trailing : Str) : Str :=
  if given = [] then []
  else joinSep separator
    (((pySplitWs given).filter (fun n => n != [])).map (fun n => n.take 1 ++ trailing))

/-- Swap the first and last element of a list, the in-place swap
applied to the formatted author strings when `reverse_authors` is set. -/
def swapFL : List Str → List Str
  | [] => []
  | [a] => [a]
  | a :: b :: t => (b :: t).getLastD a :: ((b :: t).dropLast ++ [a])

/-- One formatted ACS author: family, comma, spaced initials (bare family
when there are no initials). -/
def fmtOneAcs (a : Author) : Str :=
  let init := initialsFmt a.given (str " ") (str ".")
  if init = [] then a.family else a.family ++ str ", " ++ init

/-- `AuthorFormatter.acs` (default cap 10). -/
def acsList (authors : List Author) (maxN : Nat) (rev : Bool) : Str :=
  if authors = [] then []
  else
    let fmt0 := (authors.take maxN).map fmtOneAcs
    let fmt := if rev ∧ 2 ≤ fmt0.length then swapFL fmt0 else fmt0
    if maxN < authors.length then joinSep (str "; ") fmt ++ str "; et al."
    else joinSep (str "; ") fmt

/-- One formatted APA author (same shape as ACS: family, comma, initials). -/
def fmtOneApa (a : Author) : Str :=
  let init := initialsFmt a.given (str " ") (str ".")
  if init = [] then a.family else a.family ++ str ", " ++ init

/-- `AuthorFormatter.apa` (default cap 7).  Over the cap: first six
formatted names, an ellipsis separator, then the last formatted name of the
truncated list.  (Python indexes `fmt[-1]`; the cap is positive at every
call site, so the list is non-empty and `getLastD` is that indexing.) -/
def apaList (authors : List Author) (maxN : Nat) (rev : Bool) : Str :=
  if authors = [] then []
  else
    let fmt0 := (authors.take maxN).map fmtOneApa
    let fmt := if rev ∧ 2 ≤ fmt0.length then swapFL fmt0 else fmt0
    if maxN < authors.length then
      joinSep (str ", ") (fmt.take 6) ++ str ", ... " ++ fmt.getLastD []
    else if fmt.length = 1 then fmt.headD []
    else if fmt.length = 2 then fmt.headD [] ++ str " & " ++ (fmt.drop 1).headD []
    else joinSep (str ", ") fmt.dropLast ++ str ", & " ++ fmt.getLastD []

/-- One formatted Vancouver author: family, space, dense unpunctuated
initials. -/
def fmtOneVancouver (a : Author) : Str :=
  let init := initialsFmt a.given [] []
  if init = [] then a.family else a.family ++ str " " ++ init

/-- `AuthorFormatter.vancouver` (default cap 6). -/
def vancouverList (authors : List Author) (maxN : Nat) (rev : Bool) : Str :=
  if authors = [] then []
  else
    let fmt0 := (authors.take maxN).map fmtOneVancouver
    let fmt := if rev ∧ 2 ≤ fmt0.length then swapFL fmt0 else fmt0
    if maxN < authors.length then joinSep (str ", ") fmt ++ str ", et al."
    else joinSep (str ", ") fmt

/-- One formatted Nature author (same shape as ACS). -/
def fmtOneNature (a : Author) : Str :=
  let init := initialsFmt a.given (str " ") (str ".")
  if init = [] then a.family else a.family ++ str ", " ++ init

/-- `AuthorFormatter.nature` (default cap 5). -/
def natureList (authors : List Author) (maxN : Nat) (rev : Bool) : Str :=
  if authors = [] then []
  else
    let fmt0 := (authors.take maxN).map fmtOneNature
    let fmt := if rev ∧ 2 ≤ fmt0.length then swapFL fmt0 else fmt0
    if maxN < authors.length then joinSep (str ", ") fmt ++ str " et al."
    else if fmt.length = 1 then fmt.headD []
    else if fmt.length = 2 then fmt.headD [] ++ str " & " ++ (fmt.drop 1).headD []
    else joinSep (str ", ") fmt.dropLast ++ str " & " ++ fmt.getLastD []

/-- One formatted IEEE author: spaced initials, space, family. -/
def fmtOneIeee (a : Author) : Str :=
  let init := initialsFmt a.given (str " ") (str ".")
  if init = [] then a.family else init ++ str " " ++ a.family

/-- `AuthorFormatter.ieee` (default cap 6). -/
def ieeeList (authors : List Author) (maxN : Nat) (rev : Bool) : Str :=
  if authors = [] then []
  else
    let fmt0 := (authors.take maxN).map fmtOneIeee
    let fmt := if rev ∧ 2 ≤ fmt0.length then swapFL fmt0 else fmt0
    if maxN < authors.length then joinSep (str ", ") fmt ++ str ", et al."
    else if fmt.length = 1 then fmt.headD []
    else if fmt.length = 2 then fmt.headD [] ++ str " and " ++ (fmt.drop 1).headD []
    else joinSep (str ", ") fmt.dropLast ++ str ", and " ++ fmt.getLastD []

/-- Upper-casing of a single character as Python `str.upper` performs it on
the characters this pipeline produces: ASCII letters, the accented letters
of the accent table (ß expands to a two-character string). -/
def upChar (c : Char) : Str :=
  if 'a' ≤ c ∧ c ≤ 'z' then [Char.ofNat (c.toNat - 32)]
  else if c = 'é' then [Char.ofNat 201]
  else if c = 'á' then [Char.ofNat 193]
  else if c = 'í' then [Char.ofNat 205]
  else if c = 'ó' then [Char.ofNat 211]
  else if c = 'ú' then [Char.ofNat 218]
  else if c = 'è' then [Char.ofNat 200]
  else if c = 'à' then [Char.ofNat 192]
  else if c = 'ö' then [Char.ofNat 214]
  else if c = 'ü' then [Char.ofNat 220]
  else if c = 'ä' then [Char.ofNat 196]
  else if c = 'ñ' then [Char.ofNat 209]
  else if c = 'ç' then [Char.ofNat 199]
  else if c = 'ß' then str "SS"
  else [c]

/-- Python `str.upper` over the character classes above. -/
def pyUpper : Str → Str
  | [] => []
  | c :: t => upChar c ++ pyUpper t

/-- One formatted ISO 690 author: upper-cased family, comma, full given
names (bare family when `given` is empty). -/
def fmtOneIso (a : Author) : Str :=
  if a.given = [] then pyUpper a.family
  else pyUpper a.family ++ str ", " ++ a.given

/-- `AuthorFormatter.iso690` (default cap 3). -/
def isoList (authors : List Author) (maxN : Nat) (rev : Bool) : Str :=
  if authors = [] then []
  else
    let fmt0 := (authors.take maxN).map fmtOneIso
    let fmt := if rev ∧ 2 ≤ fmt0.length then swapFL fmt0 else fmt0
    if maxN < authors.length then joinSep (str ", ") fmt ++ str ", et al."
    else joinSep (str ", ") fmt

/-- One formatted Harvard author: family, comma, dense dotted initials
(computed inline in the source, without the shared initials helper). -/
def fmtOneHarvard (a : Author) : Str :=
  let init :=
    if a.given = [] then []
    else joinSep []
      (((pySplitWs a.given).filter (fun n => n != [])).map (fun n => n.take 1 ++ str "."))
  if init = [] then a.family else a.family ++ str ", " ++ init

/-- `AuthorFormatter.harvard` (default cap 3). -/
def harvardList (authors : List Author) (maxN : Nat) (rev : Bool) : Str :=
  if authors = [] then []
  else
    let fmt0 := (authors.take maxN).map fmtOneHarvard
    let fmt := if rev ∧ 2 ≤ fmt0.length then swapFL fmt0 else fmt0
    if maxN < authors.length then joinSep (str ", ") fmt ++ str " et al."
    else if fmt.length = 1 then fmt.headD []
    else if fmt.length = 2 then fmt.headD [] ++ str " and " ++ (fmt.drop 1).headD []
    else joinSep (str ", ") fmt.dropLast ++ str " and " ++ fmt.getLastD []

/-! ## CitationFormatter -/

/-- A raw entry record: the recognised keys of the input boundary, each
defaulting to the empty string when absent.  `ENTRYTYPE` is the one key
whose absence defaults to the word article rather than to the empty
string, hence the option. -/
structure Entry where
  author : Str := []
  title : Str := []
  journal : Str := []
  year : Str := []
  volume : Str := []
  number : Str := []
  pages : Str := []
  doi : Str := []
  publisher : Str := []
  address : Str := []
  isbn : Str := []
  edition : Str := []
  entrytype : Option Str := none
deriving DecidableEq, Repr

/-- Lower-casing of a single character as Python `str.lower` performs it on
ASCII (the entry kinds compared against are ASCII words). -/
def lowChar (c : Char) : Char :=
  if 'A' ≤ c ∧ c ≤ 'Z' then Char.ofNat (c.toNat + 32) else c

/-- Python `str.lower` (ASCII). -/
def pyLower (s : Str) : Str := s.map lowChar

/-- The canonical field set extracted by `CitationFormatter._get_fields`. -/
structure Fields where
  authors : List Author
  title : Str
  journal : Str
  year : Str
  volume : Str
  issue : Str
  pages : Str
  doi : Str
  publisher : Str
  address : Str
  entryType : Str
deriving DecidableEq, Repr

/-- `CitationFormatter._get_fields`: parse authors, clean the free-text
fields, turn double hyphens in the page range into an en-dash, lower-case
the entry type (defaulting to article when the key is absent). -/
def getFields (e : Entry) : Fields :=
  { authors := parseAuthors e.author
    title := cleanLatex e.title
    journal := cleanLatex e.journal
    year := e.year
    volume := e.volume
    issue := e.number
    pages := pyReplace e.pages (str "--") (str "–")
    doi := e.doi
    publisher := cleanLatex e.publisher
    address := cleanLatex e.address
    entryType := pyLower (e.entrytype.getD (str "article")) }

/-- `CitationFormatter.format_acs`.  `maxN = none` selects the author
formatter's default cap, as the Python call sites do. -/
def formatAcs (e : Entry) (idx : Nat) (maxN : Option Nat)
    (omitTitle rev : Bool) : Str × Str :=
  let f := getFields e
  let auth := acsList f.authors (maxN.getD 10) rev
  let pr :=
    if f.entryType = str "article" then
      if omitTitle then
        let plain := auth ++ str " " ++ f.journal ++ str " " ++ f.year ++ str ", " ++
          f.volume ++ str ", " ++ f.pages ++ str "."
        let plain := if f.doi = [] then plain else plain ++ str " DOI: " ++ f.doi
        let rtf := escape (auth ++ str " ") ++ italic f.journal ++
          escape (str " " ++ f.year ++ str ", ") ++
          (if f.volume = [] then [] else italic f.volume) ++
          escape (if f.pages = [] then str "." else str ", " ++ f.pages ++ str ".")
        let rtf := if f.doi = [] then rtf else rtf ++ escape (str " DOI: " ++ f.doi)
        (plain, rtf)
      else
        let plain := auth ++ str " " ++ f.title ++ str ". " ++ f.journal ++ str " " ++
          f.year ++ str ", " ++ f.volume ++ str ", " ++ f.pages ++ str "."
        let plain := if f.doi = [] then plain else plain ++ str " DOI: " ++ f.doi
        let rtf := escape (auth ++ str " " ++ f.title ++ str ". ") ++ italic f.journal ++
          escape (str " " ++ f.year ++ str ", ") ++
          (if f.volume = [] then [] else italic f.volume) ++
          escape (if f.pages = [] then str "." else str ", " ++ f.pages ++ str ".")
        let rtf := if f.doi = [] then rtf else rtf ++ escape (str " DOI: " ++ f.doi)
        (plain, rtf)
    else if f.entryType = str "book" then
      if omitTitle then
        let plain := auth ++ str " " ++ f.publisher ++ str ": " ++ f.address ++
          str ", " ++ f.year ++ str "."
        (plain, escape plain)
      else
        let plain := auth ++ str " " ++ f.title ++ str "; " ++ f.publisher ++ str ": " ++
          f.address ++ str ", " ++ f.year ++ str "."
        let rtf := escape (auth ++ str " ") ++ italic f.title ++
          escape (str "; " ++ f.publisher ++ str ": " ++ f.address ++ str ", " ++
            f.year ++ str ".")
        (plain, rtf)
    else
      let plain :=
        if omitTitle then auth ++ str " " ++ f.year ++ str "."
        else auth ++ str " " ++ f.title ++ str ". " ++ f.year ++ str "."
      (plain, escape plain)
  (pyStrip pr.1, pyStrip pr.2)

/-- `CitationFormatter.format_apa`. -/
def formatApa (e : Entry) (idx : Nat) (maxN : Option Nat)
    (omitTitle rev : Bool) : Str × Str :=
  let f := getFields e
  let auth := apaList f.authors (maxN.getD 7) rev
  let volIssue := if f.issue = [] then f.volume
    else f.volume ++ str "(" ++ f.issue ++ str ")"
  let pr :=
    if f.entryType = str "article" then
      if omitTitle then
        let plain := auth ++ str " (" ++ f.year ++ str "). " ++ f.journal ++ str ", " ++
          volIssue ++ str ", " ++ f.pages ++ str "."
        let plain := if f.doi = [] then plain
          else plain ++ str " https://doi.org/" ++ f.doi
        let rtf := escape (auth ++ str " (" ++ f.year ++ str "). ") ++ italic f.journal ++
          escape (str ", ") ++ (if volIssue = [] then [] else italic volIssue) ++
          escape (if f.pages = [] then str "." else str ", " ++ f.pages ++ str ".")
        let rtf := if f.doi = [] then rtf
          else rtf ++ escape (str " https://doi.org/" ++ f.doi)
        (plain, rtf)
      else
        let plain := auth ++ str " (" ++ f.year ++ str "). " ++ f.title ++ str ". " ++
          f.journal ++ str ", " ++ volIssue ++ str ", " ++ f.pages ++ str "."
        let plain := if f.doi = [] then plain
          else plain ++ str " https://doi.org/" ++ f.doi
        let rtf := escape (auth ++ str " (" ++ f.year ++ str "). " ++ f.title ++ str ". ") ++
          italic f.journal ++ escape (str ", ") ++
          (if volIssue = [] then [] else italic volIssue) ++
          escape (if f.pages = [] then str "." else str ", " ++ f.pages ++ str ".")
        let rtf := if f.doi = [] then rtf
          else rtf ++ escape (str " https://doi.org/" ++ f.doi)
        (plain, rtf)
    else if f.entryType = str "book" then
      if omitTitle then
        let plain := auth ++ str " (" ++ f.year ++ str "). " ++ f.publisher ++ str "."
        (plain, escape plain)
      else
        let plain := auth ++ str " (" ++ f.year ++ str "). " ++ f.title ++ str ". " ++
          f.publisher ++ str "."
        let rtf := escape (auth ++ str " (" ++ f.year ++ str "). ") ++ italic f.title ++
          escape (str ". " ++ f.publisher ++ str ".")
        (plain, rtf)
    else
      let plain :=
        if omitTitle then auth ++ str " (" ++ f.year ++ str ")."
        else auth ++ str " (" ++ f.year ++ str "). " ++ f.title ++ str "."
      (plain, escape plain)
  (pyStrip pr.1, pyStrip pr.2)

/-- `CitationFormatter.format_vancouver`. -/
def formatVancouver (e : Entry) (idx : Nat) (maxN : Option Nat)
    (omitTitle rev : Bool) : Str × Str :=
  let f := getFields e
  let auth := vancouverList f.authors (maxN.getD 6) rev
  let pages := pyReplace f.pages (str "–") (str "-")
  let volIssue := if f.issue = [] then f.volume
    else f.volume ++ str "(" ++ f.issue ++ str ")"
  let pr :=
    if f.entryType = str "article" then
      if omitTitle then
        let plain := decRepr idx ++ str ". " ++ auth ++ str ". " ++ f.journal ++
          str ". " ++ f.year ++ str ";" ++ volIssue ++ str ":" ++ pages ++ str "."
        let rtf := escape (decRepr idx ++ str ". " ++ auth ++ str ". ") ++
          italic f.journal ++
          escape (str ". " ++ f.year ++ str ";" ++ volIssue ++ str ":" ++ pages ++ str ".")
        (plain, rtf)
      else
        let plain := decRepr idx ++ str ". " ++ auth ++ str ". " ++ f.title ++ str ". " ++
          f.journal ++ str ". " ++ f.year ++ str ";" ++ volIssue ++ str ":" ++ pages ++ str "."
        let rtf := escape (decRepr idx ++ str ". " ++ auth ++ str ". " ++ f.title ++ str ". ") ++
          italic f.journal ++
          escape (str ". " ++ f.year ++ str ";" ++ volIssue ++ str ":" ++ pages ++ str ".")
        (plain, rtf)
    else
      let plain :=
        if omitTitle then decRepr idx ++ str ". " ++ auth ++ str ". " ++ f.year ++ str "."
        else decRepr idx ++ str ". " ++ auth ++ str ". " ++ f.title ++ str ". " ++
          f.year ++ str "."
      (plain, escape plain)
  (pyStrip pr.1, pyStrip pr.2)

/-- `CitationFormatter.format_angewandte`. -/
def formatAngewandte (e : Entry) (idx : Nat) (maxN : Option Nat)
    (omitTitle rev : Bool) : Str × Str :=
  let f := getFields e
  let auth := natureList f.authors (maxN.getD 5) rev
  let pr :=
    if f.entryType = str "article" then
      let plain := auth ++ str ", " ++ f.journal ++ str " " ++ f.year ++ str ", " ++
        f.volume ++ str ", " ++ f.pages ++ str "."
      let plain := if f.doi = [] then plain else plain ++ str " DOI: " ++ f.doi
      let rtf := escape (auth ++ str ", ") ++ italic f.journal ++
        escape (str " " ++ f.year ++ str ", ") ++ italic f.volume ++
        escape (str ", " ++ f.pages ++ str ".")
      let rtf := if f.doi = [] then rtf else rtf ++ escape (str " DOI: " ++ f.doi)
      (plain, rtf)
    else if f.entryType = str "book" then
      if omitTitle then
        let plain := auth ++ str ", " ++ f.publisher ++ str ", " ++ f.address ++
          str ", " ++ f.year ++ str "."
        (plain, escape plain)
      else
        let plain := auth ++ str ", " ++ f.title ++ str ", " ++ f.publisher ++ str ", " ++
          f.address ++ str ", " ++ f.year ++ str "."
        let rtf := escape (auth ++ str ", ") ++ italic f.title ++
          escape (str ", " ++ f.publisher ++ str ", " ++ f.address ++ str ", " ++
            f.year ++ str ".")
        (plain, rtf)
    else
      let plain :=
        if omitTitle then auth ++ str ", " ++ f.year ++ str "."
        else auth ++ str ", " ++ f.title ++ str ", " ++ f.year ++ str "."
      (plain, escape plain)
  (pyStrip pr.1, pyStrip pr.2)

/-- `CitationFormatter.format_rsc`. -/
def formatRsc (e : Entry) (idx : Nat) (maxN : Option Nat)
    (omitTitle rev : Bool) : Str × Str :=
  let f := getFields e
  let auth := natureList f.authors (maxN.getD 5) rev
  let pr :=
    if f.entryType = str "article" then
      let plain := auth ++ str ", " ++ f.journal ++ str ", " ++ f.year ++ str ", " ++
        f.volume ++ str ", " ++ f.pages ++ str "."
      let plain := if f.doi = [] then plain else plain ++ str " DOI: " ++ f.doi
      let rtf := escape (auth ++ str ", ") ++ italic f.journal ++
        escape (str ", " ++ f.year ++ str ", ") ++ bold f.volume ++
        escape (str ", " ++ f.pages ++ str ".")
      let rtf := if f.doi = [] then rtf else rtf ++ escape (str " DOI: " ++ f.doi)
      (plain, rtf)
    else if f.entryType = str "book" then
      if omitTitle then
        let plain := auth ++ str ", " ++ f.publisher ++ str ", " ++ f.year ++ str "."
        (plain, escape plain)
      else
        let plain := auth ++ str ", " ++ f.title ++ str ", " ++ f.publisher ++ str ", " ++
          f.year ++ str "."
        let rtf := escape (auth ++ str ", ") ++ italic f.title ++
          escape (str ", " ++ f.publisher ++ str ", " ++ f.year ++ str ".")
        (plain, rtf)
    else
      let plain :=
        if omitTitle then auth ++ str ", " ++ f.year ++ str "."
        else auth ++ str ", " ++ f.title ++ str ", " ++ f.year ++ str "."
      (plain, escape plain)
  (pyStrip pr.1, pyStrip pr.2)

/-- `CitationFormatter.format_aoa`. -/
def formatAoa (e : Entry) (idx : Nat) (maxN : Option Nat)
    (omitTitle rev : Bool) : Str × Str :=
  let f := getFields e
  let auth := acsList f.authors (maxN.getD 10) rev
  let pr :=
    if f.entryType = str "article" then
      if omitTitle then
        let plain := auth ++ str " " ++ f.journal ++ str " " ++ f.year ++ str ", " ++
          f.volume ++ str ", " ++ f.pages ++ str "."
        let plain := if f.doi = [] then plain
          else plain ++ str " https://doi.org/" ++ f.doi
        let rtf := escape (auth ++ str " ") ++ italic f.journal ++ escape (str " ") ++
          bold f.year ++ escape (str ", ") ++ italic f.volume ++
          escape (str ", " ++ f.pages ++ str ".")
        let rtf := if f.doi = [] then rtf
          else rtf ++ escape (str " https://doi.org/" ++ f.doi)
        (plain, rtf)
      else
        let plain := auth ++ str " " ++ f.title ++ str ". " ++ f.journal ++ str " " ++
          f.year ++ str ", " ++ f.volume ++ str ", " ++ f.pages ++ str "."
        let plain := if f.doi = [] then plain
          else plain ++ str " https://doi.org/" ++ f.doi
        let rtf := escape (auth ++ str " " ++ f.title ++ str ". ") ++ italic f.journal ++
          escape (str " ") ++ bold f.year ++ escape (str ", ") ++ italic f.volume ++
          escape (str ", " ++ f.pages ++ str ".")
        let rtf := if f.doi = [] then rtf
          else rtf ++ escape (str " https://doi.org/" ++ f.doi)
        (plain, rtf)
    else
      let plain :=
        if omitTitle then auth ++ str " " ++ f.year ++ str "."
        else auth ++ str " " ++ f.title ++ str ". " ++ f.year ++ str "."
      (plain, escape plain)
  (pyStrip pr.1, pyStrip pr.2)

/-- `CitationFormatter.format_nature`. -/
def formatNature (e : Entry) (idx : Nat) (maxN : Option Nat)
    (omitTitle rev : Bool) : Str × Str :=
  let f := getFields e
  let auth := natureList f.authors (maxN.getD 5) rev
  let pr :=
    if f.entryType = str "article" then
      if omitTitle then
        let plain := decRepr idx ++ str ". " ++ auth ++ str " " ++ f.journal ++ str " " ++
          f.volume ++ str ", " ++ f.pages ++ str " (" ++ f.year ++ str ")."
        let plain := if f.doi = [] then plain
          else plain ++ str " https://doi.org/" ++ f.doi
        let rtf := escape (decRepr idx ++ str ". " ++ auth ++ str " ") ++
          italic f.journal ++ escape (str " ") ++ bold f.volume ++
          escape (str ", " ++ f.pages ++ str " (" ++ f.year ++ str ").")
        let rtf := if f.doi = [] then rtf
          else rtf ++ escape (str " https://doi.org/" ++ f.doi)
        (plain, rtf)
      else
        let plain := decRepr idx ++ str ". " ++ auth ++ str " " ++ f.title ++ str ". " ++
          f.journal ++ str " " ++ f.volume ++ str ", " ++ f.pages ++ str " (" ++
          f.year ++ str ")."
        let plain := if f.doi = [] then plain
          else plain ++ str " https://doi.org/" ++ f.doi
        let rtf := escape (decRepr idx ++ str ". " ++ auth ++ str " " ++ f.title ++ str ". ") ++
          italic f.journal ++ escape (str " ") ++ bold f.volume ++
          escape (str ", " ++ f.pages ++ str " (" ++ f.year ++ str ").")
        let rtf := if f.doi = [] then rtf
          else rtf ++ escape (str " https://doi.org/" ++ f.doi)
        (plain, rtf)
    else if f.entryType = str "book" then
      if omitTitle then
        let plain := decRepr idx ++ str ". " ++ auth ++ str " (" ++ f.publisher ++
          str ", " ++ f.year ++ str ")."
        (plain, escape plain)
      else
        let plain := decRepr idx ++ str ". " ++ auth ++ str " " ++ f.title ++ str " (" ++
          f.publisher ++ str ", " ++ f.year ++ str ")."
        let rtf := escape (decRepr idx ++ str ". " ++ auth ++ str " ") ++ italic f.title ++
          escape (str " (" ++ f.publisher ++ str ", " ++ f.year ++ str ").")
        (plain, rtf)
    else
      let plain :=
        if omitTitle then decRepr idx ++ str ". " ++ auth ++ str " (" ++ f.year ++ str ")."
        else decRepr idx ++ str ". " ++ auth ++ str " " ++ f.title ++ str " (" ++
          f.year ++ str ")."
      (plain, escape plain)
  (pyStrip pr.1, pyStrip pr.2)

/-- `CitationFormatter.format_ieee`. -/
def formatIeee (e : Entry) (idx : Nat) (maxN : Option Nat)
    (omitTitle rev : Bool) : Str × Str :=
  let f := getFields e
  let auth := ieeeList f.authors (maxN.getD 6) rev
  let pr :=
    if f.entryType = str "article" then
      let parts := (if f.volume = [] then [] else [str "vol. " ++ f.volume]) ++
        (if f.issue = [] then [] else [str "no. " ++ f.issue]) ++
        (if f.pages = [] then [] else [str "pp. " ++ f.pages])
      let detail := joinSep (str ", ") parts
      if omitTitle then
        let plain := str "[" ++ decRepr idx ++ str "] " ++ auth ++ str ", " ++
          f.journal ++ str ", " ++ detail ++ str ", " ++ f.year ++ str "."
        let rtf := escape (str "[" ++ decRepr idx ++ str "] " ++ auth ++ str ", ") ++
          italic f.journal ++ escape (str ", " ++ detail ++ str ", " ++ f.year ++ str ".")
        (plain, rtf)
      else
        let plain := str "[" ++ decRepr idx ++ str "] " ++ auth ++ str ", \"" ++
          f.title ++ str ",\" " ++ f.journal ++ str ", " ++ detail ++ str ", " ++
          f.year ++ str "."
        let rtf := escape (str "[" ++ decRepr idx ++ str "] " ++ auth ++ str ", \"" ++
            f.title ++ str ",\" ") ++
          italic f.journal ++ escape (str ", " ++ detail ++ str ", " ++ f.year ++ str ".")
        (plain, rtf)
    else if f.entryType = str "book" then
      if omitTitle then
        let plain := str "[" ++ decRepr idx ++ str "] " ++ auth ++ str ", " ++
          f.address ++ str ": " ++ f.publisher ++ str ", " ++ f.year ++ str "."
        (plain, escape plain)
      else
        let plain := str "[" ++ decRepr idx ++ str "] " ++ auth ++ str ", " ++
          f.title ++ str ". " ++ f.address ++ str ": " ++ f.publisher ++ str ", " ++
          f.year ++ str "."
        let rtf := escape (str "[" ++ decRepr idx ++ str "] " ++ auth ++ str ", ") ++
          italic f.title ++
          escape (str ". " ++ f.address ++ str ": " ++ f.publisher ++ str ", " ++
            f.year ++ str ".")
        (plain, rtf)
    else
      let plain :=
        if omitTitle then str "[" ++ decRepr idx ++ str "] " ++ auth ++ str ", " ++
          f.year ++ str "."
        else str "[" ++ decRepr idx ++ str "] " ++ auth ++ str ", \"" ++ f.title ++
          str ",\" " ++ f.year ++ str "."
      (plain, escape plain)
  (pyStrip pr.1, pyStrip pr.2)

/-- `CitationFormatter.format_iso690`. -/
def formatIso690 (e : Entry) (idx : Nat) (maxN : Option Nat)
    (omitTitle rev : Bool) : Str × Str :=
  let f := getFields e
  let auth := isoList f.authors (maxN.getD 3) rev
  let volIssue := if f.issue = [] then f.volume
    else f.volume ++ str "(" ++ f.issue ++ str ")"
  let pr :=
    if f.entryType = str "article" then
      if omitTitle then
        let plain := str "[" ++ decRepr idx ++ str "] " ++ auth ++ str ". " ++
          f.journal ++ str ". " ++ f.year ++ str ", " ++ volIssue ++ str ", " ++
          f.pages ++ str "."
        let plain := if f.doi = [] then plain else plain ++ str " DOI: " ++ f.doi
        let rtf := escape (str "[" ++ decRepr idx ++ str "] " ++ auth ++ str ". ") ++
          italic f.journal ++
          escape (str ". " ++ f.year ++ str ", " ++ volIssue ++ str ", " ++
            f.pages ++ str ".")
        let rtf := if f.doi = [] then rtf else rtf ++ escape (str " DOI: " ++ f.doi)
        (plain, rtf)
      else
        let plain := str "[" ++ decRepr idx ++ str "] " ++ auth ++ str ". " ++
          f.title ++ str ". " ++ f.journal ++ str ". " ++ f.year ++ str ", " ++
          volIssue ++ str ", " ++ f.pages ++ str "."
        let plain := if f.doi = [] then plain else plain ++ str " DOI: " ++ f.doi
        let rtf := escape (str "[" ++ decRepr idx ++ str "] " ++ auth ++ str ". " ++
            f.title ++ str ". ") ++
          italic f.journal ++
          escape (str ". " ++ f.year ++ str ", " ++ volIssue ++ str ", " ++
            f.pages ++ str ".")
        let rtf := if f.doi = [] then rtf else rtf ++ escape (str " DOI: " ++ f.doi)
        (plain, rtf)
    else if f.entryType = str "book" then
      if omitTitle then
        let plain := str "[" ++ decRepr idx ++ str "] " ++ auth ++ str ". " ++
          f.address ++ str ": " ++ f.publisher ++ str ", " ++ f.year ++ str "."
        let plain := if e.isbn = [] then plain
          else plain ++ str " ISBN " ++ e.isbn ++ str "."
        (plain, escape plain)
      else
        let plain := str "[" ++ decRepr idx ++ str "] " ++ auth ++ str ". " ++
          f.title ++ str ". " ++ f.address ++ str ": " ++ f.publisher ++ str ", " ++
          f.year ++ str "."
        let plain := if e.isbn = [] then plain
          else plain ++ str " ISBN " ++ e.isbn ++ str "."
        let rtf := escape (str "[" ++ decRepr idx ++ str "] " ++ auth ++ str ". ") ++
          italic f.title ++
          escape (str ". " ++ f.address ++ str ": " ++ f.publisher ++ str ", " ++
            f.year ++ str ".")
        let rtf := if e.isbn = [] then rtf
          else rtf ++ escape (str " ISBN " ++ e.isbn ++ str ".")
        (plain, rtf)
    else
      let plain :=
        if omitTitle then str "[" ++ decRepr idx ++ str "] " ++ auth ++ str ". " ++
          f.year ++ str "."
        else str "[" ++ decRepr idx ++ str "] " ++ auth ++ str ". " ++ f.title ++
          str ". " ++ f.year ++ str "."
      (plain, escape plain)
  (pyStrip pr.1, pyStrip pr.2)

/-- `CitationFormatter.format_harvard`. -/
def formatHarvard (e : Entry) (idx : Nat) (maxN : Option Nat)
    (omitTitle rev : Bool) : Str × Str :=
  let f := getFields e
  let auth := harvardList f.authors (maxN.getD 3) rev
  let pr :=
    if f.entryType = str "article" then
      let volIssue := if f.issue = [] then f.volume
        else f.volume ++ str "(" ++ f.issue ++ str ")"
      if omitTitle then
        let plain := auth ++ str " (" ++ f.year ++ str ") " ++ f.journal ++ str ", " ++
          volIssue ++ str ", pp. " ++ f.pages ++ str "."
        let plain := if f.doi = [] then plain else plain ++ str " doi: " ++ f.doi
        let rtf := escape (auth ++ str " (" ++ f.year ++ str ") ") ++ italic f.journal ++
          escape (str ", " ++ volIssue ++ str ", pp. " ++ f.pages ++ str ".")
        let rtf := if f.doi = [] then rtf else rtf ++ escape (str " doi: " ++ f.doi)
        (plain, rtf)
      else
        let plain := auth ++ str " (" ++ f.year ++ str ") '" ++ f.title ++ str "', " ++
          f.journal ++ str ", " ++ volIssue ++ str ", pp. " ++ f.pages ++ str "."
        let plain := if f.doi = [] then plain else plain ++ str " doi: " ++ f.doi
        let rtf := escape (auth ++ str " (" ++ f.year ++ str ") '" ++ f.title ++
            str "', ") ++
          italic f.journal ++
          escape (str ", " ++ volIssue ++ str ", pp. " ++ f.pages ++ str ".")
        let rtf := if f.doi = [] then rtf else rtf ++ escape (str " doi: " ++ f.doi)
        (plain, rtf)
    else if f.entryType = str "book" then
      let editionStr := if e.edition = [] then []
        else str " " ++ e.edition ++ str " edn."
      if omitTitle then
        let plain := auth ++ str " (" ++ f.year ++ str ")." ++ editionStr ++ str " " ++
          f.address ++ str ": " ++ f.publisher ++ str "."
        (plain, escape plain)
      else
        let plain := auth ++ str " (" ++ f.year ++ str ") " ++ f.title ++ str "." ++
          editionStr ++ str " " ++ f.address ++ str ": " ++ f.publisher ++ str "."
        let rtf := escape (auth ++ str " (" ++ f.year ++ str ") ") ++ italic f.title ++
          escape (str "." ++ editionStr ++ str " " ++ f.address ++ str ": " ++
            f.publisher ++ str ".")
        (plain, rtf)
    else
      let plain :=
        if omitTitle then auth ++ str " (" ++ f.year ++ str ")."
        else auth ++ str " (" ++ f.year ++ str ") '" ++ f.title ++ str "'."
      (plain, escape plain)
  (pyStrip pr.1, pyStrip pr.2)

/-! ## InTextFormatter -/

/-- `InTextFormatter.get_author_year`. -/
def getAuthorYear (e : Entry) : Str × Str :=
  let authors := parseAuthors e.author
  let year := e.year
  match authors with
  | [] => (str "Unknown", year)
  | [a] => (a.family, year)
  | [a, b] => (a.family ++ str " & " ++ b.family, year)
  | a :: _ :: _ :: _ => (a.family ++ str " et al.", year)

/-- `InTextFormatter.author_year`: the parenthetical form. -/
def authorYear (e : Entry) (idx : Nat) : Str × Str :=
  let ay := getAuthorYear e
  let plain := str "(" ++ ay.1 ++ str ", " ++ ay.2 ++ str ")"
  (plain, escape plain)

/-- `InTextFormatter.author_year_narrative`. -/
def authorYearNarrative (e : Entry) (idx : Nat) : Str × Str :=
  let ay := getAuthorYear e
  let plain := ay.1 ++ str " (" ++ ay.2 ++ str ")"
  (plain, escape plain)

/-- `InTextFormatter.numbered`. -/
def numbered (e : Entry) (idx : Nat) : Str × Str :=
  let plain := str "[" ++ decRepr idx ++ str "]"
  (plain, escape plain)

/-- `InTextFormatter.superscript`. -/
def superscriptCite (e : Entry) (idx : Nat) : Str × Str :=
  (decRepr idx, superscript (decRepr idx))

/-- The reference-style registry `REFERENCE_STYLES` (key order as in the
source). -/
def referenceStyles :
    List (Str × (Entry → Nat → Option Nat → Bool → Bool → Str × Str)) :=
  [ (str "ACS", formatAcs), (str "APA (7th)", formatApa),
    (str "Harvard", formatHarvard), (str "Vancouver", formatVancouver),
    (str "Angewandte", formatAngewandte), (str "RSC", formatRsc),
    (str "AoA", formatAoa), (str "Nature", formatNature),
    (str "IEEE", formatIeee), (str "ISO 690", formatIso690) ]

/-! ## Join stages of the author-list formatters

These restate, per style, the final joining step applied to the list of
already-formatted author strings.  They are used to express the reversal
claim: the reversed output is the same join applied to the swapped list. -/

/-- Join stage of `AuthorFormatter.acs`. -/
def acsJoin (origLen maxN : Nat) (fmt : List Str) : Str :=
  if maxN < origLen then joinSep (str "; ") fmt ++ str "; et al."
  else joinSep (str "; ") fmt

/-- Join stage of `AuthorFormatter.apa`. -/
def apaJoin (origLen maxN : Nat) (fmt : List Str) : Str :=
  if maxN < origLen then
    joinSep (str ", ") (fmt.take 6) ++ str ", ... " ++ fmt.getLastD []
  else if fmt.length = 1 then fmt.headD []
  else if fmt.length = 2 then fmt.headD [] ++ str " & " ++ (fmt.drop 1).headD []
  else joinSep (str ", ") fmt.dropLast ++ str ", & " ++ fmt.getLastD []

/-- Join stage of `AuthorFormatter.vancouver`. -/
def vancouverJoin (origLen maxN : Nat) (fmt : List Str) : Str :=
  if maxN < origLen then joinSep (str ", ") fmt ++ str ", et al."
  else joinSep (str ", ") fmt

/-- Join stage of `AuthorFormatter.nature`. -/
def natureJoin (origLen maxN : Nat) (fmt : List Str) : Str :=
  if maxN < origLen then joinSep (str ", ") fmt ++ str " et al."
  else if fmt.length = 1 then fmt.headD []
  else if fmt.length = 2 then fmt.headD [] ++ str " & " ++ (fmt.drop 1).headD []
  else joinSep (str ", ") fmt.dropLast ++ str " & " ++ fmt.getLastD []

/-- Join stage of `AuthorFormatter.ieee`. -/
def ieeeJoin (origLen maxN : Nat) (fmt : List Str) : Str :=
  if maxN < origLen then joinSep (str ", ") fmt ++ str ", et al."
  else if fmt.length = 1 then fmt.headD []
  else if fmt.length = 2 then fmt.headD [] ++ str " and " ++ (fmt.drop 1).headD []
  else joinSep (str ", ") fmt.dropLast ++ str ", and " ++ fmt.getLastD []

/-- Join stage of `AuthorFormatter.iso690`. -/
def isoJoin (origLen maxN : Nat) (fmt : List Str) : Str :=
  if maxN < origLen then joinSep (str ", ") fmt ++ str ", et al."
  else joinSep (str ", ") fmt

/-- Join stage of `AuthorFormatter.harvard`. -/
def harvardJoin (origLen maxN : Nat) (fmt : List Str) : Str :=
  if maxN < origLen then joinSep (str ", ") fmt ++ str " et al."
  else if fmt.length = 1 then fmt.headD []
  else if fmt.length = 2 then fmt.headD [] ++ str " and " ++ (fmt.drop 1).headD []
  else joinSep (str ", ") fmt.dropLast ++ str " and " ++ fmt.getLastD []

/-! ## Concrete entries used by the scenario claims -/

/-- The all-fields-absent entry (entry kind defaults to article). -/
def entryEmpty : Entry := {}

/-- A representative article entry with an empty author field. -/
def entryNoAuthor : Entry :=
  { title := str "Title", journal := str "Journal", year := str "2020",
    volume := str "5", number := str "2", pages := str "10--20",
    entrytype := some (str "article") }

/-- The concrete article entry of the ACS scenario. -/
def entryDmitrienko : Entry :=
  { author := str "Dmitrienko, Gary I and Nielsen, Kent E",
    title := str "N-cyanoindoles...",
    journal := str "Tetrahedron Letters",
    volume := str "31", number := str "26",
    pages := str "3681--3684", year := str "1990",
    doi := str "10.1016/s0040-4039(00)97443-4",
    entrytype := some (str "article") }

/-- The scenario entry with a non-empty DOI, used against the Vancouver
article branch. -/
def entryVanDoi : Entry :=
  { author := str "Smith, John", title := str "Title",
    journal := str "Journal", year := str "2020", volume := str "5",
    pages := str "10--20", doi := str "10.1000/x",
    entrytype := some (str "article") }

/-- An eleven-element author list, above every style's default cap. -/
def elevenAuthors : List Author := List.replicate 11 ⟨str "Fam", str "Giv"⟩

/-! ## Proof-support notions

Small predicates and the character-level view of `escape`, used to state
and prove the structural lemmas behind the consistency claims. -/

/-- The last character (if any) is not whitespace. -/
def lastOk (y : Str) : Bool :=
  match y.reverse with
  | [] => true
  | c :: _ => !pyWs c

/-- The first character (if any) is not whitespace. -/
def headOkB (y : Str) : Bool :=
  match y with
  | [] => true
  | c :: _ => !pyWs c

/-- Some character is not whitespace. -/
def hasNonWs (y : Str) : Bool := y.any (fun c => !pyWs c)

/-- Every character of the leading whitespace run is ASCII. -/
def asciiRun (y : Str) : Prop := ∀ c ∈ y.takeWhile pyWs, c.toNat < 128

instance asciiRunDecidable (y : Str) : Decidable (asciiRun y) :=
  inferInstanceAs (Decidable (∀ c ∈ y.takeWhile pyWs, c.toNat < 128))

/-- The restriction of an entry to the fields consulted by the generic
(non-article, non-book) formatter branches: authors, title, year and the
entry kind. -/
def genEntry (e : Entry) : Entry :=
  { author := e.author, title := e.title, year := e.year,
    entrytype := e.entrytype }

/-- The character-level action of `RTFBuilder.escape`. -/
def escChar (c : Char) : Str :=
  if c = '\\' then str "\\\\"
  else if c = '\x7b' then str "\\\x7b"
  else if c = '\x7d' then str "\\\x7d"
  else if 127 < c.toNat then '\\' :: 'u' :: (decRepr c.toNat ++ ['?'])
  else [c]

/-- Replacement of every occurrence of a single character. -/
def charSub (a : Char) (new : Str) : Str → Str
  | [] => []
  | c :: t => (if c = a then new else [c]) ++ charSub a new t

/-- A tagged text segment of a citation template: escaped plain text or an
emphasis wrap. -/
inductive Seg where
  | esc : Str → Seg
  | ital : Str → Seg
  | bld : Str → Seg
deriving DecidableEq

/-- The plain-text projection of a segment. -/
def segPlain : Seg → Str
  | .esc s => s
  | .ital s => s
  | .bld s => s

/-- The marked-up projection of a segment. -/
def segRtf : Seg → Str
  | .esc s => escape s
  | .ital s => italic s
  | .bld s => bold s

/-- The plain text of a segment sequence. -/
def renderP : List Seg → Str
  | [] => []
  | s :: r => segPlain s ++ renderP r

/-- The marked-up text of a segment sequence. -/
def renderR : List Seg → Str
  | [] => []
  | s :: r => segRtf s ++ renderR r

/-! # Theorems

The remainder of the file settles the frozen claims. -/

/-! ## C3: author-list tier grammar -/

/-- C3: for every style's author-list formatter (ACS, APA, Vancouver,
Nature, IEEE, ISO 690, Harvard at their default caps): zero authors yield
the empty string; a single formatted entry is returned bare; two entries
are joined with the style's dual-author conjunction and no truncation
marker; three entries are joined with the inter-item separator and the
terminal conjunction before the last (for ACS, Vancouver and ISO 690 the
dual and terminal conjunctions coincide with the separator); and when the
original list exceeds the cap, the output is the separator-join of the
first cap formatted entries followed by the style's truncation marker in
place of the terminal conjunction (for APA the marker is the ellipsis
separator inserted before the last kept name). -/
theorem C3_theorem :
    (acsList [] 10 false = [] ∧
     (∀ a, acsList [a] 10 false = fmtOneAcs a) ∧
     (∀ a b, acsList [a, b] 10 false = fmtOneAcs a ++ str "; " ++ fmtOneAcs b) ∧
     (∀ a b c, acsList [a, b, c] 10 false =
       fmtOneAcs a ++ str "; " ++ fmtOneAcs b ++ str "; " ++ fmtOneAcs c) ∧
     (∀ l, 10 < l.length → acsList l 10 false =
       joinSep (str "; ") ((l.take 10).map fmtOneAcs) ++ str "; et al.")) ∧
    (apaList [] 7 false = [] ∧
     (∀ a, apaList [a] 7 false = fmtOneApa a) ∧
     (∀ a b, apaList [a, b] 7 false = fmtOneApa a ++ str " & " ++ fmtOneApa b) ∧
     (∀ a b c, apaList [a, b, c] 7 false =
       fmtOneApa a ++ str ", " ++ fmtOneApa b ++ str ", & " ++ fmtOneApa c) ∧
     (∀ l, 7 < l.length → apaList l 7 false =
       joinSep (str ", ") (((l.take 7).map fmtOneApa).take 6) ++ str ", ... " ++
         ((l.take 7).map fmtOneApa).getLastD [])) ∧
    (vancouverList [] 6 false = [] ∧
     (∀ a, vancouverList [a] 6 false = fmtOneVancouver a) ∧
     (∀ a b, vancouverList [a, b] 6 false =
       fmtOneVancouver a ++ str ", " ++ fmtOneVancouver b) ∧
     (∀ a b c, vancouverList [a, b, c] 6 false =
       fmtOneVancouver a ++ str ", " ++ fmtOneVancouver b ++ str ", " ++
         fmtOneVancouver c) ∧
     (∀ l, 6 < l.length → vancouverList l 6 false =
       joinSep (str ", ") ((l.take 6).map fmtOneVancouver) ++ str ", et al.")) ∧
    (natureList [] 5 false = [] ∧
     (∀ a, natureList [a] 5 false = fmtOneNature a) ∧
     (∀ a b, natureList [a, b] 5 false = fmtOneNature a ++ str " & " ++ fmtOneNature b) ∧
     (∀ a b c, natureList [a, b, c] 5 false =
       fmtOneNature a ++ str ", " ++ fmtOneNature b ++ str " & " ++ fmtOneNature c) ∧
     (∀ l, 5 < l.length → natureList l 5 false =
       joinSep (str ", ") ((l.take 5).map fmtOneNature) ++ str " et al.")) ∧
    (ieeeList [] 6 false = [] ∧
     (∀ a, ieeeList [a] 6 false = fmtOneIeee a) ∧
     (∀ a b, ieeeList [a, b] 6 false = fmtOneIeee a ++ str " and " ++ fmtOneIeee b) ∧
     (∀ a b c, ieeeList [a, b, c] 6 false =
       fmtOneIeee a ++ str ", " ++ fmtOneIeee b ++ str ", and " ++ fmtOneIeee c) ∧
     (∀ l, 6 < l.length → ieeeList l 6 false =
       joinSep (str ", ") ((l.take 6).map fmtOneIeee) ++ str ", et al.")) ∧
    (isoList [] 3 false = [] ∧
     (∀ a, isoList [a] 3 false = fmtOneIso a) ∧
     (∀ a b, isoList [a, b] 3 false = fmtOneIso a ++ str ", " ++ fmtOneIso b) ∧
     (∀ a b c, isoList [a, b, c] 3 false =
       fmtOneIso a ++ str ", " ++ fmtOneIso b ++ str ", " ++ fmtOneIso c) ∧
     (∀ l, 3 < l.length → isoList l 3 false =
       joinSep (str ", ") ((l.take 3).map fmtOneIso) ++ str ", et al.")) ∧
    (harvardList [] 3 false = [] ∧
     (∀ a, harvardList [a] 3 false = fmtOneHarvard a) ∧
     (∀ a b, harvardList [a, b] 3 false =
       fmtOneHarvard a ++ str " and " ++ fmtOneHarvard b) ∧
     (∀ a b c, harvardList [a, b, c] 3 false =
       fmtOneHarvard a ++ str ", " ++ fmtOneHarvard b ++ str " and " ++
         fmtOneHarvard c) ∧
     (∀ l, 3 < l.length → harvardList l 3 false =
       joinSep (str ", ") ((l.take 3).map fmtOneHarvard) ++ str " et al.")) := by
  have hne : ∀ (l : List Author) (n : Nat), n < l.length → l ≠ [] := by
    intro l n h h2; subst h2; simp at h
  refine ⟨⟨rfl, fun a => rfl, fun a b => rfl,
      fun a b c => by simp [acsList, joinSep, List.append_assoc],
      fun l h => by simp [acsList, hne l 10 h, h]⟩,
    ⟨rfl, fun a => rfl, fun a b => rfl,
      fun a b c => by simp [apaList, joinSep, List.append_assoc],
      fun l h => by simp [apaList, hne l 7 h, h]⟩,
    ⟨rfl, fun a => rfl, fun a b => rfl,
      fun a b c => by simp [vancouverList, joinSep, List.append_assoc],
      fun l h => by simp [vancouverList, hne l 6 h, h]⟩,
    ⟨rfl, fun a => rfl, fun a b => rfl,
      fun a b c => by simp [natureList, joinSep, List.append_assoc],
      fun l h => by simp [natureList, hne l 5 h, h]⟩,
    ⟨rfl, fun a => rfl, fun a b => rfl,
      fun a b c => by simp [ieeeList, joinSep, List.append_assoc],
      fun l h => by simp [ieeeList, hne l 6 h, h]⟩,
    ⟨rfl, fun a => rfl, fun a b => rfl,
      fun a b c => by simp [isoList, joinSep, List.append_assoc],
      fun l h => by simp [isoList, hne l 3 h, h]⟩,
    ⟨rfl, fun a => rfl, fun a b => rfl,
      fun a b c => by simp [harvardList, joinSep, List.append_assoc],
      fun l h => by simp [harvardList, hne l 3 h, h]⟩⟩

/-- C3 witness: the over-cap tier applied to a concrete eleven-author
list, evaluated. -/
theorem C3_witness :
    acsList elevenAuthors 10 false =
      joinSep (str "; ") ((elevenAuthors.take 10).map fmtOneAcs) ++ str "; et al." :=
  C3_theorem.1.2.2.2.2 elevenAuthors (by decide)

/-! ## C4: the reversal option swaps the first and last formatted strings -/

/-- C4: with `reverse` set and at least two formatted authors remaining
after truncation, every style's output is its join stage applied to the
formatted list with first and last exchanged, while the non-reversed output
is the same join stage applied to the unswapped list; the swap exchanges
exactly the first and last strings and leaves every other position
unchanged. -/
theorem C4_theorem :
    (∀ (L : List Str), 2 ≤ L.length →
      (swapFL L).headD [] = L.getLastD [] ∧ (swapFL L).getLastD [] = L.headD [] ∧
      ((swapFL L).drop 1).dropLast = (L.drop 1).dropLast) ∧
    (∀ l m, 2 ≤ ((l.take m).map fmtOneAcs).length →
      acsList l m true = acsJoin l.length m (swapFL ((l.take m).map fmtOneAcs)) ∧
      acsList l m false = acsJoin l.length m ((l.take m).map fmtOneAcs)) ∧
    (∀ l m, 2 ≤ ((l.take m).map fmtOneApa).length →
      apaList l m true = apaJoin l.length m (swapFL ((l.take m).map fmtOneApa)) ∧
      apaList l m false = apaJoin l.length m ((l.take m).map fmtOneApa)) ∧
    (∀ l m, 2 ≤ ((l.take m).map fmtOneVancouver).length →
      vancouverList l m true =
        vancouverJoin l.length m (swapFL ((l.take m).map fmtOneVancouver)) ∧
      vancouverList l m false =
        vancouverJoin l.length m ((l.take m).map fmtOneVancouver)) ∧
    (∀ l m, 2 ≤ ((l.take m).map fmtOneNature).length →
      natureList l m true = natureJoin l.length m (swapFL ((l.take m).map fmtOneNature)) ∧
      natureList l m false = natureJoin l.length m ((l.take m).map fmtOneNature)) ∧
    (∀ l m, 2 ≤ ((l.take m).map fmtOneIeee).length →
      ieeeList l m true = ieeeJoin l.length m (swapFL ((l.take m).map fmtOneIeee)) ∧
      ieeeList l m false = ieeeJoin l.length m ((l.take m).map fmtOneIeee)) ∧
    (∀ l m, 2 ≤ ((l.take m).map fmtOneIso).length →
      isoList l m true = isoJoin l.length m (swapFL ((l.take m).map fmtOneIso)) ∧
      isoList l m false = isoJoin l.length m ((l.take m).map fmtOneIso)) ∧
    (∀ l m, 2 ≤ ((l.take m).map fmtOneHarvard).length →
      harvardList l m true = harvardJoin l.length m (swapFL ((l.take m).map fmtOneHarvard)) ∧
      harvardList l m false = harvardJoin l.length m ((l.take m).map fmtOneHarvard)) := by
  refine ⟨?_, ?_, ?_, ?_, ?_, ?_, ?_, ?_⟩
  · intro L h
    match L, h with
    | a :: b :: t, _ =>
      refine ⟨rfl, ?_, ?_⟩
      · show (((b :: t).getLastD a :: ((b :: t).dropLast ++ [a]))).getLastD [] = a
        rw [List.getLastD_eq_getLast?, ← List.cons_append, List.getLast?_concat]
        rfl
      · simp [swapFL]
  all_goals
    (intro l m h;
     have hne : l ≠ [] := by intro h2; subst h2; simp at h;
     constructor <;>
       (first
         | simp only [acsList, acsJoin, if_neg hne]
         | simp only [apaList, apaJoin, if_neg hne]
         | simp only [vancouverList, vancouverJoin, if_neg hne]
         | simp only [natureList, natureJoin, if_neg hne]
         | simp only [ieeeList, ieeeJoin, if_neg hne]
         | simp only [isoList, isoJoin, if_neg hne]
         | simp only [harvardList, harvardJoin, if_neg hne];
        split_ifs <;> first | rfl | (exfalso; simp_all)))

/-- C4 witness: the ACS reversal equations at a concrete three-author
list. -/
theorem C4_witness :
    acsList [⟨str "A", str "X"⟩, ⟨str "B", str "Y"⟩, ⟨str "C", str "Z"⟩] 10 true =
      acsJoin 3 10 (swapFL (([⟨str "A", str "X"⟩, ⟨str "B", str "Y"⟩,
        ⟨str "C", str "Z"⟩].take 10).map fmtOneAcs)) ∧
    acsList [⟨str "A", str "X"⟩, ⟨str "B", str "Y"⟩, ⟨str "C", str "Z"⟩] 10 false =
      acsJoin 3 10 (([⟨str "A", str "X"⟩, ⟨str "B", str "Y"⟩,
        ⟨str "C", str "Z"⟩].take 10).map fmtOneAcs) :=
  C4_theorem.2.1 [⟨str "A", str "X"⟩, ⟨str "B", str "Y"⟩, ⟨str "C", str "Z"⟩] 10
    (by decide)

/-! ## C5: the organisation-name author string -/

/-- C5 counterexample: the author string of the scenario has three
whitespace-delimited tokens and no comma, so the parser does not return the
whole string as the family name. -/
theorem C5_counterexample :
    parseAuthors (str "World Health Organization") ≠
      [⟨str "World Health Organization", []⟩] := by decide

/-- C5 (amended): the three-token string is split at its last token (family
Organization, given World Health) and ACS renders it with initials; a
genuinely single-token author string parses to a bare family with empty
given and every style's author formatter renders it bare. -/
theorem C5_theorem :
    parseAuthors (str "World Health Organization") =
      [⟨str "Organization", str "World Health"⟩] ∧
    acsList [⟨str "Organization", str "World Health"⟩] 10 false =
      str "Organization, W. H." ∧
    parseAuthors (str "UNESCO") = [⟨str "UNESCO", []⟩] ∧
    acsList [⟨str "UNESCO", []⟩] 10 false = str "UNESCO" ∧
    apaList [⟨str "UNESCO", []⟩] 7 false = str "UNESCO" ∧
    vancouverList [⟨str "UNESCO", []⟩] 6 false = str "UNESCO" ∧
    natureList [⟨str "UNESCO", []⟩] 5 false = str "UNESCO" ∧
    ieeeList [⟨str "UNESCO", []⟩] 6 false = str "UNESCO" ∧
    isoList [⟨str "UNESCO", []⟩] 3 false = str "UNESCO" ∧
    harvardList [⟨str "UNESCO", []⟩] 3 false = str "UNESCO" := by decide

/-! ## C6: zero authors and leading punctuation -/

/-- C6 counterexample: with an empty author field the Angewandte article
output begins with a stray comma. -/
theorem C6_counterexample :
    ((formatAngewandte entryNoAuthor 0 none false false).1).head? = some ',' := by
  decide

/-- C6 (amended): with zero authors every style renders an empty author
segment, but only ACS, APA, AoA, Harvard and Nature are left with clean
leading punctuation: Angewandte and RSC begin with a stray comma, and
Vancouver, IEEE and ISO 690 keep a stray separator after the numeric
index. -/
theorem C6_theorem :
    (formatAcs entryNoAuthor 0 none false false).1 =
      str "Title. Journal 2020, 5, 10–20." ∧
    (formatApa entryNoAuthor 0 none false false).1 =
      str "(2020). Title. Journal, 5(2), 10–20." ∧
    (formatHarvard entryNoAuthor 0 none false false).1 =
      str "(2020) 'Title', Journal, 5(2), pp. 10–20." ∧
    (formatVancouver entryNoAuthor 1 none false false).1 =
      str "1. . Title. Journal. 2020;5(2):10-20." ∧
    (formatAngewandte entryNoAuthor 0 none false false).1 =
      str ", Journal 2020, 5, 10–20." ∧
    (formatRsc entryNoAuthor 0 none false false).1 =
      str ", Journal, 2020, 5, 10–20." ∧
    (formatAoa entryNoAuthor 0 none false false).1 =
      str "Title. Journal 2020, 5, 10–20." ∧
    (formatNature entryNoAuthor 1 none false false).1 =
      str "1.  Title. Journal 5, 10–20 (2020)." ∧
    (formatIeee entryNoAuthor 1 none false false).1 =
      str "[1] , \"Title,\" Journal, vol. 5, no. 2, pp. 10–20, 2020." ∧
    (formatIso690 entryNoAuthor 1 none false false).1 =
      str "[1] . Title. Journal. 2020, 5(2), 10–20." := by decide

/-! ## C7: the concrete ACS scenario -/

/-- C7 counterexample: the plain ACS output of the scenario entry differs
from the claimed string (the formatter inserts a period after the title,
so four dots follow the title text, not three). -/
theorem C7_counterexample :
    (formatAcs entryDmitrienko 0 none false false).1 ≠
      str "Dmitrienko, G. I.; Nielsen, K. E. N-cyanoindoles... Tetrahedron Letters 1990, 31, 3681–3684. DOI: 10.1016/s0040-4039(00)97443-4" := by
  decide

/-- C7 (amended): the scenario entry renders in ACS (default cap, title
kept) to the claimed string with the title followed by the formatter's
period, the page range keeps the en-dash, and the marked-up output wraps
exactly the journal and the volume in italics. -/
theorem C7_theorem :
    (formatAcs entryDmitrienko 0 none false false).1 =
      str "Dmitrienko, G. I.; Nielsen, K. E. N-cyanoindoles.... Tetrahedron Letters 1990, 31, 3681–3684. DOI: 10.1016/s0040-4039(00)97443-4" ∧
    (formatAcs entryDmitrienko 0 none false false).2 =
      str "Dmitrienko, G. I.; Nielsen, K. E. N-cyanoindoles.... \x7b\\i Tetrahedron Letters\x7d 1990, \x7b\\i 31\x7d, 3681\\u8211?3684. DOI: 10.1016/s0040-4039(00)97443-4" ∧
    str "3681–3684" <:+: (formatAcs entryDmitrienko 0 none false false).1 ∧
    italic (str "Tetrahedron Letters") <:+:
      (formatAcs entryDmitrienko 0 none false false).2 ∧
    italic (str "31") <:+: (formatAcs entryDmitrienko 0 none false false).2 := by
  refine ⟨by decide, by decide, ?_, ?_, ?_⟩
  · exact ⟨str "Dmitrienko, G. I.; Nielsen, K. E. N-cyanoindoles.... Tetrahedron Letters 1990, 31, ",
      str ". DOI: 10.1016/s0040-4039(00)97443-4", by decide⟩
  · exact ⟨str "Dmitrienko, G. I.; Nielsen, K. E. N-cyanoindoles.... ",
      str " 1990, \x7b\\i 31\x7d, 3681\\u8211?3684. DOI: 10.1016/s0040-4039(00)97443-4",
      by decide⟩
  · exact ⟨str "Dmitrienko, G. I.; Nielsen, K. E. N-cyanoindoles.... \x7b\\i Tetrahedron Letters\x7d 1990, ",
      str ", 3681\\u8211?3684. DOI: 10.1016/s0040-4039(00)97443-4", by decide⟩

/-! ## C9: zero authors in the in-text styles -/

/-- C9: when the author field parses to no authors (in particular when it
is empty), the parenthetical and narrative in-text styles render the author
segment as the literal word Unknown. -/
theorem C9_theorem (e : Entry) (h : parseAuthors e.author = []) :
    (authorYear e 0).1 = str "(Unknown, " ++ e.year ++ str ")" ∧
    (authorYearNarrative e 0).1 = str "Unknown (" ++ e.year ++ str ")" := by
  constructor <;>
    simp [authorYear, authorYearNarrative, getAuthorYear, h, str]

/-- C9 witness: the empty entry. -/
theorem C9_witness :
    (authorYear entryEmpty 0).1 = str "(Unknown, " ++ entryEmpty.year ++ str ")" ∧
    (authorYearNarrative entryEmpty 0).1 =
      str "Unknown (" ++ entryEmpty.year ++ str ")" :=
  C9_theorem entryEmpty (by decide)

/-! ## C10: APA overflow keeps the truncated list's last name -/

/-- C10: above the default APA cap of seven the formatted list is the first
six formatted names joined by comma-space, the ellipsis separator, then the
formatted seventh name of the truncated list (the element at index six, not
the final author of the original list, whose tail beyond the first seven
formatted entries the output provably does not depend on), with no et-al
marker in the construction. -/
theorem C10_theorem (l : List Author) (h : 7 < l.length) :
    apaList l 7 false =
      joinSep (str ", ") (((l.take 7).map fmtOneApa).take 6) ++ str ", ... " ++
        fmtOneApa (l.getD 6 ⟨[], []⟩) ∧
    (∀ l', 7 < l'.length → l.take 7 = l'.take 7 →
      apaList l 7 false = apaList l' 7 false) := by
  have hne : l ≠ [] := by intro h2; subst h2; simp at h
  have hlast : (((l.take 7).map fmtOneApa)).getLastD [] = fmtOneApa (l.getD 6 ⟨[], []⟩) := by
    have hlen : ((l.take 7).map fmtOneApa).length = 7 := by
      simp [List.length_take]
      omega
    rw [List.getLastD_eq_getLast?, List.getLast?_eq_getElem?]
    rw [hlen]
    simp only [List.getElem?_map]
    rw [List.getElem?_take]
    rw [List.getD_eq_getElem?_getD]
    cases hx : l[(6 : Nat)]? with
    | none => simp [List.getElem?_eq_none_iff] at hx; omega
    | some a => simp [hx]
  constructor
  · rw [← hlast]
    simp [apaList, hne, h]
  · intro l' h' ht
    have hne' : l' ≠ [] := by intro h2; subst h2; simp at h'
    simp only [apaList, if_neg hne, if_neg hne', ht, if_pos h, if_pos h']

/-- C10 witness: a concrete eight-author list. -/
theorem C10_witness :
    apaList (List.replicate 8 (⟨str "F", str "G"⟩ : Author)) 7 false =
      joinSep (str ", ")
        ((((List.replicate 8 (⟨str "F", str "G"⟩ : Author)).take 7).map fmtOneApa).take 6) ++
        str ", ... " ++
        fmtOneApa ((List.replicate 8 (⟨str "F", str "G"⟩ : Author)).getD 6 ⟨[], []⟩) :=
  (C10_theorem (List.replicate 8 ⟨str "F", str "G"⟩) (by decide)).1

/-! ## C2 counterexample: the normalizer is not idempotent -/

/-- C2 counterexample: a run of three hyphens normalises to two hyphens
(the two-hyphen replacement runs first and leaves a new pair), and a second
pass collapses it further, so normalisation is not idempotent. -/
theorem C2_counterexample :
    cleanLatex (cleanLatex (str "---")) ≠ cleanLatex (str "---") := by decide

/-! ## Identity of the normalizer passes on trigger-free text -/

/-- A command-substitution pass leaves text alone when the pattern's first
character does not occur. -/
theorem subCmdGo_id (p₀ : Char) (pr : Str) :
    ∀ (fuel : Nat) (l : Str), p₀ ∉ l → subCmdGo (p₀ :: pr) fuel l = l := by
  intro fuel
  induction fuel with
  | zero => intro l _; cases l <;> rfl
  | succ fuel ih =>
    intro l h
    cases l with
    | nil => rfl
    | cons c t =>
      have hp : ¬ ((p₀ :: pr).isPrefixOf (c :: t) = true) := by
        rw [List.isPrefixOf_iff_prefix, List.cons_prefix_cons]
        rintro ⟨rfl, -⟩
        exact h (List.mem_cons_self _ _)
      simp only [subCmdGo, if_neg hp]
      rw [ih t (fun hm => h (List.mem_cons_of_mem c hm))]

/-- Wrapper form of `subCmdGo_id`. -/
theorem subCmd_id {s : Str} (pat : Str) (p₀ : Char) (hh : pat.head? = some p₀)
    (h : p₀ ∉ s) : subCmd pat s = s := by
  cases pat with
  | nil => simp at hh
  | cons q qr =>
    obtain rfl : q = p₀ := by simpa using hh
    exact subCmdGo_id _ qr s.length s h

/-- The em-command pass leaves text alone when no opening brace occurs. -/
theorem subEmGo_id :
    ∀ (fuel : Nat) (l : Str), '\x7b' ∉ l → subEmGo fuel l = l := by
  intro fuel
  induction fuel with
  | zero => intro l _; cases l <;> rfl
  | succ fuel ih =>
    intro l h
    cases l with
    | nil => rfl
    | cons c t =>
      have hp : ¬ ((str "\x7b\\em").isPrefixOf (c :: t) = true) := by
        rw [List.isPrefixOf_iff_prefix]
        rw [show str "\x7b\\em" = '\x7b' :: str "\\em" from rfl, List.cons_prefix_cons]
        rintro ⟨rfl, -⟩
        exact h (List.mem_cons_self _ _)
      simp only [subEmGo, if_neg hp]
      rw [ih t (fun hm => h (List.mem_cons_of_mem c hm))]

/-- Wrapper form of `subEmGo_id`. -/
theorem subEm_id {s : Str} (h : '\x7b' ∉ s) : subEm s = s :=
  subEmGo_id s.length s h

/-- A replacement pass leaves text alone when the pattern's first character
does not occur. -/
theorem pyReplaceCore_id_head (o : Char) (os new : Str) :
    ∀ (fuel : Nat) (l : Str), o ∉ l → pyReplaceCore o os new fuel l = l := by
  intro fuel
  induction fuel with
  | zero => intro l _; cases l <;> rfl
  | succ fuel ih =>
    intro l h
    cases l with
    | nil => rfl
    | cons c t =>
      have hp : ¬ ((o :: os).isPrefixOf (c :: t) = true) := by
        rw [List.isPrefixOf_iff_prefix, List.cons_prefix_cons]
        rintro ⟨rfl, -⟩
        exact h (List.mem_cons_self _ _)
      simp only [pyReplaceCore, if_neg hp]
      rw [ih t (fun hm => h (List.mem_cons_of_mem c hm))]

/-- Wrapper form of `pyReplaceCore_id_head`. -/
theorem pyReplace_id_head {s : Str} (old : Str) (o : Char) (hh : old.head? = some o)
    (new : Str) (h : o ∉ s) : pyReplace s old new = s := by
  cases old with
  | nil => simp at hh
  | cons q qr =>
    obtain rfl : q = o := by simpa using hh
    exact pyReplaceCore_id_head _ qr new s.length s h

/-- A replacement pass whose pattern starts with two given characters
leaves text alone when that two-character string occurs nowhere. -/
theorem pyReplaceCore_id_pair (o o₂ : Char) (os' new : Str) :
    ∀ (fuel : Nat) (l : Str), ¬ ([o, o₂] <:+: l) →
      pyReplaceCore o (o₂ :: os') new fuel l = l := by
  intro fuel
  induction fuel with
  | zero => intro l _; cases l <;> rfl
  | succ fuel ih =>
    intro l h
    cases l with
    | nil => rfl
    | cons c t =>
      have hp : ¬ ((o :: o₂ :: os').isPrefixOf (c :: t) = true) := by
        rw [List.isPrefixOf_iff_prefix]
        intro hpre
        exact h ((List.IsPrefix.trans ⟨os', rfl⟩ hpre).isInfix)
      simp only [pyReplaceCore, if_neg hp]
      rw [ih t (fun hm => h (hm.trans (List.suffix_cons c t).isInfix))]

/-- Wrapper form of `pyReplaceCore_id_pair`. -/
theorem pyReplace_id_pair {s : Str} (old : Str) (o o₂ : Char) (os' new : Str)
    (hh : old = o :: o₂ :: os') (h : ¬ ([o, o₂] <:+: s)) :
    pyReplace s old new = s := by
  subst hh
  exact pyReplaceCore_id_pair o o₂ os' new s.length s h

/-! ## Trimming lemmas -/

/-- Right trimming yields a prefix. -/
theorem pyStripRight_prefix (s : Str) : pyStripRight s <+: s := by
  obtain ⟨a, ha⟩ := List.dropWhile_suffix (l := s.reverse) pyWs
  refine ⟨a.reverse, ?_⟩
  rw [pyStripRight, ← List.reverse_append, ha, List.reverse_reverse]

/-- Trimming yields an infix. -/
theorem pyStrip_infix (s : Str) : pyStrip s <:+: s := by
  obtain ⟨a, ha⟩ := List.dropWhile_suffix (l := pyStripRight s) pyWs
  obtain ⟨b, hb⟩ := pyStripRight_prefix s
  refine ⟨a, b, ?_⟩
  rw [← ha] at hb
  rw [pyStrip, pyStripLeft]
  exact hb

/-- Left trimming is idempotent. -/
theorem pyStripLeft_idem (y : Str) : pyStripLeft (pyStripLeft y) = pyStripLeft y := by
  unfold pyStripLeft
  cases h : y.dropWhile pyWs with
  | nil => rfl
  | cons c r =>
    have hc : ¬ pyWs c := by
      have := List.head?_dropWhile_not pyWs y
      rw [h] at this
      simpa using this
    rw [List.dropWhile_cons_of_neg hc]

/-- A right-trimmed string does not end in whitespace. -/
theorem lastOk_pyStripRight (s : Str) : lastOk (pyStripRight s) = true := by
  unfold lastOk pyStripRight
  rw [List.reverse_reverse]
  cases h : s.reverse.dropWhile pyWs with
  | nil => rfl
  | cons c r =>
    have hc : ¬ pyWs c := by
      have := List.head?_dropWhile_not pyWs s.reverse
      rw [h] at this
      simpa using this
    simpa using hc

/-- Right trimming fixes a string that does not end in whitespace. -/
theorem pyStripRight_eq_self {y : Str} (h : lastOk y = true) : pyStripRight y = y := by
  unfold pyStripRight
  cases hy : y.reverse with
  | nil =>
    have hy' : y = [] := by simpa using congrArg List.reverse hy
    simp [hy']
  | cons c r =>
    have hc : ¬ pyWs c = true := by
      unfold lastOk at h
      rw [hy] at h
      simpa using h
    rw [List.dropWhile_cons_of_neg hc]
    have hyy := congrArg List.reverse hy
    rw [List.reverse_reverse] at hyy
    exact hyy.symm

/-- Suffixes inherit a clean final character. -/
theorem lastOk_suffix {x y : Str} (hs : x <:+ y) (h : lastOk y = true) :
    lastOk x = true := by
  obtain ⟨a, ha⟩ := hs
  unfold lastOk at h ⊢
  cases hx : x.reverse with
  | nil => rfl
  | cons c r =>
    have hyx : y.reverse = c :: (r ++ a.reverse) := by
      rw [← ha, List.reverse_append, hx, List.cons_append]
    rw [hyx] at h
    exact h

/-- Trimming is idempotent. -/
theorem pyStrip_idem (s : Str) : pyStrip (pyStrip s) = pyStrip s := by
  show pyStripLeft (pyStripRight (pyStripLeft (pyStripRight s))) = _
  have h1 : lastOk (pyStripRight s) = true := lastOk_pyStripRight s
  have h2 : lastOk (pyStripLeft (pyStripRight s)) = true :=
    lastOk_suffix (List.dropWhile_suffix pyWs) h1
  rw [pyStripRight_eq_self h2]
  exact pyStripLeft_idem _

/-- On text containing no backslash, no opening brace, no tilde and no
adjacent hyphen pair, the normalizer reduces to trimming. -/
theorem cleanLatex_plain (s : Str) (h1 : '\\' ∉ s) (h2 : '\x7b' ∉ s)
    (h3 : '~' ∉ s) (h4 : ¬ (str "--" <:+: s)) : cleanLatex s = pyStrip s := by
  by_cases hs : s = []
  · subst hs; rfl
  · simp only [cleanLatex, if_neg hs]
    rw [subCmd_id (str "\\textit\x7b") '\\' rfl h1]
    rw [subCmd_id (str "\\textbf\x7b") '\\' rfl h1]
    rw [subCmd_id (str "\\emph\x7b") '\\' rfl h1]
    rw [subEm_id h2]
    rw [subCmd_id (str "\x7b") '\x7b' rfl h2]
    rw [pyReplace_id_head (str "\\&") '\\' rfl _ h1]
    rw [pyReplace_id_head (str "~") '~' rfl _ h3]
    rw [pyReplace_id_pair (str "--") '-' '-' [] _ rfl h4]
    rw [pyReplace_id_pair (str "---") '-' '-' (str "-") _ rfl h4]
    simp only [accentPairs, List.foldl_cons, List.foldl_nil]
    rw [pyReplace_id_head (str "\\'e") '\\' rfl _ h1]
    rw [pyReplace_id_head (str "\\'a") '\\' rfl _ h1]
    rw [pyReplace_id_head (str "\\'i") '\\' rfl _ h1]
    rw [pyReplace_id_head (str "\\'o") '\\' rfl _ h1]
    rw [pyReplace_id_head (str "\\'u") '\\' rfl _ h1]
    rw [pyReplace_id_head (str "\\`e") '\\' rfl _ h1]
    rw [pyReplace_id_head (str "\\`a") '\\' rfl _ h1]
    rw [pyReplace_id_head (str "\\\"o") '\\' rfl _ h1]
    rw [pyReplace_id_head (str "\\\"u") '\\' rfl _ h1]
    rw [pyReplace_id_head (str "\\\"a") '\\' rfl _ h1]
    rw [pyReplace_id_head (str "\\~n") '\\' rfl _ h1]
    rw [pyReplace_id_head (str "\\c\x7bc\x7d") '\\' rfl _ h1]
    rw [pyReplace_id_head (str "\\ss") '\\' rfl _ h1]

/-- C2 (amended): normalisation is not idempotent in general (see the
counterexample on a three-hyphen run), but it is idempotent on every input
containing no backslash, no opening brace, no tilde and no adjacent hyphen
pair: on such input it reduces to whitespace trimming, which is
idempotent. -/
theorem C2_theorem (s : Str) (h1 : '\\' ∉ s) (h2 : '\x7b' ∉ s)
    (h3 : '~' ∉ s) (h4 : ¬ (str "--" <:+: s)) :
    cleanLatex (cleanLatex s) = cleanLatex s := by
  have hcl : cleanLatex s = pyStrip s := cleanLatex_plain s h1 h2 h3 h4
  have hinf : pyStrip s <:+: s := pyStrip_infix s
  rw [hcl]
  rw [cleanLatex_plain (pyStrip s)
    (fun hm => h1 (hinf.sublist.subset hm))
    (fun hm => h2 (hinf.sublist.subset hm))
    (fun hm => h3 (hinf.sublist.subset hm))
    (fun hm => h4 (hm.trans hinf))]
  exact pyStrip_idem s

/-- C2 witness: idempotence applied at a concrete trigger-free string. -/
theorem C2_witness :
    cleanLatex (cleanLatex (str "  Tetrahedron Letters ")) =
      cleanLatex (str "  Tetrahedron Letters ") :=
  C2_theorem (str "  Tetrahedron Letters ") (by decide) (by decide) (by decide)
    (by decide)

/-! ## Decimal representation facts -/

/-- Digit characters round-trip through `Char.ofNat`. -/
theorem char_toNat_ofNat_digit (m : Nat) (hm : m < 10) :
    (Char.ofNat (48 + m)).toNat = 48 + m := by
  interval_cases m <;> decide

/-- Being a digit, in terms of the code point. -/
theorem isDigit_iff (c : Char) : c.isDigit = true ↔ 48 ≤ c.toNat ∧ c.toNat ≤ 57 := by
  simp only [Char.isDigit, Bool.and_eq_true, decide_eq_true_eq, ge_iff_le]
  exact Iff.rfl

/-- Every character of a decimal representation is a digit. -/
theorem decReprGo_digits : ∀ (fuel n : Nat), ∀ c ∈ decReprGo fuel n, c.isDigit = true := by
  intro fuel
  induction fuel with
  | zero =>
    intro n c hc
    simp only [decReprGo, List.mem_singleton] at hc
    subst hc
    have h10 : n % 10 < 10 := Nat.mod_lt _ (by omega)
    have := char_toNat_ofNat_digit (n % 10) h10
    rw [isDigit_iff]
    omega
  | succ fuel ih =>
    intro n c hc
    simp only [decReprGo] at hc
    split at hc
    · simp only [List.mem_singleton] at hc
      subst hc
      have := char_toNat_ofNat_digit n (by omega)
      rw [isDigit_iff]
      omega
    · rw [List.mem_append] at hc
      rcases hc with hc | hc
      · exact ih _ c hc
      · simp only [List.mem_singleton] at hc
        subst hc
        have h10 : n % 10 < 10 := Nat.mod_lt _ (by omega)
        have := char_toNat_ofNat_digit (n % 10) h10
        rw [isDigit_iff]
        omega

/-- Decimal representations are never empty. -/
theorem decReprGo_ne_nil (fuel n : Nat) : decReprGo fuel n ≠ [] := by
  cases fuel with
  | zero => simp [decReprGo]
  | succ fuel =>
    simp only [decReprGo]
    split <;> simp

/-- `decVal` over a final digit. -/
theorem decVal_append_single (xs : Str) (c : Char) :
    decVal (xs ++ [c]) = decVal xs * 10 + (c.toNat - 48) := by
  simp [decVal, List.foldl_append]

/-- The decimal representation evaluates back to its number. -/
theorem decVal_decReprGo : ∀ (fuel n : Nat), n ≤ fuel → decVal (decReprGo fuel n) = n := by
  intro fuel
  induction fuel with
  | zero =>
    intro n hn
    have : n = 0 := by omega
    subst this
    decide
  | succ fuel ih =>
    intro n hn
    simp only [decReprGo]
    split
    · rename_i h10
      show decVal [Char.ofNat (48 + n)] = n
      have := char_toNat_ofNat_digit n h10
      simp [decVal, this]
    · rename_i h10
      rw [decVal_append_single]
      have hdiv : n / 10 ≤ fuel := by
        have := Nat.div_lt_self (show 0 < n by omega) (show 1 < 10 by omega)
        omega
      rw [ih (n / 10) hdiv]
      have h10' : n % 10 < 10 := Nat.mod_lt _ (by omega)
      rw [char_toNat_ofNat_digit (n % 10) h10']
      omega

/-- Round trip for `decRepr`. -/
theorem decVal_decRepr (n : Nat) : decVal (decRepr n) = n :=
  decVal_decReprGo n n (le_refl n)

/-- `decRepr` facts packaged. -/
theorem decRepr_digits (n : Nat) : ∀ c ∈ decRepr n, c.isDigit = true :=
  decReprGo_digits n n

/-- `decRepr` is never empty. -/
theorem decRepr_ne_nil (n : Nat) : decRepr n ≠ [] :=
  decReprGo_ne_nil n n

/-- `takeWhile` of digits stops exactly at the question mark. -/
theorem takeWhile_digits (ds : Str) (hd : ∀ c ∈ ds, c.isDigit = true) (r : Str) :
    (ds ++ '?' :: r).takeWhile Char.isDigit = ds ∧
    (ds ++ '?' :: r).dropWhile Char.isDigit = '?' :: r := by
  induction ds with
  | nil =>
    constructor
    · simp [List.takeWhile_cons]
    · simp [List.dropWhile_cons]
  | cons c t ih =>
    have hc : c.isDigit = true := hd c (List.mem_cons_self _ _)
    have iht := ih (fun x hx => hd x (List.mem_cons_of_mem c hx))
    constructor
    · rw [List.cons_append, List.takeWhile_cons_of_pos hc, iht.1]
    · rw [List.cons_append, List.dropWhile_cons_of_pos hc, iht.2]

/-! ## The character-level view of `escape` -/

/-- `charSub` distributes over append. -/
theorem charSub_append (a : Char) (new x y : Str) :
    charSub a new (x ++ y) = charSub a new x ++ charSub a new y := by
  induction x with
  | nil => rfl
  | cons c t ih => simp [charSub, ih]

/-- `uniExpand` distributes over append. -/
theorem uniExpand_append (x y : Str) :
    uniExpand (x ++ y) = uniExpand x ++ uniExpand y := by
  induction x with
  | nil => rfl
  | cons c t ih => simp [uniExpand, ih]

/-- A single-character replacement pass is character-wise substitution. -/
theorem pyReplaceCore_single (a : Char) (new : Str) :
    ∀ (fuel : Nat) (l : Str), l.length ≤ fuel →
      pyReplaceCore a [] new fuel l = charSub a new l := by
  intro fuel
  induction fuel with
  | zero =>
    intro l hl
    have : l = [] := by
      cases l with
      | nil => rfl
      | cons c t => simp at hl
    subst this
    rfl
  | succ fuel ih =>
    intro l hl
    cases l with
    | nil => rfl
    | cons c t =>
      have hlt : t.length ≤ fuel := by
        simp only [List.length_cons] at hl
        omega
      by_cases hc : a = c
      · subst hc
        have hp : [a].isPrefixOf (a :: t) = true := by
          rw [List.isPrefixOf_iff_prefix]
          exact ⟨t, rfl⟩
        simp only [pyReplaceCore, if_pos hp, List.length_nil, List.drop_zero]
        rw [ih t hlt]
        simp [charSub]
      · have hp : ¬ ([a].isPrefixOf (c :: t) = true) := by
          rw [List.isPrefixOf_iff_prefix, List.cons_prefix_cons]
          rintro ⟨rfl, -⟩
          exact hc rfl
        simp only [pyReplaceCore, if_neg hp]
        rw [ih t hlt]
        simp only [charSub]
        rw [if_neg (fun h : c = a => hc h.symm)]
        rfl

/-- `escape` as the composite of three character substitutions and the
numeric-escape expansion. -/
theorem escape_eq (s : Str) :
    escape s = uniExpand (charSub '\x7d' (str "\\\x7d")
      (charSub '\x7b' (str "\\\x7b") (charSub '\\' (str "\\\\") s))) := by
  by_cases hs : s = []
  · subst hs; rfl
  · unfold escape
    rw [if_neg hs]
    show uniExpand (pyReplace (pyReplace (pyReplaceCore '\\' [] (str "\\\\") s.length s)
      (str "\x7b") (str "\\\x7b")) (str "\x7d") (str "\\\x7d")) = _
    rw [pyReplaceCore_single '\\' (str "\\\\") s.length s (le_refl _)]
    show uniExpand (pyReplace (pyReplaceCore '\x7b' [] (str "\\\x7b") _ _)
      (str "\x7d") (str "\\\x7d")) = _
    rw [pyReplaceCore_single '\x7b' (str "\\\x7b") _ _ (le_refl _)]
    show uniExpand (pyReplaceCore '\x7d' [] (str "\\\x7d") _ _) = _
    rw [pyReplaceCore_single '\x7d' (str "\\\x7d") _ _ (le_refl _)]

/-- `escape` acts character by character. -/
theorem escape_cons (c : Char) (s : Str) :
    escape (c :: s) = escChar c ++ escape s := by
  rw [escape_eq, escape_eq]
  rw [show (c :: s) = [c] ++ s from rfl]
  rw [charSub_append, charSub_append, charSub_append, uniExpand_append]
  congr 1
  by_cases h1 : c = '\\'
  · subst h1; decide
  · by_cases h2 : c = '\x7b'
    · subst h2; decide
    · by_cases h3 : c = '\x7d'
      · subst h3; decide
      · by_cases h4 : 127 < c.toNat
        · have e1 : charSub '\\' (str "\\\\") [c] = [c] := by
            simp [charSub, fun h => h1 h]
          have e2 : charSub '\x7b' (str "\\\x7b") [c] = [c] := by
            simp [charSub, fun h => h2 h]
          have e3 : charSub '\x7d' (str "\\\x7d") [c] = [c] := by
            simp [charSub, fun h => h3 h]
          rw [e1, e2, e3]
          simp [uniExpand, escChar, h1, h2, h3, h4]
        · have e1 : charSub '\\' (str "\\\\") [c] = [c] := by
            simp [charSub, fun h => h1 h]
          have e2 : charSub '\x7b' (str "\\\x7b") [c] = [c] := by
            simp [charSub, fun h => h2 h]
          have e3 : charSub '\x7d' (str "\\\x7d") [c] = [c] := by
            simp [charSub, fun h => h3 h]
          rw [e1, e2, e3]
          simp [uniExpand, escChar, h1, h2, h3, h4]

/-- `escape` of the empty string. -/
theorem escape_nil : escape [] = [] := rfl

/-- `escape` distributes over append. -/
theorem escape_append (x y : Str) : escape (x ++ y) = escape x ++ escape y := by
  rw [escape_eq, escape_eq, escape_eq]
  rw [charSub_append, charSub_append, charSub_append, uniExpand_append]

/-! ## Fuel irrelevance and stepping rules for the markup stripper -/

/-- The stripper's result does not depend on the fuel, once sufficient. -/
theorem unrtfGo_irrel : ∀ (f₁ : Nat), ∀ (l : Str) (f₂ : Nat), l.length ≤ f₁ → l.length ≤ f₂ →
    unrtfGo f₁ l = unrtfGo f₂ l := by
  intro f₁
  induction f₁ with
  | zero =>
    intro l f₂ h1 _
    have : l = [] := by cases l with | nil => rfl | cons c t => simp at h1
    subst this
    cases f₂ <;> rfl
  | succ f₁ ih =>
    intro l f₂ h1 h2
    cases l with
    | nil => cases f₂ <;> rfl
    | cons c t =>
      cases f₂ with
      | zero => simp at h2
      | succ g =>
        simp only [List.length_cons] at h1 h2
        cases t with
        | nil => simp [unrtfGo]
        | cons d t2 =>
          simp only [List.length_cons] at h1 h2
          have ih2 : unrtfGo f₁ t2 = unrtfGo g t2 := ih t2 g (by omega) (by omega)
          have iht : unrtfGo f₁ (d :: t2) = unrtfGo g (d :: t2) :=
            ih (d :: t2) g (by simp; omega) (by simp; omega)
          simp only [unrtfGo]
          by_cases hc : c = '\\'
          · rw [if_pos hc, if_pos hc]
            by_cases hd : d = '\\'
            · rw [if_pos hd, if_pos hd, ih2]
            · rw [if_neg hd, if_neg hd]
              by_cases hob : d = '\x7b'
              · rw [if_pos hob, if_pos hob, ih2]
              · rw [if_neg hob, if_neg hob]
                by_cases hcb : d = '\x7d'
                · rw [if_pos hcb, if_pos hcb, ih2]
                · rw [if_neg hcb, if_neg hcb]
                  by_cases hu : d = 'u'
                  · rw [if_pos hu, if_pos hu]
                    by_cases hg : t2.takeWhile Char.isDigit ≠ [] ∧
                        (t2.dropWhile Char.isDigit).head? = some '?'
                    · rw [if_pos hg, if_pos hg]
                      have hlen : ((t2.dropWhile Char.isDigit).drop 1).length ≤ t2.length := by
                        have := length_dropWhile_le Char.isDigit t2
                        simp only [List.length_drop]
                        omega
                      rw [ih ((t2.dropWhile Char.isDigit).drop 1) g (by omega) (by omega)]
                    · rw [if_neg hg, if_neg hg, ih2]
                  · rw [if_neg hu, if_neg hu, ih2]
          · rw [if_neg hc, if_neg hc]
            by_cases hob : c = '\x7b'
            · rw [if_pos hob, if_pos hob]
              by_cases hi : (str "\\i ").isPrefixOf (d :: t2) = true
              · rw [if_pos hi, if_pos hi]
                exact ih ((d :: t2).drop 3) g (by simp [List.length_drop]; omega)
                  (by simp [List.length_drop]; omega)
              · rw [if_neg hi, if_neg hi]
                by_cases hb : (str "\\b ").isPrefixOf (d :: t2) = true
                · rw [if_pos hb, if_pos hb]
                  exact ih ((d :: t2).drop 3) g (by simp [List.length_drop]; omega)
                    (by simp [List.length_drop]; omega)
                · rw [if_neg hb, if_neg hb]
                  by_cases hs : (str "\\super ").isPrefixOf (d :: t2) = true
                  · rw [if_pos hs, if_pos hs]
                    exact ih ((d :: t2).drop 7) g (by simp [List.length_drop]; omega)
                      (by simp [List.length_drop]; omega)
                  · rw [if_neg hs, if_neg hs, iht]
            · rw [if_neg hob, if_neg hob]
              by_cases hcb : c = '\x7d'
              · rw [if_pos hcb, if_pos hcb, iht]
              · rw [if_neg hcb, if_neg hcb, iht]

/-- Stripping the empty fragment. -/
theorem unrtf_nil : unrtf [] = [] := rfl

/-- Stripping an ordinary character. -/
theorem unrtf_cons_plain (c : Char) (t : Str) (h1 : ¬ c = '\\')
    (h2 : ¬ c = '\x7b') (h3 : ¬ c = '\x7d') : unrtf (c :: t) = c :: unrtf t := by
  show unrtfGo (t.length + 1) (c :: t) = _
  simp only [unrtfGo, if_neg h1, if_neg h2, if_neg h3]
  rfl

/-- Stripping a group-closing brace. -/
theorem unrtf_cb (t : Str) : unrtf ('\x7d' :: t) = unrtf t := rfl

/-- Stripping an escaped backslash. -/
theorem unrtf_bs_bs (t : Str) : unrtf ('\\' :: '\\' :: t) = '\\' :: unrtf t := by
  have h : unrtf ('\\' :: '\\' :: t) = '\\' :: unrtfGo (t.length + 1) t := rfl
  rw [h, unrtfGo_irrel (t.length + 1) t t.length (by omega) (le_refl _)]
  rfl

/-- Stripping an escaped opening brace. -/
theorem unrtf_bs_ob (t : Str) : unrtf ('\\' :: '\x7b' :: t) = '\x7b' :: unrtf t := by
  have h : unrtf ('\\' :: '\x7b' :: t) = '\x7b' :: unrtfGo (t.length + 1) t := rfl
  rw [h, unrtfGo_irrel (t.length + 1) t t.length (by omega) (le_refl _)]
  rfl

/-- Stripping an escaped closing brace. -/
theorem unrtf_bs_cb (t : Str) : unrtf ('\\' :: '\x7d' :: t) = '\x7d' :: unrtf t := by
  have h : unrtf ('\\' :: '\x7d' :: t) = '\x7d' :: unrtfGo (t.length + 1) t := rfl
  rw [h, unrtfGo_irrel (t.length + 1) t t.length (by omega) (le_refl _)]
  rfl

/-- Decoding a numeric escape. -/
theorem unrtf_u (n : Nat) (t : Str) :
    unrtf ('\\' :: 'u' :: (decRepr n ++ '?' :: t)) = Char.ofNat n :: unrtf t := by
  have h : unrtf ('\\' :: 'u' :: (decRepr n ++ '?' :: t)) =
      (if (decRepr n ++ '?' :: t).takeWhile Char.isDigit ≠ [] ∧
          ((decRepr n ++ '?' :: t).dropWhile Char.isDigit).head? = some '?' then
        Char.ofNat (decVal ((decRepr n ++ '?' :: t).takeWhile Char.isDigit)) ::
          unrtfGo ((decRepr n ++ '?' :: t).length + 1)
            (((decRepr n ++ '?' :: t).dropWhile Char.isDigit).drop 1)
      else '\\' :: 'u' :: unrtfGo ((decRepr n ++ '?' :: t).length + 1)
        (decRepr n ++ '?' :: t)) := rfl
  rw [h]
  have htw := takeWhile_digits (decRepr n) (decRepr_digits n) t
  rw [htw.1, htw.2]
  rw [if_pos (show decRepr n ≠ [] ∧ (('?' :: t : Str)).head? = some '?' from
    ⟨decRepr_ne_nil n, rfl⟩)]
  rw [decVal_decRepr]
  simp only [List.drop_succ_cons, List.drop_zero]
  rw [unrtfGo_irrel ((decRepr n ++ '?' :: t).length + 1) t t.length
    (by simp [List.length_append]; omega) (le_refl _)]
  rfl

/-- Removing an italic wrap opener. -/
theorem unrtf_ob_i (t : Str) : unrtf ('\x7b' :: '\\' :: 'i' :: ' ' :: t) = unrtf t := by
  have hpre : (str "\\i ").isPrefixOf ('\\' :: 'i' :: ' ' :: t) = true := by
    rw [List.isPrefixOf_iff_prefix]
    exact ⟨t, rfl⟩
  have h : unrtf ('\x7b' :: '\\' :: 'i' :: ' ' :: t) =
      unrtfGo (t.length + 1 + 1 + 1) t := by
    show unrtfGo (t.length + 1 + 1 + 1 + 1) _ = _
    simp only [unrtfGo]
    rw [if_neg (by decide), if_pos trivial, if_pos hpre]
    rfl
  rw [h, unrtfGo_irrel (t.length + 1 + 1 + 1) t t.length (by omega) (le_refl _)]
  rfl

/-- Removing a bold wrap opener. -/
theorem unrtf_ob_b (t : Str) : unrtf ('\x7b' :: '\\' :: 'b' :: ' ' :: t) = unrtf t := by
  have hpreneg : ¬ ((str "\\i ").isPrefixOf ('\\' :: 'b' :: ' ' :: t) = true) := by
    rw [List.isPrefixOf_iff_prefix]
    intro hp
    rw [show str "\\i " = '\\' :: 'i' :: [' '] from rfl] at hp
    rw [List.cons_prefix_cons] at hp
    rw [List.cons_prefix_cons] at hp
    exact absurd hp.2.1 (by decide)
  have hpre : (str "\\b ").isPrefixOf ('\\' :: 'b' :: ' ' :: t) = true := by
    rw [List.isPrefixOf_iff_prefix]
    exact ⟨t, rfl⟩
  have h : unrtf ('\x7b' :: '\\' :: 'b' :: ' ' :: t) =
      unrtfGo (t.length + 1 + 1 + 1) t := by
    show unrtfGo (t.length + 1 + 1 + 1 + 1) _ = _
    simp only [unrtfGo]
    rw [if_neg (by decide), if_pos trivial, if_neg hpreneg, if_pos hpre]
    rfl
  rw [h, unrtfGo_irrel (t.length + 1 + 1 + 1) t t.length (by omega) (le_refl _)]
  rfl

/-! ## Stripping composed fragments -/

/-- Stripping undoes the escape of one character, at the front. -/
theorem unrtf_escChar_append (c : Char) (t : Str) :
    unrtf (escChar c ++ t) = c :: unrtf t := by
  by_cases h1 : c = '\\'
  · subst h1
    show unrtf ('\\' :: '\\' :: t) = _
    exact unrtf_bs_bs t
  · by_cases h2 : c = '\x7b'
    · subst h2
      show unrtf ('\\' :: '\x7b' :: t) = _
      exact unrtf_bs_ob t
    · by_cases h3 : c = '\x7d'
      · subst h3
        show unrtf ('\\' :: '\x7d' :: t) = _
        exact unrtf_bs_cb t
      · by_cases h4 : 127 < c.toNat
        · have he : escChar c = '\\' :: 'u' :: (decRepr c.toNat ++ ['?']) := by
            simp [escChar, h1, h2, h3, h4]
          rw [he]
          have : ('\\' :: 'u' :: (decRepr c.toNat ++ ['?'])) ++ t =
              '\\' :: 'u' :: (decRepr c.toNat ++ '?' :: t) := by
            simp
          rw [this, unrtf_u, Char.ofNat_toNat]
        · have he : escChar c = [c] := by simp [escChar, h1, h2, h3, h4]
          rw [he]
          exact unrtf_cons_plain c t h1 h2 h3

/-- Stripping undoes `escape`, at the front of a fragment. -/
theorem unrtf_escape_append (s t : Str) :
    unrtf (escape s ++ t) = s ++ unrtf t := by
  induction s with
  | nil => rw [escape_nil]; rfl
  | cons c s' ih =>
    rw [escape_cons, List.append_assoc, unrtf_escChar_append, ih]
    rfl

/-- Stripping undoes `escape`. -/
theorem unrtf_escape (s : Str) : unrtf (escape s) = s := by
  have h := unrtf_escape_append s []
  rw [unrtf_nil] at h
  simpa using h

/-- Stripping removes an italic wrap, at the front of a fragment. -/
theorem unrtf_italic_append (s t : Str) :
    unrtf (italic s ++ t) = s ++ unrtf t := by
  show unrtf ('\x7b' :: '\\' :: 'i' :: ' ' :: (escape s ++ str "\x7d" ++ t)) = _
  rw [unrtf_ob_i]
  rw [show escape s ++ str "\x7d" ++ t = escape s ++ ('\x7d' :: t) from by simp [str]]
  rw [unrtf_escape_append, unrtf_cb]

/-- Stripping removes a bold wrap, at the front of a fragment. -/
theorem unrtf_bold_append (s t : Str) :
    unrtf (bold s ++ t) = s ++ unrtf t := by
  show unrtf ('\x7b' :: '\\' :: 'b' :: ' ' :: (escape s ++ str "\x7d" ++ t)) = _
  rw [unrtf_ob_b]
  rw [show escape s ++ str "\x7d" ++ t = escape s ++ ('\x7d' :: t) from by simp [str]]
  rw [unrtf_escape_append, unrtf_cb]

/-- Stripping a rendered segment sequence yields its plain rendering. -/
theorem unrtf_renderR (L : List Seg) : unrtf (renderR L) = renderP L := by
  induction L with
  | nil => rfl
  | cons sg r ih =>
    cases sg with
    | esc s =>
      show unrtf (escape s ++ renderR r) = s ++ renderP r
      rw [unrtf_escape_append, ih]
    | ital s =>
      show unrtf (italic s ++ renderR r) = s ++ renderP r
      rw [unrtf_italic_append, ih]
    | bld s =>
      show unrtf (bold s ++ renderR r) = s ++ renderP r
      rw [unrtf_bold_append, ih]

/-! ## Facts about `escChar` and whitespace -/

/-- Whitespace characters are never the special escaped characters. -/
theorem pyWs_not_special {c : Char} (h : pyWs c = true) :
    ¬ c = '\\' ∧ ¬ c = '\x7b' ∧ ¬ c = '\x7d' := by
  refine ⟨?_, ?_, ?_⟩ <;> (rintro rfl; simp [pyWs] at h)

/-- An ASCII whitespace character escapes to itself. -/
theorem escChar_ws_ascii {c : Char} (hw : pyWs c = true) (ha : c.toNat < 128) :
    escChar c = [c] := by
  obtain ⟨h1, h2, h3⟩ := pyWs_not_special hw
  simp [escChar, h1, h2, h3, (show ¬ 127 < c.toNat by omega)]

/-- The escape of a non-whitespace character starts with a non-whitespace
character. -/
theorem escChar_head {c : Char} (hw : pyWs c = false) :
    ∃ d dt, escChar c = d :: dt ∧ pyWs d = false := by
  by_cases h1 : c = '\\'
  · subst h1; exact ⟨'\\', ['\\'], rfl, by decide⟩
  · by_cases h2 : c = '\x7b'
    · subst h2; exact ⟨'\\', ['\x7b'], rfl, by decide⟩
    · by_cases h3 : c = '\x7d'
      · subst h3; exact ⟨'\\', ['\x7d'], rfl, by decide⟩
      · by_cases h4 : 127 < c.toNat
        · exact ⟨'\\', 'u' :: (decRepr c.toNat ++ ['?']),
            by simp [escChar, h1, h2, h3, h4], by decide⟩
        · exact ⟨c, [], by simp [escChar, h1, h2, h3, h4], hw⟩

/-- The escape of a non-whitespace character ends with a non-whitespace
character. -/
theorem escChar_lastOk {c : Char} (hw : pyWs c = false) :
    lastOk (escChar c) = true := by
  by_cases h1 : c = '\\'
  · subst h1; decide
  · by_cases h2 : c = '\x7b'
    · subst h2; decide
    · by_cases h3 : c = '\x7d'
      · subst h3; decide
      · by_cases h4 : 127 < c.toNat
        · have he : escChar c = '\\' :: 'u' :: (decRepr c.toNat ++ ['?']) := by
            simp [escChar, h1, h2, h3, h4]
          rw [he]
          unfold lastOk
          simp only [List.reverse_append, List.reverse_cons, List.reverse_nil,
            List.nil_append, List.cons_append]
          decide
        · have he : escChar c = [c] := by simp [escChar, h1, h2, h3, h4]
          rw [he]
          unfold lastOk
          simp [hw]

/-- `escChar` is never empty. -/
theorem escChar_ne_nil (c : Char) : escChar c ≠ [] := by
  by_cases h1 : c = '\\'
  · subst h1; decide
  · by_cases h2 : c = '\x7b'
    · subst h2; decide
    · by_cases h3 : c = '\x7d'
      · subst h3; decide
      · by_cases h4 : 127 < c.toNat <;> simp [escChar, h1, h2, h3, h4]

/-- `escape` preserves non-emptiness. -/
theorem escape_ne_nil {s : Str} (h : s ≠ []) : escape s ≠ [] := by
  cases s with
  | nil => exact absurd rfl h
  | cons c t =>
    rw [escape_cons]
    intro hx
    exact escChar_ne_nil c (List.append_eq_nil.mp hx).1

/-! ## Left- and right-trimming through rendered fragments -/

/-- `hasNonWs` over append. -/
theorem hasNonWs_append (x y : Str) :
    hasNonWs (x ++ y) = (hasNonWs x || hasNonWs y) := by
  simp [hasNonWs, List.any_append]

/-- A string with a non-whitespace character does not left-trim to
nothing. -/
theorem dropWhile_ne_nil_of_hasNonWs {s : Str} (h : hasNonWs s = true) :
    s.dropWhile pyWs ≠ [] := by
  intro hx
  rw [List.dropWhile_eq_nil_iff] at hx
  simp only [hasNonWs, List.any_eq_true] at h
  obtain ⟨c, hc, hcw⟩ := h
  have := hx c hc
  simp at hcw
  simp [hcw] at this

/-- Left trimming a concatenation whose head part has a non-whitespace
character. -/
theorem stripLeft_append {s : Str} (h : hasNonWs s = true) (t : Str) :
    pyStripLeft (s ++ t) = pyStripLeft s ++ t := by
  unfold pyStripLeft
  rw [List.dropWhile_append]
  rw [if_neg (by simpa using dropWhile_ne_nil_of_hasNonWs h)]

/-- Left trimming commutes with `escape` on a fragment whose head part has
a non-whitespace character and an ASCII leading whitespace run. -/
theorem stripLeft_escape_append :
    ∀ (s : Str), hasNonWs s = true → asciiRun s →
      ∀ t, pyStripLeft (escape s ++ t) = escape (pyStripLeft s) ++ t := by
  intro s
  induction s with
  | nil => intro h _ _; simp [hasNonWs] at h
  | cons c s' ih =>
    intro h ha t
    by_cases hw : pyWs c = true
    · have hca : c.toNat < 128 := by
        have := ha c (by rw [List.takeWhile_cons_of_pos hw]; exact List.mem_cons_self _ _)
        omega
      have hec : escChar c = [c] := escChar_ws_ascii hw hca
      have h' : hasNonWs s' = true := by
        simp only [hasNonWs, List.any_cons, hw] at h
        simpa [hasNonWs] using h
      have ha' : asciiRun s' := by
        intro x hx
        exact ha x (by rw [List.takeWhile_cons_of_pos hw]; exact List.mem_cons_of_mem c hx)
      have e1 : pyStripLeft (c :: (escape s' ++ t)) = pyStripLeft (escape s' ++ t) := by
        unfold pyStripLeft
        exact List.dropWhile_cons_of_pos hw
      have e2 : pyStripLeft (c :: s') = pyStripLeft s' := by
        unfold pyStripLeft
        exact List.dropWhile_cons_of_pos hw
      rw [escape_cons, hec]
      show pyStripLeft (c :: (escape s' ++ t)) = escape (pyStripLeft (c :: s')) ++ t
      rw [e1, e2, ih h' ha' t]
    · have hwf : pyWs c = false := by simpa using hw
      obtain ⟨d, dt, hed, hdw⟩ := escChar_head hwf
      rw [escape_cons, hed]
      simp only [List.cons_append, List.append_assoc]
      unfold pyStripLeft
      rw [List.dropWhile_cons_of_neg (by simp [hdw])]
      rw [List.dropWhile_cons_of_neg (by simp [hwf])]
      rw [escape_cons, hed]
      simp

/-- `lastOk` over a concatenation with a non-empty tail. -/
theorem lastOk_append {y : Str} (x : Str) (hy : y ≠ []) :
    lastOk (x ++ y) = lastOk y := by
  unfold lastOk
  rw [List.reverse_append]
  cases hyr : y.reverse with
  | nil =>
    exact absurd (by simpa using congrArg List.reverse hyr) hy
  | cons c r => rfl

/-- `escape` preserves a clean final character. -/
theorem lastOk_escape {s : Str} (h : lastOk s = true) : lastOk (escape s) = true := by
  cases hr : s.reverse with
  | nil =>
    have hs : s = [] := by simpa using congrArg List.reverse hr
    subst hs; rfl
  | cons c r =>
    have hs : s = r.reverse ++ [c] := by
      have := congrArg List.reverse hr
      simpa using this
    have hcw : pyWs c = false := by
      unfold lastOk at h
      rw [hr] at h
      simpa using h
    rw [hs, escape_append]
    rw [lastOk_append _ (by
      rw [escape_cons]
      intro hx
      exact escChar_ne_nil c (List.append_eq_nil.mp hx).1)]
    rw [show escape [c] = escChar c ++ escape [] from escape_cons c []]
    rw [escape_nil, List.append_nil]
    exact escChar_lastOk hcw

/-! ## Rendering over append, and the master consistency lemmas -/

/-- Plain rendering distributes over append. -/
theorem renderP_append (x y : List Seg) :
    renderP (x ++ y) = renderP x ++ renderP y := by
  induction x with
  | nil => rfl
  | cons sg r ih => simp [renderP, ih]

/-- Marked-up rendering distributes over append. -/
theorem renderR_append (x y : List Seg) :
    renderR (x ++ y) = renderR x ++ renderR y := by
  induction x with
  | nil => rfl
  | cons sg r ih => simp [renderR, ih]

/-- The master consistency lemma: a fragment that opens with an escaped
segment holding a non-whitespace character behind an ASCII whitespace run
and closes with a non-empty escaped segment that does not end in
whitespace strips (on both encodings, after trimming) to the same text. -/
theorem strip_unrtf_via (s₀ sLast : Str) (mid : List Seg) (rt pl : Str)
    (hR : rt = renderR (Seg.esc s₀ :: (mid ++ [Seg.esc sLast])))
    (hP : pl = renderP (Seg.esc s₀ :: (mid ++ [Seg.esc sLast])))
    (h0 : hasNonWs s₀ = true) (ha : asciiRun s₀)
    (hn : sLast ≠ []) (hl : lastOk sLast = true) :
    unrtf (pyStrip rt) = pyStrip pl := by
  subst hR hP
  have hp : lastOk (renderP (Seg.esc s₀ :: (mid ++ [Seg.esc sLast]))) = true := by
    show lastOk (s₀ ++ renderP (mid ++ [Seg.esc sLast])) = true
    rw [renderP_append]
    show lastOk (s₀ ++ (renderP mid ++ (sLast ++ renderP []))) = true
    show lastOk (s₀ ++ (renderP mid ++ (sLast ++ []))) = true
    rw [List.append_nil]
    rw [lastOk_append _ (fun hx => hn (List.append_eq_nil.mp hx).2)]
    rw [lastOk_append _ hn]
    exact hl
  have hrt : lastOk (renderR (Seg.esc s₀ :: (mid ++ [Seg.esc sLast]))) = true := by
    show lastOk (escape s₀ ++ renderR (mid ++ [Seg.esc sLast])) = true
    rw [renderR_append]
    show lastOk (escape s₀ ++ (renderR mid ++ (escape sLast ++ renderR []))) = true
    show lastOk (escape s₀ ++ (renderR mid ++ (escape sLast ++ []))) = true
    rw [List.append_nil]
    rw [lastOk_append _ (fun hx => escape_ne_nil hn (List.append_eq_nil.mp hx).2)]
    rw [lastOk_append _ (escape_ne_nil hn)]
    exact lastOk_escape hl
  show unrtf (pyStripLeft (pyStripRight _)) = pyStripLeft (pyStripRight _)
  rw [pyStripRight_eq_self hrt, pyStripRight_eq_self hp]
  show unrtf (pyStripLeft (escape s₀ ++ renderR (mid ++ [Seg.esc sLast]))) =
    pyStripLeft (s₀ ++ renderP (mid ++ [Seg.esc sLast]))
  rw [stripLeft_escape_append s₀ h0 ha, stripLeft_append h0]
  rw [unrtf_escape_append, unrtf_renderR]

/-- `escape` fixes all-ASCII whitespace text. -/
theorem escape_allWs {s : Str} (h : ∀ c ∈ s, pyWs c = true ∧ c.toNat < 128) :
    escape s = s := by
  induction s with
  | nil => rfl
  | cons c t ih =>
    rw [escape_cons, escChar_ws_ascii (h c (List.mem_cons_self _ _)).1
      (h c (List.mem_cons_self _ _)).2]
    rw [ih (fun x hx => h x (List.mem_cons_of_mem c hx))]
    rfl

/-- Left trimming removes a leading all-whitespace block. -/
theorem dropWhile_allWs_append {s : Str} (h : ∀ c ∈ s, pyWs c = true) (y : Str) :
    (s ++ y).dropWhile pyWs = y.dropWhile pyWs := by
  induction s with
  | nil => rfl
  | cons c t ih =>
    rw [List.cons_append, List.dropWhile_cons_of_pos (h c (List.mem_cons_self _ _))]
    exact ih (fun x hx => h x (List.mem_cons_of_mem c hx))

/-- A string that does not start with whitespace left-trims to itself. -/
theorem dropWhile_of_headOkB {y : Str} (h : headOkB y = true) :
    y.dropWhile pyWs = y := by
  cases y with
  | nil => rfl
  | cons c t =>
    have : pyWs c = false := by simpa [headOkB] using h
    rw [List.dropWhile_cons_of_neg (by simp [this])]

/-- Variant master lemma for a fragment whose opening escaped segment may
consist entirely of (ASCII) whitespace, immediately followed by an italic
wrap: consistency holds provided the text after the whitespace block does
not begin with whitespace. -/
theorem strip_unrtf_via2 (s₀ s₁ sLast : Str) (mid : List Seg) (rt pl : Str)
    (hR : rt = renderR (Seg.esc s₀ :: Seg.ital s₁ :: (mid ++ [Seg.esc sLast])))
    (hP : pl = renderP (Seg.esc s₀ :: Seg.ital s₁ :: (mid ++ [Seg.esc sLast])))
    (h0 : ∀ c ∈ s₀, pyWs c = true ∧ c.toNat < 128)
    (h1 : headOkB (s₁ ++ renderP (mid ++ [Seg.esc sLast])) = true)
    (hn : sLast ≠ []) (hl : lastOk sLast = true) :
    unrtf (pyStrip rt) = pyStrip pl := by
  subst hR hP
  have hp : lastOk (renderP (Seg.esc s₀ :: Seg.ital s₁ :: (mid ++ [Seg.esc sLast]))) = true := by
    show lastOk (s₀ ++ (s₁ ++ renderP (mid ++ [Seg.esc sLast]))) = true
    rw [renderP_append]
    show lastOk (s₀ ++ (s₁ ++ (renderP mid ++ (sLast ++ [])))) = true
    rw [List.append_nil]
    rw [lastOk_append _ (fun hx => hn ((List.append_eq_nil.mp
      ((List.append_eq_nil.mp hx).2)).2))]
    rw [lastOk_append _ (fun hx => hn (List.append_eq_nil.mp hx).2)]
    rw [lastOk_append _ hn]
    exact hl
  have hrt : lastOk (renderR (Seg.esc s₀ :: Seg.ital s₁ :: (mid ++ [Seg.esc sLast]))) = true := by
    show lastOk (escape s₀ ++ (italic s₁ ++ renderR (mid ++ [Seg.esc sLast]))) = true
    rw [renderR_append]
    show lastOk (escape s₀ ++ (italic s₁ ++ (renderR mid ++ (escape sLast ++ [])))) = true
    rw [List.append_nil]
    rw [lastOk_append _ (fun hx => escape_ne_nil hn ((List.append_eq_nil.mp
      ((List.append_eq_nil.mp hx).2)).2))]
    rw [lastOk_append _ (fun hx => escape_ne_nil hn (List.append_eq_nil.mp hx).2)]
    rw [lastOk_append _ (escape_ne_nil hn)]
    exact lastOk_escape hl
  show unrtf (pyStripLeft (pyStripRight _)) = pyStripLeft (pyStripRight _)
  rw [pyStripRight_eq_self hrt, pyStripRight_eq_self hp]
  show unrtf (pyStripLeft (escape s₀ ++ (italic s₁ ++ renderR (mid ++ [Seg.esc sLast])))) =
    pyStripLeft (s₀ ++ (s₁ ++ renderP (mid ++ [Seg.esc sLast])))
  rw [escape_allWs h0]
  unfold pyStripLeft
  rw [dropWhile_allWs_append (fun c hc => (h0 c hc).1),
    dropWhile_allWs_append (fun c hc => (h0 c hc).1)]
  rw [dropWhile_of_headOkB h1]
  have hit : (italic s₁ ++ renderR (mid ++ [Seg.esc sLast])).dropWhile pyWs =
      italic s₁ ++ renderR (mid ++ [Seg.esc sLast]) := by
    show (('\x7b' :: (str "\\i " ++ (escape s₁ ++ str "\x7d"))) ++ _).dropWhile pyWs = _
    rw [List.cons_append, List.dropWhile_cons_of_neg (by decide)]
    simp [italic, List.append_assoc]
    rfl
  rw [hit]
  show unrtf (renderR (Seg.ital s₁ :: (mid ++ [Seg.esc sLast]))) = _
  rw [unrtf_renderR]
  rfl

/-! ## Head and leading-run facts for the formatter building blocks -/

/-- A cons headed by a non-whitespace character is head-clean. -/
theorem headOkB_cons_ne {c : Char} (t : Str) (h : pyWs c = false) :
    headOkB (c :: t) = true := by
  simp [headOkB, h]

/-- Head-cleanliness propagates through append. -/
theorem headOkB_append {x y : Str} (hx : headOkB x = true) (hy : headOkB y = true) :
    headOkB (x ++ y) = true := by
  cases x with
  | nil => simpa using hy
  | cons c t => simpa [headOkB] using hx

/-- The head of an append with non-empty left part is the left head. -/
theorem headOkB_append_left {x : Str} (y : Str) (hx : x ≠ []) :
    headOkB (x ++ y) = headOkB x := by
  cases x with
  | nil => exact absurd rfl hx
  | cons c t => rfl

/-- A non-empty string of non-whitespace characters is head-clean. -/
theorem headOkB_of_token {tok : Str} (h1 : tok ≠ [])
    (h2 : ∀ c ∈ tok, pyWs c = false) : headOkB tok = true := by
  cases tok with
  | nil => exact absurd rfl h1
  | cons c t => exact headOkB_cons_ne t (h2 c (List.mem_cons_self _ _))

/-- A stripped string is head-clean. -/
theorem headOkB_pyStrip (x : Str) : headOkB (pyStrip x) = true := by
  show headOkB ((pyStripRight x).dropWhile pyWs) = true
  cases h : (pyStripRight x).dropWhile pyWs with
  | nil => rfl
  | cons c t =>
    have hc : ¬ pyWs c := by
      have := List.head?_dropWhile_not pyWs (pyStripRight x)
      rw [h] at this
      simpa using this
    simp [headOkB, hc]

/-- A cleaned LaTeX field is head-clean (it ends in a strip). -/
theorem headOkB_cleanLatex (x : Str) : headOkB (cleanLatex x) = true := by
  unfold cleanLatex
  split
  · rfl
  · exact headOkB_pyStrip _

/-- Head-cleanliness of a string that does not end in whitespace and has a
character: its last character witnesses a non-whitespace character. -/
theorem hasNonWs_of_lastOk {y : Str} (h : lastOk y = true) (hne : y ≠ []) :
    hasNonWs y = true := by
  unfold lastOk at h
  cases hy : y.reverse with
  | nil =>
    exact absurd (by simpa using congrArg List.reverse hy) hne
  | cons c r =>
    rw [hy] at h
    have hc : pyWs c = false := by simpa using h
    have hm : c ∈ y := by
      have : c ∈ y.reverse := by rw [hy]; exact List.mem_cons_self _ _
      exact List.mem_reverse.mp this
    unfold hasNonWs
    rw [List.any_eq_true]
    exact ⟨c, hm, by simp [hc]⟩

/-- The empty string has an ASCII (empty) leading whitespace run. -/
theorem asciiRun_nil : asciiRun [] := by
  intro c hc
  simp at hc

/-- A head-clean string has an ASCII (empty) leading whitespace run. -/
theorem asciiRun_of_headOkB {y : Str} (h : headOkB y = true) : asciiRun y := by
  cases y with
  | nil => exact asciiRun_nil
  | cons c t =>
    have hc : pyWs c = false := by simpa [headOkB] using h
    intro d hd
    rw [List.takeWhile_cons_of_neg (by simp [hc])] at hd
    simp at hd

/-- An all-ASCII string has an ASCII leading whitespace run. -/
theorem asciiRun_of_ascii {y : Str} (h : ∀ c ∈ y, c.toNat < 128) : asciiRun y :=
  fun c hc => h c ((List.takeWhile_prefix _).subset hc)

/-- ASCII leading runs are closed under append. -/
theorem asciiRun_append {x y : Str} (hx : asciiRun x) (hy : asciiRun y) :
    asciiRun (x ++ y) := by
  induction x with
  | nil => simpa using hy
  | cons c t ih =>
    intro d hd
    rw [List.cons_append] at hd
    by_cases hw : pyWs c
    · rw [List.takeWhile_cons_of_pos hw] at hd
      rcases List.mem_cons.mp hd with h | h
      · subst h
        exact hx d (by rw [List.takeWhile_cons_of_pos hw]; exact List.mem_cons_self _ _)
      · have hxt : asciiRun t := fun e he =>
          hx e (by rw [List.takeWhile_cons_of_pos hw]; exact List.mem_cons_of_mem _ he)
        exact ih hxt d h
    · rw [List.takeWhile_cons_of_neg hw] at hd
      simp at hd

/-- ASCII leading runs are closed under separator joins. -/
theorem asciiRun_joinSep {sep : Str} (hsep : asciiRun sep) :
    ∀ {l : List Str}, (∀ x ∈ l, asciiRun x) → asciiRun (joinSep sep l) := by
  intro l
  induction l with
  | nil => intro _; exact asciiRun_nil
  | cons x t ih =>
    intro h
    cases t with
    | nil => exact h x (List.mem_cons_self _ _)
    | cons y t2 =>
      show asciiRun ((x ++ sep) ++ joinSep sep (y :: t2))
      exact asciiRun_append
        (asciiRun_append (h x (List.mem_cons_self _ _)) hsep)
        (ih (fun z hz => h z (List.mem_cons_of_mem _ hz)))

/-- An element of the first-and-last swap comes from the original list. -/
theorem mem_swapFL {x : Str} : ∀ {l : List Str}, x ∈ swapFL l → x ∈ l := by
  intro l
  match l with
  | [] => intro h; simpa [swapFL] using h
  | [a] => intro h; simpa [swapFL] using h
  | a :: b :: t =>
    intro h
    simp only [swapFL] at h
    rcases List.mem_cons.mp h with h | h
    · subst h
      have hmem : (b :: t).getLastD a ∈ b :: t := by
        rw [List.getLastD_eq_getLast?, List.getLast?_eq_getLast _ (List.cons_ne_nil b t)]
        exact List.getLast_mem _
      exact List.mem_cons_of_mem a hmem
    · rw [List.mem_append] at h
      rcases h with h | h
      · exact List.mem_cons_of_mem a (List.dropLast_subset _ h)
      · simp only [List.mem_singleton] at h
        subst h
        exact List.mem_cons_self _ _

/-- The default head of a list is the default or a member. -/
theorem headD_eq_or (l : List Str) (d : Str) : l.headD d = d ∨ l.headD d ∈ l := by
  cases l with
  | nil => exact Or.inl rfl
  | cons a t => exact Or.inr (List.mem_cons_self _ _)

/-- The default last of a list is the default or a member. -/
theorem getLastD_eq_or (l : List Str) (d : Str) :
    l.getLastD d = d ∨ l.getLastD d ∈ l := by
  cases l with
  | nil => exact Or.inl rfl
  | cons a t =>
    right
    rw [List.getLastD_eq_getLast?, List.getLast?_eq_getLast _ (List.cons_ne_nil a t)]
    exact List.getLast_mem _

/-- Tokens produced by the whitespace split are non-empty and contain no
whitespace, given that the accumulator already satisfies the invariant. -/
theorem splitWsAux_tokens : ∀ (s acc : Str), (∀ c ∈ acc, pyWs c = false) →
    ∀ tok ∈ splitWsAux s acc, tok ≠ [] ∧ ∀ c ∈ tok, pyWs c = false := by
  intro s
  induction s with
  | nil =>
    intro acc hacc tok htok
    simp only [splitWsAux] at htok
    split at htok
    · simp at htok
    · rename_i hne
      simp only [List.mem_singleton] at htok
      subst htok
      refine ⟨by simp only [ne_eq, List.reverse_eq_nil_iff]; exact hne, ?_⟩
      intro c hc
      exact hacc c (List.mem_reverse.mp hc)
  | cons c t ih =>
    intro acc hacc tok htok
    simp only [splitWsAux] at htok
    split at htok
    · split at htok
      · exact ih [] (by simp) tok htok
      · rename_i hne
        rcases List.mem_cons.mp htok with h | h
        · subst h
          exact ⟨by simp only [ne_eq, List.reverse_eq_nil_iff]; exact hne,
            fun x hx => hacc x (List.mem_reverse.mp hx)⟩
        · exact ih [] (by simp) tok h
    · rename_i hcw
      refine ih (c :: acc) ?_ tok htok
      intro x hx
      rcases List.mem_cons.mp hx with h | h
      · subst h
        simpa using hcw
      · exact hacc x h

/-- Every token of `str.split()` is non-empty and whitespace-free. -/
theorem pySplitWs_tokens (s : Str) :
    ∀ tok ∈ pySplitWs s, tok ≠ [] ∧ ∀ c ∈ tok, pyWs c = false :=
  splitWsAux_tokens s [] (by simp)

/-- Every family name produced by the author parser is head-clean. -/
theorem parseAuthors_family (s : Str) :
    ∀ a ∈ parseAuthors s, headOkB a.family = true := by
  intro a ha
  unfold parseAuthors at ha
  split at ha
  · simp at ha
  · rw [List.mem_filterMap] at ha
    obtain ⟨seg0, hseg0, hfm⟩ := ha
    simp only at hfm
    split at hfm
    · exact absurd hfm (by simp)
    · split at hfm
      · rw [Option.some_inj] at hfm
        subst hfm
        exact headOkB_pyStrip _
      · split at hfm
        · rw [Option.some_inj] at hfm
          subst hfm
          show headOkB ((pySplitWs (pyStrip seg0)).headD []) = true
          rcases headD_eq_or (pySplitWs (pyStrip seg0)) [] with h | h
          · rw [h]; rfl
          · obtain ⟨h1, h2⟩ := pySplitWs_tokens _ _ h
            exact headOkB_of_token h1 h2
        · rw [Option.some_inj] at hfm
          subst hfm
          show headOkB ((pySplitWs (pyStrip seg0)).getLastD []) = true
          rcases getLastD_eq_or (pySplitWs (pyStrip seg0)) [] with h | h
          · rw [h]; rfl
          · obtain ⟨h1, h2⟩ := pySplitWs_tokens _ _ h
            exact headOkB_of_token h1 h2

/-- The pieces assembled by the initials helper are non-empty and
head-clean: each starts with the head character of a split token. -/
theorem initToken_ok (g tr : Str) :
    ∀ p ∈ ((pySplitWs g).filter (fun n => n != [])).map (fun n => n.take 1 ++ tr),
      p ≠ [] ∧ headOkB p = true := by
  intro p hp
  rw [List.mem_map] at hp
  obtain ⟨n, hn, rfl⟩ := hp
  rw [List.mem_filter] at hn
  obtain ⟨hmem, -⟩ := hn
  obtain ⟨h1, h2⟩ := pySplitWs_tokens g n hmem
  cases n with
  | nil => exact absurd rfl h1
  | cons c t =>
    have ht1 : (c :: t).take 1 = [c] := rfl
    rw [ht1]
    exact ⟨by simp, headOkB_cons_ne tr (h2 c (List.mem_cons_self _ _))⟩

/-- The default head of a list of strings with ASCII leading runs has an
ASCII leading run. -/
theorem asciiRun_headD {l : List Str} (h : ∀ x ∈ l, asciiRun x) :
    asciiRun (l.headD []) := by
  rcases headD_eq_or l [] with h' | h'
  · rw [h']; exact asciiRun_nil
  · exact h _ h'

/-- The default last of a list of strings with ASCII leading runs has an
ASCII leading run. -/
theorem asciiRun_getLastD {l : List Str} (h : ∀ x ∈ l, asciiRun x) :
    asciiRun (l.getLastD []) := by
  rcases getLastD_eq_or l [] with h' | h'
  · rw [h']; exact asciiRun_nil
  · exact h _ h'

/-- The initials string has an ASCII leading run whenever the separator
does. -/
theorem asciiRun_initialsFmt (g sep tr : Str) (hsep : asciiRun sep) :
    asciiRun (initialsFmt g sep tr) := by
  unfold initialsFmt
  split
  · exact asciiRun_nil
  · exact asciiRun_joinSep hsep
      (fun p hp => asciiRun_of_headOkB (initToken_ok g tr p hp).2)

/-- A formatted ACS author has an ASCII leading run when the family is
head-clean. -/
theorem asciiRun_fmtOneAcs (a : Author) (hf : headOkB a.family = true) :
    asciiRun (fmtOneAcs a) := by
  unfold fmtOneAcs
  simp only []
  split
  · exact asciiRun_of_headOkB hf
  · exact asciiRun_append (asciiRun_append (asciiRun_of_headOkB hf) (by decide))
      (asciiRun_initialsFmt _ _ _ (by decide))

/-- The APA per-author formatter coincides with the ACS one. -/
theorem fmtOneApa_eq_acs : fmtOneApa = fmtOneAcs := rfl

/-- The Nature per-author formatter coincides with the ACS one. -/
theorem fmtOneNature_eq_acs : fmtOneNature = fmtOneAcs := rfl

/-- A formatted Harvard author has an ASCII leading run when the family is
head-clean. -/
theorem asciiRun_fmtOneHarvard (a : Author) (hf : headOkB a.family = true) :
    asciiRun (fmtOneHarvard a) := by
  unfold fmtOneHarvard
  simp only []
  split
  · exact asciiRun_of_headOkB hf
  · split
    · exact asciiRun_of_headOkB hf
    · refine asciiRun_append (asciiRun_append (asciiRun_of_headOkB hf) ?_) ?_
      · decide
      · refine asciiRun_joinSep asciiRun_nil ?_
        intro p hp
        exact asciiRun_of_headOkB (initToken_ok a.given (str ".") p hp).2

/-- Every element of the (possibly swapped) capped formatted-author list
has an ASCII leading run. -/
theorem asciiRun_fmtList {authors : List Author} {m : Nat} {r : Bool}
    (hfam : ∀ a ∈ authors, headOkB a.family = true)
    (f1 : Author → Str) (hf1 : ∀ a, headOkB a.family = true → asciiRun (f1 a)) :
    ∀ x ∈ (if r ∧ 2 ≤ ((authors.take m).map f1).length
        then swapFL ((authors.take m).map f1) else (authors.take m).map f1),
      asciiRun x := by
  intro x hx
  have hx' : x ∈ (authors.take m).map f1 := by
    split at hx
    · exact mem_swapFL hx
    · exact hx
  rw [List.mem_map] at hx'
  obtain ⟨a, ha, rfl⟩ := hx'
  exact hf1 a (hfam a (List.take_subset _ _ ha))

/-- The ACS author list has an ASCII leading run. -/
theorem asciiRun_acsList {authors : List Author} {m : Nat} {r : Bool}
    (hfam : ∀ a ∈ authors, headOkB a.family = true) :
    asciiRun (acsList authors m r) := by
  unfold acsList
  simp only []
  split
  · exact asciiRun_nil
  · have key : ∀ F : List Str, (∀ x ∈ F, asciiRun x) →
        asciiRun (if m < authors.length then joinSep (str "; ") F ++ str "; et al."
          else joinSep (str "; ") F) := by
      intro F hF
      split
      · exact asciiRun_append (asciiRun_joinSep (by decide) hF) (by decide)
      · exact asciiRun_joinSep (by decide) hF
    exact key _ (@asciiRun_fmtList authors m r hfam fmtOneAcs
      (fun a h => asciiRun_fmtOneAcs a h))

/-- The APA author list has an ASCII leading run. -/
theorem asciiRun_apaList {authors : List Author} {m : Nat} {r : Bool}
    (hfam : ∀ a ∈ authors, headOkB a.family = true) :
    asciiRun (apaList authors m r) := by
  unfold apaList
  simp only []
  split
  · exact asciiRun_nil
  · have key : ∀ F : List Str, (∀ x ∈ F, asciiRun x) →
        asciiRun (if m < authors.length then
            joinSep (str ", ") (F.take 6) ++ str ", ... " ++ F.getLastD []
          else if F.length = 1 then F.headD []
          else if F.length = 2 then F.headD [] ++ str " & " ++ (F.drop 1).headD []
          else joinSep (str ", ") F.dropLast ++ str ", & " ++ F.getLastD []) := by
      intro F hF
      split
      · exact asciiRun_append (asciiRun_append
          (asciiRun_joinSep (by decide) (fun x hx => hF x (List.take_subset _ _ hx)))
          (by decide)) (asciiRun_getLastD hF)
      · split
        · exact asciiRun_headD hF
        · split
          · exact asciiRun_append (asciiRun_append (asciiRun_headD hF) (by decide))
              (asciiRun_headD (fun x hx => hF x (List.drop_subset _ _ hx)))
          · exact asciiRun_append (asciiRun_append
              (asciiRun_joinSep (by decide) (fun x hx => hF x (List.dropLast_subset _ hx)))
              (by decide)) (asciiRun_getLastD hF)
    exact key _ (@asciiRun_fmtList authors m r hfam fmtOneApa
      (fun a h => by rw [fmtOneApa_eq_acs]; exact asciiRun_fmtOneAcs a h))

/-- The Nature author list has an ASCII leading run. -/
theorem asciiRun_natureList {authors : List Author} {m : Nat} {r : Bool}
    (hfam : ∀ a ∈ authors, headOkB a.family = true) :
    asciiRun (natureList authors m r) := by
  unfold natureList
  simp only []
  split
  · exact asciiRun_nil
  · have key : ∀ F : List Str, (∀ x ∈ F, asciiRun x) →
        asciiRun (if m < authors.length then joinSep (str ", ") F ++ str " et al."
          else if F.length = 1 then F.headD []
          else if F.length = 2 then F.headD [] ++ str " & " ++ (F.drop 1).headD []
          else joinSep (str ", ") F.dropLast ++ str " & " ++ F.getLastD []) := by
      intro F hF
      split
      · exact asciiRun_append (asciiRun_joinSep (by decide) hF) (by decide)
      · split
        · exact asciiRun_headD hF
        · split
          · exact asciiRun_append (asciiRun_append (asciiRun_headD hF) (by decide))
              (asciiRun_headD (fun x hx => hF x (List.drop_subset _ _ hx)))
          · exact asciiRun_append (asciiRun_append
              (asciiRun_joinSep (by decide) (fun x hx => hF x (List.dropLast_subset _ hx)))
              (by decide)) (asciiRun_getLastD hF)
    exact key _ (@asciiRun_fmtList authors m r hfam fmtOneNature
      (fun a h => by rw [fmtOneNature_eq_acs]; exact asciiRun_fmtOneAcs a h))

/-- The Harvard author list has an ASCII leading run. -/
theorem asciiRun_harvardList {authors : List Author} {m : Nat} {r : Bool}
    (hfam : ∀ a ∈ authors, headOkB a.family = true) :
    asciiRun (harvardList authors m r) := by
  unfold harvardList
  simp only []
  split
  · exact asciiRun_nil
  · have key : ∀ F : List Str, (∀ x ∈ F, asciiRun x) →
        asciiRun (if m < authors.length then joinSep (str ", ") F ++ str " et al."
          else if F.length = 1 then F.headD []
          else if F.length = 2 then F.headD [] ++ str " and " ++ (F.drop 1).headD []
          else joinSep (str ", ") F.dropLast ++ str " and " ++ F.getLastD []) := by
      intro F hF
      split
      · exact asciiRun_append (asciiRun_joinSep (by decide) hF) (by decide)
      · split
        · exact asciiRun_headD hF
        · split
          · exact asciiRun_append (asciiRun_append (asciiRun_headD hF) (by decide))
              (asciiRun_headD (fun x hx => hF x (List.drop_subset _ _ hx)))
          · exact asciiRun_append (asciiRun_append
              (asciiRun_joinSep (by decide) (fun x hx => hF x (List.dropLast_subset _ hx)))
              (by decide)) (asciiRun_getLastD hF)
    exact key _ (@asciiRun_fmtList authors m r hfam fmtOneHarvard
      (fun a h => asciiRun_fmtOneHarvard a h))

/-- `takeWhile` of a predicate holding everywhere is the identity. -/
theorem takeWhile_all {p : Char → Bool} : ∀ {y : Str}, (∀ c ∈ y, p c = true) →
    y.takeWhile p = y := by
  intro y
  induction y with
  | nil => intro _; rfl
  | cons c t ih =>
    intro h
    rw [List.takeWhile_cons_of_pos (h c (List.mem_cons_self _ _))]
    rw [ih (fun x hx => h x (List.mem_cons_of_mem c hx))]

/-- A string with an ASCII leading run and no non-whitespace character is
ASCII whitespace throughout. -/
theorem allWsAscii {y : Str} (ha : asciiRun y) (hnw : hasNonWs y = false) :
    ∀ c ∈ y, pyWs c = true ∧ c.toNat < 128 := by
  have hws : ∀ c ∈ y, pyWs c = true := by simpa [hasNonWs] using hnw
  intro c hc
  refine ⟨hws c hc, ?_⟩
  have ht : y.takeWhile pyWs = y := takeWhile_all hws
  exact ha c (by rw [ht]; exact hc)

/-- The ASCII-run and head-clean facts for a cleaned field. -/
theorem asciiRun_cleanLatex (x : Str) : asciiRun (cleanLatex x) :=
  asciiRun_of_headOkB (headOkB_cleanLatex x)

/-- A replacement with a non-empty replacement text never maps a non-empty
string to the empty string. -/
theorem pyReplace_ne_nil {s : Str} (h : s ≠ []) {old new : Str} (hnew : new ≠ []) :
    pyReplace s old new ≠ [] := by
  unfold pyReplace
  cases old with
  | nil => exact h
  | cons o os =>
    cases s with
    | nil => exact absurd rfl h
    | cons c t =>
      show pyReplaceCore o os new (c :: t).length (c :: t) ≠ []
      rw [List.length_cons]
      simp only [pyReplaceCore]
      split
      · intro hc
        exact hnew (List.append_eq_nil.mp hc).1
      · simp

/-- An append whose left part is non-empty is non-empty. -/
theorem append_ne_left {x : Str} (y : Str) (h : x ≠ []) : x ++ y ≠ [] :=
  fun hc => h (List.append_eq_nil.mp hc).1

/-- Head-cleanliness is kept by appending on the right of a non-empty
head-clean string. -/
theorem headOkB_extend {x : Str} (h : headOkB x = true) (hx : x ≠ []) (y : Str) :
    headOkB (x ++ y) = true := by
  rw [headOkB_append_left y hx]
  exact h

/-- Digits are not whitespace. -/
theorem pyWs_digit {c : Char} (h : c.isDigit = true) : pyWs c = false := by
  obtain ⟨h1, h2⟩ := (isDigit_iff c).mp h
  rw [← Char.ofNat_toNat c]
  set k := c.toNat with hk
  interval_cases k <;> decide

/-- A decimal representation is head-clean (it starts with a digit). -/
theorem headOkB_decRepr (n : Nat) : headOkB (decRepr n) = true := by
  cases h : decRepr n with
  | nil => exact absurd h (decRepr_ne_nil n)
  | cons c t =>
    have hc : c ∈ decRepr n := by rw [h]; exact List.mem_cons_self _ _
    exact headOkB_cons_ne t (pyWs_digit (decRepr_digits n c hc))

/-- A non-empty head-clean string has a non-whitespace character. -/
theorem hasNonWs_of_headOkB {y : Str} (h : headOkB y = true) (hne : y ≠ []) :
    hasNonWs y = true := by
  cases y with
  | nil => exact absurd rfl hne
  | cons c t =>
    have hc : pyWs c = false := by simpa [headOkB] using h
    unfold hasNonWs
    rw [List.any_eq_true]
    exact ⟨c, List.mem_cons_self _ _, by simp [hc]⟩

/-- C1 case lemma, ACS: with a whitespace-clean DOI and a non-empty page
range, stripping the markup of the ACS reference yields the plain text. -/
theorem consistAcs (e : Entry) (idx : Nat) (maxN : Option Nat) (rev : Bool)
    (hdoi : lastOk e.doi = true) (hpg : e.pages ≠ []) :
    unrtf (formatAcs e idx maxN false rev).2 = (formatAcs e idx maxN false rev).1 := by
  have hauth : asciiRun (acsList (parseAuthors e.author) (maxN.getD 10) rev) :=
    asciiRun_acsList (parseAuthors_family e.author)
  have hpg' : pyReplace e.pages (str "--") (str "–") ≠ [] :=
    pyReplace_ne_nil hpg (by decide)
  simp only [formatAcs, getFields]
  by_cases hart : pyLower (e.entrytype.getD (str "article")) = str "article"
  · rw [if_pos hart, if_neg (by decide : ¬ (false = true)), if_neg hpg']
    by_cases hd0 : e.doi = []
    · rw [if_pos hd0, if_pos hd0]
      by_cases hv : e.volume = []
      · rw [if_pos hv, hv]
        simp only []
        refine strip_unrtf_via
          (acsList (parseAuthors e.author) (maxN.getD 10) rev ++ str " " ++
            cleanLatex e.title ++ str ". ") (str ".")
          [Seg.ital (cleanLatex e.journal), Seg.esc (str " " ++ e.year ++ str ", "),
           Seg.esc (str ", "), Seg.esc (pyReplace e.pages (str "--") (str "–"))]
          _ _ ?_ ?_ ?_ ?_ (by decide) (by decide)
        · simp only [renderR, segRtf, escape_append, List.append_assoc, List.append_nil]
        · simp only [renderP, segPlain, List.append_assoc, List.append_nil]
        · rw [hasNonWs_append, (by decide : hasNonWs (str ". ") = true), Bool.or_true]
        · exact asciiRun_append (asciiRun_append (asciiRun_append hauth (by decide))
            (asciiRun_cleanLatex _)) (by decide)
      · rw [if_neg hv]
        simp only []
        refine strip_unrtf_via
          (acsList (parseAuthors e.author) (maxN.getD 10) rev ++ str " " ++
            cleanLatex e.title ++ str ". ") (str ".")
          [Seg.ital (cleanLatex e.journal), Seg.esc (str " " ++ e.year ++ str ", "),
           Seg.ital e.volume, Seg.esc (str ", "),
           Seg.esc (pyReplace e.pages (str "--") (str "–"))]
          _ _ ?_ ?_ ?_ ?_ (by decide) (by decide)
        · simp only [renderR, segRtf, escape_append, List.append_assoc, List.append_nil]
        · simp only [renderP, segPlain, List.append_assoc, List.append_nil]
        · rw [hasNonWs_append, (by decide : hasNonWs (str ". ") = true), Bool.or_true]
        · exact asciiRun_append (asciiRun_append (asciiRun_append hauth (by decide))
            (asciiRun_cleanLatex _)) (by decide)
    · rw [if_neg hd0, if_neg hd0]
      by_cases hv : e.volume = []
      · rw [if_pos hv, hv]
        simp only []
        refine strip_unrtf_via
          (acsList (parseAuthors e.author) (maxN.getD 10) rev ++ str " " ++
            cleanLatex e.title ++ str ". ") e.doi
          [Seg.ital (cleanLatex e.journal), Seg.esc (str " " ++ e.year ++ str ", "),
           Seg.esc (str ", "), Seg.esc (pyReplace e.pages (str "--") (str "–")),
           Seg.esc (str "."), Seg.esc (str " DOI: ")]
          _ _ ?_ ?_ ?_ ?_ hd0 hdoi
        · simp only [renderR, segRtf, escape_append, List.append_assoc, List.append_nil]
        · simp only [renderP, segPlain, List.append_assoc, List.append_nil]
        · rw [hasNonWs_append, (by decide : hasNonWs (str ". ") = true), Bool.or_true]
        · exact asciiRun_append (asciiRun_append (asciiRun_append hauth (by decide))
            (asciiRun_cleanLatex _)) (by decide)
      · rw [if_neg hv]
        simp only []
        refine strip_unrtf_via
          (acsList (parseAuthors e.author) (maxN.getD 10) rev ++ str " " ++
            cleanLatex e.title ++ str ". ") e.doi
          [Seg.ital (cleanLatex e.journal), Seg.esc (str " " ++ e.year ++ str ", "),
           Seg.ital e.volume, Seg.esc (str ", "),
           Seg.esc (pyReplace e.pages (str "--") (str "–")),
           Seg.esc (str "."), Seg.esc (str " DOI: ")]
          _ _ ?_ ?_ ?_ ?_ hd0 hdoi
        · simp only [renderR, segRtf, escape_append, List.append_assoc, List.append_nil]
        · simp only [renderP, segPlain, List.append_assoc, List.append_nil]
        · rw [hasNonWs_append, (by decide : hasNonWs (str ". ") = true), Bool.or_true]
        · exact asciiRun_append (asciiRun_append (asciiRun_append hauth (by decide))
            (asciiRun_cleanLatex _)) (by decide)
  · rw [if_neg hart]
    by_cases hbook : pyLower (e.entrytype.getD (str "article")) = str "book"
    · rw [if_pos hbook, if_neg (by decide : ¬ (false = true))]
      simp only []
      by_cases hnw : hasNonWs (acsList (parseAuthors e.author) (maxN.getD 10) rev ++
          str " ") = true
      · refine strip_unrtf_via
          (acsList (parseAuthors e.author) (maxN.getD 10) rev ++ str " ") (str ".")
          [Seg.ital (cleanLatex e.title),
           Seg.esc (str "; " ++ cleanLatex e.publisher ++ str ": " ++
             cleanLatex e.address ++ str ", " ++ e.year)]
          _ _ ?_ ?_ hnw ?_ (by decide) (by decide)
        · simp only [renderR, segRtf, escape_append, List.append_assoc, List.append_nil]
        · simp only [renderP, segPlain, List.append_assoc, List.append_nil]
        · exact asciiRun_append hauth (by decide)
      · have hnw' : hasNonWs (acsList (parseAuthors e.author) (maxN.getD 10) rev ++
            str " ") = false := by simpa using hnw
        refine strip_unrtf_via2
          (acsList (parseAuthors e.author) (maxN.getD 10) rev ++ str " ")
          (cleanLatex e.title) (str ".")
          [Seg.esc (str "; " ++ cleanLatex e.publisher ++ str ": " ++
             cleanLatex e.address ++ str ", " ++ e.year)]
          _ _ ?_ ?_ ?_ ?_ (by decide) (by decide)
        · simp only [renderR, segRtf, escape_append, List.append_assoc, List.append_nil]
        · simp only [renderP, segPlain, List.append_assoc, List.append_nil]
        · exact allWsAscii (asciiRun_append hauth (by decide)) hnw'
        · simp only [renderP, segPlain, List.append_nil]
          exact headOkB_append (headOkB_cleanLatex _) rfl
    · rw [if_neg hbook, if_neg (by decide : ¬ (false = true))]
      simp only []
      refine strip_unrtf_via
        (acsList (parseAuthors e.author) (maxN.getD 10) rev ++ str " " ++
          cleanLatex e.title ++ str ". ") (str ".")
        [Seg.esc e.year]
        _ _ ?_ ?_ ?_ ?_ (by decide) (by decide)
      · simp only [renderR, segRtf, escape_append, List.append_assoc, List.append_nil]
      · simp only [renderP, segPlain, List.append_assoc, List.append_nil]
      · rw [hasNonWs_append, (by decide : hasNonWs (str ". ") = true), Bool.or_true]
      · exact asciiRun_append (asciiRun_append (asciiRun_append hauth (by decide))
          (asciiRun_cleanLatex _)) (by decide)

/-- C1 case lemma, APA: with a whitespace-clean DOI and a non-empty page
range, stripping the markup of the APA reference yields the plain text. -/
theorem consistApa (e : Entry) (idx : Nat) (maxN : Option Nat) (rev : Bool)
    (hdoi : lastOk e.doi = true) (hpg : e.pages ≠ []) :
    unrtf (formatApa e idx maxN false rev).2 = (formatApa e idx maxN false rev).1 := by
  have hauth : asciiRun (apaList (parseAuthors e.author) (maxN.getD 7) rev) :=
    asciiRun_apaList (parseAuthors_family e.author)
  have hpg' : pyReplace e.pages (str "--") (str "–") ≠ [] :=
    pyReplace_ne_nil hpg (by decide)
  simp only [formatApa, getFields]
  by_cases hart : pyLower (e.entrytype.getD (str "article")) = str "article"
  · rw [if_pos hart, if_neg (by decide : ¬ (false = true)), if_neg hpg']
    by_cases hiss : e.number = []
    · rw [if_pos hiss]
      by_cases hd0 : e.doi = []
      · rw [if_pos hd0, if_pos hd0]
        by_cases hv : e.volume = []
        · rw [if_pos hv, hv]
          simp only []
          refine strip_unrtf_via
            (apaList (parseAuthors e.author) (maxN.getD 7) rev ++ str " (") (str ".")
            [Seg.esc e.year, Seg.esc (str "). "), Seg.esc (cleanLatex e.title),
             Seg.esc (str ". "), Seg.ital (cleanLatex e.journal), Seg.esc (str ", "),
             Seg.esc (str ", "), Seg.esc (pyReplace e.pages (str "--") (str "–"))]
            _ _ ?_ ?_ ?_ ?_ (by decide) (by decide)
          · simp only [renderR, segRtf, escape_append, List.append_assoc, List.append_nil]
          · simp only [renderP, segPlain, List.append_assoc, List.append_nil]
          · rw [hasNonWs_append, (by decide : hasNonWs (str " (") = true), Bool.or_true]
          · exact asciiRun_append hauth (by decide)
        · rw [if_neg hv]
          simp only []
          refine strip_unrtf_via
            (apaList (parseAuthors e.author) (maxN.getD 7) rev ++ str " (") (str ".")
            [Seg.esc e.year, Seg.esc (str "). "), Seg.esc (cleanLatex e.title),
             Seg.esc (str ". "), Seg.ital (cleanLatex e.journal), Seg.esc (str ", "),
             Seg.ital e.volume, Seg.esc (str ", "),
             Seg.esc (pyReplace e.pages (str "--") (str "–"))]
            _ _ ?_ ?_ ?_ ?_ (by decide) (by decide)
          · simp only [renderR, segRtf, escape_append, List.append_assoc, List.append_nil]
          · simp only [renderP, segPlain, List.append_assoc, List.append_nil]
          · rw [hasNonWs_append, (by decide : hasNonWs (str " (") = true), Bool.or_true]
          · exact asciiRun_append hauth (by decide)
      · rw [if_neg hd0, if_neg hd0]
        by_cases hv : e.volume = []
        · rw [if_pos hv, hv]
          simp only []
          refine strip_unrtf_via
            (apaList (parseAuthors e.author) (maxN.getD 7) rev ++ str " (") e.doi
            [Seg.esc e.year, Seg.esc (str "). "), Seg.esc (cleanLatex e.title),
             Seg.esc (str ". "), Seg.ital (cleanLatex e.journal), Seg.esc (str ", "),
             Seg.esc (str ", "), Seg.esc (pyReplace e.pages (str "--") (str "–")),
             Seg.esc (str "."), Seg.esc (str " https://doi.org/")]
            _ _ ?_ ?_ ?_ ?_ hd0 hdoi
          · simp only [renderR, segRtf, escape_append, List.append_assoc, List.append_nil]
          · simp only [renderP, segPlain, List.append_assoc, List.append_nil]
          · rw [hasNonWs_append, (by decide : hasNonWs (str " (") = true), Bool.or_true]
          · exact asciiRun_append hauth (by decide)
        · rw [if_neg hv]
          simp only []
          refine strip_unrtf_via
            (apaList (parseAuthors e.author) (maxN.getD 7) rev ++ str " (") e.doi
            [Seg.esc e.year, Seg.esc (str "). "), Seg.esc (cleanLatex e.title),
             Seg.esc (str ". "), Seg.ital (cleanLatex e.journal), Seg.esc (str ", "),
             Seg.ital e.volume, Seg.esc (str ", "),
             Seg.esc (pyReplace e.pages (str "--") (str "–")),
             Seg.esc (str "."), Seg.esc (str " https://doi.org/")]
            _ _ ?_ ?_ ?_ ?_ hd0 hdoi
          · simp only [renderR, segRtf, escape_append, List.append_assoc, List.append_nil]
          · simp only [renderP, segPlain, List.append_assoc, List.append_nil]
          · rw [hasNonWs_append, (by decide : hasNonWs (str " (") = true), Bool.or_true]
          · exact asciiRun_append hauth (by decide)
    · rw [if_neg hiss,
        if_neg (fun hc => absurd (List.append_eq_nil.mp hc).2
          (by decide : (str ")" : Str) ≠ []))]
      by_cases hd0 : e.doi = []
      · rw [if_pos hd0, if_pos hd0]
        simp only []
        refine strip_unrtf_via
          (apaList (parseAuthors e.author) (maxN.getD 7) rev ++ str " (") (str ".")
          [Seg.esc e.year, Seg.esc (str "). "), Seg.esc (cleanLatex e.title),
           Seg.esc (str ". "), Seg.ital (cleanLatex e.journal), Seg.esc (str ", "),
           Seg.ital (e.volume ++ str "(" ++ e.number ++ str ")"), Seg.esc (str ", "),
           Seg.esc (pyReplace e.pages (str "--") (str "–"))]
          _ _ ?_ ?_ ?_ ?_ (by decide) (by decide)
        · simp only [renderR, segRtf, escape_append, List.append_assoc, List.append_nil]
        · simp only [renderP, segPlain, List.append_assoc, List.append_nil]
        · rw [hasNonWs_append, (by decide : hasNonWs (str " (") = true), Bool.or_true]
        · exact asciiRun_append hauth (by decide)
      · rw [if_neg hd0, if_neg hd0]
        simp only []
        refine strip_unrtf_via
          (apaList (parseAuthors e.author) (maxN.getD 7) rev ++ str " (") e.doi
          [Seg.esc e.year, Seg.esc (str "). "), Seg.esc (cleanLatex e.title),
           Seg.esc (str ". "), Seg.ital (cleanLatex e.journal), Seg.esc (str ", "),
           Seg.ital (e.volume ++ str "(" ++ e.number ++ str ")"), Seg.esc (str ", "),
           Seg.esc (pyReplace e.pages (str "--") (str "–")),
           Seg.esc (str "."), Seg.esc (str " https://doi.org/")]
          _ _ ?_ ?_ ?_ ?_ hd0 hdoi
        · simp only [renderR, segRtf, escape_append, List.append_assoc, List.append_nil]
        · simp only [renderP, segPlain, List.append_assoc, List.append_nil]
        · rw [hasNonWs_append, (by decide : hasNonWs (str " (") = true), Bool.or_true]
        · exact asciiRun_append hauth (by decide)
  · rw [if_neg hart]
    by_cases hbook : pyLower (e.entrytype.getD (str "article")) = str "book"
    · rw [if_pos hbook, if_neg (by decide : ¬ (false = true))]
      simp only []
      refine strip_unrtf_via
        (apaList (parseAuthors e.author) (maxN.getD 7) rev ++ str " (") (str ".")
        [Seg.esc e.year, Seg.esc (str "). "), Seg.ital (cleanLatex e.title),
         Seg.esc (str ". "), Seg.esc (cleanLatex e.publisher)]
        _ _ ?_ ?_ ?_ ?_ (by decide) (by decide)
      · simp only [renderR, segRtf, escape_append, List.append_assoc, List.append_nil]
      · simp only [renderP, segPlain, List.append_assoc, List.append_nil]
      · rw [hasNonWs_append, (by decide : hasNonWs (str " (") = true), Bool.or_true]
      · exact asciiRun_append hauth (by decide)
    · rw [if_neg hbook, if_neg (by decide : ¬ (false = true))]
      simp only []
      refine strip_unrtf_via
        (apaList (parseAuthors e.author) (maxN.getD 7) rev ++ str " (") (str ".")
        [Seg.esc e.year, Seg.esc (str "). "), Seg.esc (cleanLatex e.title)]
        _ _ ?_ ?_ ?_ ?_ (by decide) (by decide)
      · simp only [renderR, segRtf, escape_append, List.append_assoc, List.append_nil]
      · simp only [renderP, segPlain, List.append_assoc, List.append_nil]
      · rw [hasNonWs_append, (by decide : hasNonWs (str " (") = true), Bool.or_true]
      · exact asciiRun_append hauth (by decide)

/-- Head-cleanliness and non-emptiness together, for building up the
anchored prefix of a numbered reference. -/
theorem headOkB_chain {x : Str} (h : headOkB x = true) (hx : x ≠ []) (y : Str) :
    headOkB (x ++ y) = true ∧ x ++ y ≠ [] :=
  ⟨headOkB_extend h hx y, append_ne_left y hx⟩

/-- C1 case lemma, Vancouver: stripping the markup of the Vancouver
reference yields the plain text, with no proviso (the style renders no
DOI suffix and wraps no conditional fragment). -/
theorem consistVancouver (e : Entry) (idx : Nat) (maxN : Option Nat) (rev : Bool) :
    unrtf (formatVancouver e idx maxN false rev).2 =
      (formatVancouver e idx maxN false rev).1 := by
  simp only [formatVancouver, getFields]
  have c1 := headOkB_chain (headOkB_decRepr idx) (decRepr_ne_nil idx) (str ". ")
  by_cases hart : pyLower (e.entrytype.getD (str "article")) = str "article"
  · rw [if_pos hart, if_neg (by decide : ¬ (false = true))]
    simp only []
    have c2 := headOkB_chain c1.1 c1.2
      (vancouverList (parseAuthors e.author) (maxN.getD 6) rev)
    have c3 := headOkB_chain c2.1 c2.2 (str ". ")
    have c4 := headOkB_chain c3.1 c3.2 (cleanLatex e.title)
    have c5 := headOkB_chain c4.1 c4.2 (str ". ")
    refine strip_unrtf_via
      (decRepr idx ++ str ". " ++
        vancouverList (parseAuthors e.author) (maxN.getD 6) rev ++ str ". " ++
        cleanLatex e.title ++ str ". ") (str ".")
      [Seg.ital (cleanLatex e.journal),
       Seg.esc (str ". " ++ e.year ++ str ";" ++
         (if e.number = [] then e.volume
          else e.volume ++ str "(" ++ e.number ++ str ")") ++ str ":" ++
         pyReplace (pyReplace e.pages (str "--") (str "–")) (str "–") (str "-"))]
      _ _ ?_ ?_ ?_ ?_ (by decide) (by decide)
    · simp only [renderR, segRtf, escape_append, List.append_assoc, List.append_nil]
    · simp only [renderP, segPlain, List.append_assoc, List.append_nil]
    · exact hasNonWs_of_headOkB c5.1 c5.2
    · exact asciiRun_of_headOkB c5.1
  · rw [if_neg hart, if_neg (by decide : ¬ (false = true))]
    simp only []
    have c2 := headOkB_chain c1.1 c1.2
      (vancouverList (parseAuthors e.author) (maxN.getD 6) rev)
    have c3 := headOkB_chain c2.1 c2.2 (str ". ")
    have c4 := headOkB_chain c3.1 c3.2 (cleanLatex e.title)
    have c5 := headOkB_chain c4.1 c4.2 (str ". ")
    refine strip_unrtf_via
      (decRepr idx ++ str ". " ++
        vancouverList (parseAuthors e.author) (maxN.getD 6) rev ++ str ". " ++
        cleanLatex e.title ++ str ". ") (str ".")
      [Seg.esc e.year]
      _ _ ?_ ?_ ?_ ?_ (by decide) (by decide)
    · simp only [renderR, segRtf, escape_append, List.append_assoc, List.append_nil]
    · simp only [renderP, segPlain, List.append_assoc, List.append_nil]
    · exact hasNonWs_of_headOkB c5.1 c5.2
    · exact asciiRun_of_headOkB c5.1

/-- C1 case lemma, Angewandte: with a whitespace-clean DOI, stripping the
markup of the Angewandte reference yields the plain text. -/
theorem consistAngewandte (e : Entry) (idx : Nat) (maxN : Option Nat) (rev : Bool)
    (hdoi : lastOk e.doi = true) :
    unrtf (formatAngewandte e idx maxN false rev).2 =
      (formatAngewandte e idx maxN false rev).1 := by
  have hauth : asciiRun (natureList (parseAuthors e.author) (maxN.getD 5) rev) :=
    asciiRun_natureList (parseAuthors_family e.author)
  simp only [formatAngewandte, getFields]
  by_cases hart : pyLower (e.entrytype.getD (str "article")) = str "article"
  · rw [if_pos hart]
    by_cases hd0 : e.doi = []
    · rw [if_pos hd0, if_pos hd0]
      simp only []
      refine strip_unrtf_via
        (natureList (parseAuthors e.author) (maxN.getD 5) rev ++ str ", ") (str ".")
        [Seg.ital (cleanLatex e.journal), Seg.esc (str " " ++ e.year ++ str ", "),
         Seg.ital e.volume, Seg.esc (str ", "),
         Seg.esc (pyReplace e.pages (str "--") (str "–"))]
        _ _ ?_ ?_ ?_ ?_ (by decide) (by decide)
      · simp only [renderR, segRtf, escape_append, List.append_assoc, List.append_nil]
      · simp only [renderP, segPlain, List.append_assoc, List.append_nil]
      · rw [hasNonWs_append, (by decide : hasNonWs (str ", ") = true), Bool.or_true]
      · exact asciiRun_append hauth (by decide)
    · rw [if_neg hd0, if_neg hd0]
      simp only []
      refine strip_unrtf_via
        (natureList (parseAuthors e.author) (maxN.getD 5) rev ++ str ", ") e.doi
        [Seg.ital (cleanLatex e.journal), Seg.esc (str " " ++ e.year ++ str ", "),
         Seg.ital e.volume, Seg.esc (str ", "),
         Seg.esc (pyReplace e.pages (str "--") (str "–")),
         Seg.esc (str "."), Seg.esc (str " DOI: ")]
        _ _ ?_ ?_ ?_ ?_ hd0 hdoi
      · simp only [renderR, segRtf, escape_append, List.append_assoc, List.append_nil]
      · simp only [renderP, segPlain, List.append_assoc, List.append_nil]
      · rw [hasNonWs_append, (by decide : hasNonWs (str ", ") = true), Bool.or_true]
      · exact asciiRun_append hauth (by decide)
  · rw [if_neg hart]
    by_cases hbook : pyLower (e.entrytype.getD (str "article")) = str "book"
    · rw [if_pos hbook, if_neg (by decide : ¬ (false = true))]
      simp only []
      refine strip_unrtf_via
        (natureList (parseAuthors e.author) (maxN.getD 5) rev ++ str ", ") (str ".")
        [Seg.ital (cleanLatex e.title),
         Seg.esc (str ", " ++ cleanLatex e.publisher ++ str ", " ++
           cleanLatex e.address ++ str ", " ++ e.year)]
        _ _ ?_ ?_ ?_ ?_ (by decide) (by decide)
      · simp only [renderR, segRtf, escape_append, List.append_assoc, List.append_nil]
      · simp only [renderP, segPlain, List.append_assoc, List.append_nil]
      · rw [hasNonWs_append, (by decide : hasNonWs (str ", ") = true), Bool.or_true]
      · exact asciiRun_append hauth (by decide)
    · rw [if_neg hbook, if_neg (by decide : ¬ (false = true))]
      simp only []
      refine strip_unrtf_via
        (natureList (parseAuthors e.author) (maxN.getD 5) rev ++ str ", ") (str ".")
        [Seg.esc (cleanLatex e.title), Seg.esc (str ", "), Seg.esc e.year]
        _ _ ?_ ?_ ?_ ?_ (by decide) (by decide)
      · simp only [renderR, segRtf, escape_append, List.append_assoc, List.append_nil]
      · simp only [renderP, segPlain, List.append_assoc, List.append_nil]
      · rw [hasNonWs_append, (by decide : hasNonWs (str ", ") = true), Bool.or_true]
      · exact asciiRun_append hauth (by decide)

/-- C1 case lemma, RSC: with a whitespace-clean DOI, stripping the markup
of the RSC reference yields the plain text. -/
theorem consistRsc (e : Entry) (idx : Nat) (maxN : Option Nat) (rev : Bool)
    (hdoi : lastOk e.doi = true) :
    unrtf (formatRsc e idx maxN false rev).2 = (formatRsc e idx maxN false rev).1 := by
  have hauth : asciiRun (natureList (parseAuthors e.author) (maxN.getD 5) rev) :=
    asciiRun_natureList (parseAuthors_family e.author)
  simp only [formatRsc, getFields]
  by_cases hart : pyLower (e.entrytype.getD (str "article")) = str "article"
  · rw [if_pos hart]
    by_cases hd0 : e.doi = []
    · rw [if_pos hd0, if_pos hd0]
      simp only []
      refine strip_unrtf_via
        (natureList (parseAuthors e.author) (maxN.getD 5) rev ++ str ", ") (str ".")
        [Seg.ital (cleanLatex e.journal), Seg.esc (str ", " ++ e.year ++ str ", "),
         Seg.bld e.volume, Seg.esc (str ", "),
         Seg.esc (pyReplace e.pages (str "--") (str "–"))]
        _ _ ?_ ?_ ?_ ?_ (by decide) (by decide)
      · simp only [renderR, segRtf, escape_append, List.append_assoc, List.append_nil]
      · simp only [renderP, segPlain, List.append_assoc, List.append_nil]
      · rw [hasNonWs_append, (by decide : hasNonWs (str ", ") = true), Bool.or_true]
      · exact asciiRun_append hauth (by decide)
    · rw [if_neg hd0, if_neg hd0]
      simp only []
      refine strip_unrtf_via
        (natureList (parseAuthors e.author) (maxN.getD 5) rev ++ str ", ") e.doi
        [Seg.ital (cleanLatex e.journal), Seg.esc (str ", " ++ e.year ++ str ", "),
         Seg.bld e.volume, Seg.esc (str ", "),
         Seg.esc (pyReplace e.pages (str "--") (str "–")),
         Seg.esc (str "."), Seg.esc (str " DOI: ")]
        _ _ ?_ ?_ ?_ ?_ hd0 hdoi
      · simp only [renderR, segRtf, escape_append, List.append_assoc, List.append_nil]
      · simp only [renderP, segPlain, List.append_assoc, List.append_nil]
      · rw [hasNonWs_append, (by decide : hasNonWs (str ", ") = true), Bool.or_true]
      · exact asciiRun_append hauth (by decide)
  · rw [if_neg hart]
    by_cases hbook : pyLower (e.entrytype.getD (str "article")) = str "book"
    · rw [if_pos hbook, if_neg (by decide : ¬ (false = true))]
      simp only []
      refine strip_unrtf_via
        (natureList (parseAuthors e.author) (maxN.getD 5) rev ++ str ", ") (str ".")
        [Seg.ital (cleanLatex e.title),
         Seg.esc (str ", " ++ cleanLatex e.publisher ++ str ", " ++ e.year)]
        _ _ ?_ ?_ ?_ ?_ (by decide) (by decide)
      · simp only [renderR, segRtf, escape_append, List.append_assoc, List.append_nil]
      · simp only [renderP, segPlain, List.append_assoc, List.append_nil]
      · rw [hasNonWs_append, (by decide : hasNonWs (str ", ") = true), Bool.or_true]
      · exact asciiRun_append hauth (by decide)
    · rw [if_neg hbook, if_neg (by decide : ¬ (false = true))]
      simp only []
      refine strip_unrtf_via
        (natureList (parseAuthors e.author) (maxN.getD 5) rev ++ str ", ") (str ".")
        [Seg.esc (cleanLatex e.title), Seg.esc (str ", "), Seg.esc e.year]
        _ _ ?_ ?_ ?_ ?_ (by decide) (by decide)
      · simp only [renderR, segRtf, escape_append, List.append_assoc, List.append_nil]
      · simp only [renderP, segPlain, List.append_assoc, List.append_nil]
      · rw [hasNonWs_append, (by decide : hasNonWs (str ", ") = true), Bool.or_true]
      · exact asciiRun_append hauth (by decide)

/-- C1 case lemma, Advances-style (AoA): with a whitespace-clean DOI,
stripping the markup of the AoA reference yields the plain text. -/
theorem consistAoa (e : Entry) (idx : Nat) (maxN : Option Nat) (rev : Bool)
    (hdoi : lastOk e.doi = true) :
    unrtf (formatAoa e idx maxN false rev).2 = (formatAoa e idx maxN false rev).1 := by
  have hauth : asciiRun (acsList (parseAuthors e.author) (maxN.getD 10) rev) :=
    asciiRun_acsList (parseAuthors_family e.author)
  simp only [formatAoa, getFields]
  by_cases hart : pyLower (e.entrytype.getD (str "article")) = str "article"
  · rw [if_pos hart, if_neg (by decide : ¬ (false = true))]
    by_cases hd0 : e.doi = []
    · rw [if_pos hd0, if_pos hd0]
      simp only []
      refine strip_unrtf_via
        (acsList (parseAuthors e.author) (maxN.getD 10) rev ++ str " " ++
          cleanLatex e.title ++ str ". ") (str ".")
        [Seg.ital (cleanLatex e.journal), Seg.esc (str " "), Seg.bld e.year,
         Seg.esc (str ", "), Seg.ital e.volume, Seg.esc (str ", "),
         Seg.esc (pyReplace e.pages (str "--") (str "–"))]
        _ _ ?_ ?_ ?_ ?_ (by decide) (by decide)
      · simp only [renderR, segRtf, escape_append, List.append_assoc, List.append_nil]
      · simp only [renderP, segPlain, List.append_assoc, List.append_nil]
      · rw [hasNonWs_append, (by decide : hasNonWs (str ". ") = true), Bool.or_true]
      · exact asciiRun_append (asciiRun_append (asciiRun_append hauth (by decide))
          (asciiRun_cleanLatex _)) (by decide)
    · rw [if_neg hd0, if_neg hd0]
      simp only []
      refine strip_unrtf_via
        (acsList (parseAuthors e.author) (maxN.getD 10) rev ++ str " " ++
          cleanLatex e.title ++ str ". ") e.doi
        [Seg.ital (cleanLatex e.journal), Seg.esc (str " "), Seg.bld e.year,
         Seg.esc (str ", "), Seg.ital e.volume, Seg.esc (str ", "),
         Seg.esc (pyReplace e.pages (str "--") (str "–")),
         Seg.esc (str "."), Seg.esc (str " https://doi.org/")]
        _ _ ?_ ?_ ?_ ?_ hd0 hdoi
      · simp only [renderR, segRtf, escape_append, List.append_assoc, List.append_nil]
      · simp only [renderP, segPlain, List.append_assoc, List.append_nil]
      · rw [hasNonWs_append, (by decide : hasNonWs (str ". ") = true), Bool.or_true]
      · exact asciiRun_append (asciiRun_append (asciiRun_append hauth (by decide))
          (asciiRun_cleanLatex _)) (by decide)
  · rw [if_neg hart, if_neg (by decide : ¬ (false = true))]
    simp only []
    refine strip_unrtf_via
      (acsList (parseAuthors e.author) (maxN.getD 10) rev ++ str " " ++
        cleanLatex e.title ++ str ". ") (str ".")
      [Seg.esc e.year]
      _ _ ?_ ?_ ?_ ?_ (by decide) (by decide)
    · simp only [renderR, segRtf, escape_append, List.append_assoc, List.append_nil]
    · simp only [renderP, segPlain, List.append_assoc, List.append_nil]
    · rw [hasNonWs_append, (by decide : hasNonWs (str ". ") = true), Bool.or_true]
    · exact asciiRun_append (asciiRun_append (asciiRun_append hauth (by decide))
        (asciiRun_cleanLatex _)) (by decide)

/-- C1 case lemma, Nature: with a whitespace-clean DOI, stripping the
markup of the Nature reference yields the plain text. -/
theorem consistNature (e : Entry) (idx : Nat) (maxN : Option Nat) (rev : Bool)
    (hdoi : lastOk e.doi = true) :
    unrtf (formatNature e idx maxN false rev).2 =
      (formatNature e idx maxN false rev).1 := by
  simp only [formatNature, getFields]
  have c1 := headOkB_chain (headOkB_decRepr idx) (decRepr_ne_nil idx) (str ". ")
  have c2 := headOkB_chain c1.1 c1.2
    (natureList (parseAuthors e.author) (maxN.getD 5) rev)
  by_cases hart : pyLower (e.entrytype.getD (str "article")) = str "article"
  · rw [if_pos hart, if_neg (by decide : ¬ (false = true))]
    have c3 := headOkB_chain c2.1 c2.2 (str " ")
    have c4 := headOkB_chain c3.1 c3.2 (cleanLatex e.title)
    have c5 := headOkB_chain c4.1 c4.2 (str ". ")
    by_cases hd0 : e.doi = []
    · rw [if_pos hd0, if_pos hd0]
      simp only []
      refine strip_unrtf_via
        (decRepr idx ++ str ". " ++
          natureList (parseAuthors e.author) (maxN.getD 5) rev ++ str " " ++
          cleanLatex e.title ++ str ". ") (str ").")
        [Seg.ital (cleanLatex e.journal), Seg.esc (str " "), Seg.bld e.volume,
         Seg.esc (str ", " ++ pyReplace e.pages (str "--") (str "–") ++ str " (" ++
           e.year)]
        _ _ ?_ ?_ ?_ ?_ (by decide) (by decide)
      · simp only [renderR, segRtf, escape_append, List.append_assoc, List.append_nil]
      · simp only [renderP, segPlain, List.append_assoc, List.append_nil]
      · exact hasNonWs_of_headOkB c5.1 c5.2
      · exact asciiRun_of_headOkB c5.1
    · rw [if_neg hd0, if_neg hd0]
      simp only []
      refine strip_unrtf_via
        (decRepr idx ++ str ". " ++
          natureList (parseAuthors e.author) (maxN.getD 5) rev ++ str " " ++
          cleanLatex e.title ++ str ". ") e.doi
        [Seg.ital (cleanLatex e.journal), Seg.esc (str " "), Seg.bld e.volume,
         Seg.esc (str ", " ++ pyReplace e.pages (str "--") (str "–") ++ str " (" ++
           e.year), Seg.esc (str ")."), Seg.esc (str " https://doi.org/")]
        _ _ ?_ ?_ ?_ ?_ hd0 hdoi
      · simp only [renderR, segRtf, escape_append, List.append_assoc, List.append_nil]
      · simp only [renderP, segPlain, List.append_assoc, List.append_nil]
      · exact hasNonWs_of_headOkB c5.1 c5.2
      · exact asciiRun_of_headOkB c5.1
  · rw [if_neg hart]
    have c3 := headOkB_chain c2.1 c2.2 (str " ")
    by_cases hbook : pyLower (e.entrytype.getD (str "article")) = str "book"
    · rw [if_pos hbook, if_neg (by decide : ¬ (false = true))]
      simp only []
      refine strip_unrtf_via
        (decRepr idx ++ str ". " ++
          natureList (parseAuthors e.author) (maxN.getD 5) rev ++ str " ") (str ").")
        [Seg.ital (cleanLatex e.title),
         Seg.esc (str " (" ++ cleanLatex e.publisher ++ str ", " ++ e.year)]
        _ _ ?_ ?_ ?_ ?_ (by decide) (by decide)
      · simp only [renderR, segRtf, escape_append, List.append_assoc, List.append_nil]
      · simp only [renderP, segPlain, List.append_assoc, List.append_nil]
      · exact hasNonWs_of_headOkB c3.1 c3.2
      · exact asciiRun_of_headOkB c3.1
    · rw [if_neg hbook, if_neg (by decide : ¬ (false = true))]
      simp only []
      refine strip_unrtf_via
        (decRepr idx ++ str ". " ++
          natureList (parseAuthors e.author) (maxN.getD 5) rev ++ str " ") (str ").")
        [Seg.esc (cleanLatex e.title), Seg.esc (str " ("), Seg.esc e.year]
        _ _ ?_ ?_ ?_ ?_ (by decide) (by decide)
      · simp only [renderR, segRtf, escape_append, List.append_assoc, List.append_nil]
      · simp only [renderP, segPlain, List.append_assoc, List.append_nil]
      · exact hasNonWs_of_headOkB c3.1 c3.2
      · exact asciiRun_of_headOkB c3.1

/-- C1 case lemma, IEEE: stripping the markup of the IEEE reference yields
the plain text, with no proviso (the style renders no DOI suffix). -/
theorem consistIeee (e : Entry) (idx : Nat) (maxN : Option Nat) (rev : Bool) :
    unrtf (formatIeee e idx maxN false rev).2 = (formatIeee e idx maxN false rev).1 := by
  simp only [formatIeee, getFields]
  have c0 := headOkB_chain (by decide : headOkB (str "[") = true) (by decide)
    (decRepr idx)
  have c1 := headOkB_chain c0.1 c0.2 (str "] ")
  have c2 := headOkB_chain c1.1 c1.2 (ieeeList (parseAuthors e.author) (maxN.getD 6) rev)
  by_cases hart : pyLower (e.entrytype.getD (str "article")) = str "article"
  · rw [if_pos hart, if_neg (by decide : ¬ (false = true))]
    simp only []
    have c3 := headOkB_chain c2.1 c2.2 (str ", \"")
    have c4 := headOkB_chain c3.1 c3.2 (cleanLatex e.title)
    have c5 := headOkB_chain c4.1 c4.2 (str ",\" ")
    refine strip_unrtf_via
      (str "[" ++ decRepr idx ++ str "] " ++
        ieeeList (parseAuthors e.author) (maxN.getD 6) rev ++ str ", \"" ++
        cleanLatex e.title ++ str ",\" ") (str ".")
      [Seg.ital (cleanLatex e.journal),
       Seg.esc (str ", " ++
         joinSep (str ", ")
           ((if e.volume = [] then [] else [str "vol. " ++ e.volume]) ++
            (if e.number = [] then [] else [str "no. " ++ e.number]) ++
            (if pyReplace e.pages (str "--") (str "–") = [] then []
             else [str "pp. " ++ pyReplace e.pages (str "--") (str "–")])) ++
         str ", " ++ e.year)]
      _ _ ?_ ?_ ?_ ?_ (by decide) (by decide)
    · simp only [renderR, segRtf, escape_append, List.append_assoc, List.append_nil]
    · simp only [renderP, segPlain, List.append_assoc, List.append_nil]
    · exact hasNonWs_of_headOkB c5.1 c5.2
    · exact asciiRun_of_headOkB c5.1
  · rw [if_neg hart]
    by_cases hbook : pyLower (e.entrytype.getD (str "article")) = str "book"
    · rw [if_pos hbook, if_neg (by decide : ¬ (false = true))]
      simp only []
      have c3 := headOkB_chain c2.1 c2.2 (str ", ")
      refine strip_unrtf_via
        (str "[" ++ decRepr idx ++ str "] " ++
          ieeeList (parseAuthors e.author) (maxN.getD 6) rev ++ str ", ") (str ".")
        [Seg.ital (cleanLatex e.title),
         Seg.esc (str ". " ++ cleanLatex e.address ++ str ": " ++
           cleanLatex e.publisher ++ str ", " ++ e.year)]
        _ _ ?_ ?_ ?_ ?_ (by decide) (by decide)
      · simp only [renderR, segRtf, escape_append, List.append_assoc, List.append_nil]
      · simp only [renderP, segPlain, List.append_assoc, List.append_nil]
      · exact hasNonWs_of_headOkB c3.1 c3.2
      · exact asciiRun_of_headOkB c3.1
    · rw [if_neg hbook, if_neg (by decide : ¬ (false = true))]
      simp only []
      have c3 := headOkB_chain c2.1 c2.2 (str ", \"")
      have c4 := headOkB_chain c3.1 c3.2 (cleanLatex e.title)
      have c5 := headOkB_chain c4.1 c4.2 (str ",\" ")
      refine strip_unrtf_via
        (str "[" ++ decRepr idx ++ str "] " ++
          ieeeList (parseAuthors e.author) (maxN.getD 6) rev ++ str ", \"" ++
          cleanLatex e.title ++ str ",\" ") (str ".")
        [Seg.esc e.year]
        _ _ ?_ ?_ ?_ ?_ (by decide) (by decide)
      · simp only [renderR, segRtf, escape_append, List.append_assoc, List.append_nil]
      · simp only [renderP, segPlain, List.append_assoc, List.append_nil]
      · exact hasNonWs_of_headOkB c5.1 c5.2
      · exact asciiRun_of_headOkB c5.1

/-- C1 case lemma, ISO 690: with a whitespace-clean DOI, stripping the
markup of the ISO 690 reference yields the plain text. -/
theorem consistIso690 (e : Entry) (idx : Nat) (maxN : Option Nat) (rev : Bool)
    (hdoi : lastOk e.doi = true) :
    unrtf (formatIso690 e idx maxN false rev).2 =
      (formatIso690 e idx maxN false rev).1 := by
  simp only [formatIso690, getFields]
  have c0 := headOkB_chain (by decide : headOkB (str "[") = true) (by decide)
    (decRepr idx)
  have c1 := headOkB_chain c0.1 c0.2 (str "] ")
  have c2 := headOkB_chain c1.1 c1.2 (isoList (parseAuthors e.author) (maxN.getD 3) rev)
  have c3 := headOkB_chain c2.1 c2.2 (str ". ")
  by_cases hart : pyLower (e.entrytype.getD (str "article")) = str "article"
  · rw [if_pos hart, if_neg (by decide : ¬ (false = true))]
    have c4 := headOkB_chain c3.1 c3.2 (cleanLatex e.title)
    have c5 := headOkB_chain c4.1 c4.2 (str ". ")
    by_cases hd0 : e.doi = []
    · rw [if_pos hd0, if_pos hd0]
      simp only []
      refine strip_unrtf_via
        (str "[" ++ decRepr idx ++ str "] " ++
          isoList (parseAuthors e.author) (maxN.getD 3) rev ++ str ". " ++
          cleanLatex e.title ++ str ". ") (str ".")
        [Seg.ital (cleanLatex e.journal),
         Seg.esc (str ". " ++ e.year ++ str ", " ++
           (if e.number = [] then e.volume
            else e.volume ++ str "(" ++ e.number ++ str ")") ++ str ", " ++
           pyReplace e.pages (str "--") (str "–"))]
        _ _ ?_ ?_ ?_ ?_ (by decide) (by decide)
      · simp only [renderR, segRtf, escape_append, List.append_assoc, List.append_nil]
      · simp only [renderP, segPlain, List.append_assoc, List.append_nil]
      · exact hasNonWs_of_headOkB c5.1 c5.2
      · exact asciiRun_of_headOkB c5.1
    · rw [if_neg hd0, if_neg hd0]
      simp only []
      refine strip_unrtf_via
        (str "[" ++ decRepr idx ++ str "] " ++
          isoList (parseAuthors e.author) (maxN.getD 3) rev ++ str ". " ++
          cleanLatex e.title ++ str ". ") e.doi
        [Seg.ital (cleanLatex e.journal),
         Seg.esc (str ". " ++ e.year ++ str ", " ++
           (if e.number = [] then e.volume
            else e.volume ++ str "(" ++ e.number ++ str ")") ++ str ", " ++
           pyReplace e.pages (str "--") (str "–")),
         Seg.esc (str "."), Seg.esc (str " DOI: ")]
        _ _ ?_ ?_ ?_ ?_ hd0 hdoi
      · simp only [renderR, segRtf, escape_append, List.append_assoc, List.append_nil]
      · simp only [renderP, segPlain, List.append_assoc, List.append_nil]
      · exact hasNonWs_of_headOkB c5.1 c5.2
      · exact asciiRun_of_headOkB c5.1
  · rw [if_neg hart]
    by_cases hbook : pyLower (e.entrytype.getD (str "article")) = str "book"
    · rw [if_pos hbook, if_neg (by decide : ¬ (false = true))]
      by_cases hisbn : e.isbn = []
      · rw [if_pos hisbn, if_pos hisbn]
        simp only []
        refine strip_unrtf_via
          (str "[" ++ decRepr idx ++ str "] " ++
            isoList (parseAuthors e.author) (maxN.getD 3) rev ++ str ". ") (str ".")
          [Seg.ital (cleanLatex e.title),
           Seg.esc (str ". " ++ cleanLatex e.address ++ str ": " ++
             cleanLatex e.publisher ++ str ", " ++ e.year)]
          _ _ ?_ ?_ ?_ ?_ (by decide) (by decide)
        · simp only [renderR, segRtf, escape_append, List.append_assoc, List.append_nil]
        · simp only [renderP, segPlain, List.append_assoc, List.append_nil]
        · exact hasNonWs_of_headOkB c3.1 c3.2
        · exact asciiRun_of_headOkB c3.1
      · rw [if_neg hisbn, if_neg hisbn]
        simp only []
        refine strip_unrtf_via
          (str "[" ++ decRepr idx ++ str "] " ++
            isoList (parseAuthors e.author) (maxN.getD 3) rev ++ str ". ") (str ".")
          [Seg.ital (cleanLatex e.title),
           Seg.esc (str ". " ++ cleanLatex e.address ++ str ": " ++
             cleanLatex e.publisher ++ str ", " ++ e.year),
           Seg.esc (str "."), Seg.esc (str " ISBN "), Seg.esc e.isbn]
          _ _ ?_ ?_ ?_ ?_ (by decide) (by decide)
        · simp only [renderR, segRtf, escape_append, List.append_assoc, List.append_nil]
        · simp only [renderP, segPlain, List.append_assoc, List.append_nil]
        · exact hasNonWs_of_headOkB c3.1 c3.2
        · exact asciiRun_of_headOkB c3.1
    · rw [if_neg hbook, if_neg (by decide : ¬ (false = true))]
      simp only []
      have c4 := headOkB_chain c3.1 c3.2 (cleanLatex e.title)
      have c5 := headOkB_chain c4.1 c4.2 (str ". ")
      refine strip_unrtf_via
        (str "[" ++ decRepr idx ++ str "] " ++
          isoList (parseAuthors e.author) (maxN.getD 3) rev ++ str ". " ++
          cleanLatex e.title ++ str ". ") (str ".")
        [Seg.esc e.year]
        _ _ ?_ ?_ ?_ ?_ (by decide) (by decide)
      · simp only [renderR, segRtf, escape_append, List.append_assoc, List.append_nil]
      · simp only [renderP, segPlain, List.append_assoc, List.append_nil]
      · exact hasNonWs_of_headOkB c5.1 c5.2
      · exact asciiRun_of_headOkB c5.1

/-- C1 case lemma, Harvard: with a whitespace-clean DOI, stripping the
markup of the Harvard reference yields the plain text. -/
theorem consistHarvard (e : Entry) (idx : Nat) (maxN : Option Nat) (rev : Bool)
    (hdoi : lastOk e.doi = true) :
    unrtf (formatHarvard e idx maxN false rev).2 =
      (formatHarvard e idx maxN false rev).1 := by
  have hauth : asciiRun (harvardList (parseAuthors e.author) (maxN.getD 3) rev) :=
    asciiRun_harvardList (parseAuthors_family e.author)
  simp only [formatHarvard, getFields]
  by_cases hart : pyLower (e.entrytype.getD (str "article")) = str "article"
  · rw [if_pos hart, if_neg (by decide : ¬ (false = true))]
    by_cases hd0 : e.doi = []
    · rw [if_pos hd0, if_pos hd0]
      simp only []
      refine strip_unrtf_via
        (harvardList (parseAuthors e.author) (maxN.getD 3) rev ++ str " (") (str ".")
        [Seg.esc e.year, Seg.esc (str ") '"), Seg.esc (cleanLatex e.title),
         Seg.esc (str "', "), Seg.ital (cleanLatex e.journal),
         Seg.esc (str ", " ++
           (if e.number = [] then e.volume
            else e.volume ++ str "(" ++ e.number ++ str ")") ++ str ", pp. " ++
           pyReplace e.pages (str "--") (str "–"))]
        _ _ ?_ ?_ ?_ ?_ (by decide) (by decide)
      · simp only [renderR, segRtf, escape_append, List.append_assoc, List.append_nil]
      · simp only [renderP, segPlain, List.append_assoc, List.append_nil]
      · rw [hasNonWs_append, (by decide : hasNonWs (str " (") = true), Bool.or_true]
      · exact asciiRun_append hauth (by decide)
    · rw [if_neg hd0, if_neg hd0]
      simp only []
      refine strip_unrtf_via
        (harvardList (parseAuthors e.author) (maxN.getD 3) rev ++ str " (") e.doi
        [Seg.esc e.year, Seg.esc (str ") '"), Seg.esc (cleanLatex e.title),
         Seg.esc (str "', "), Seg.ital (cleanLatex e.journal),
         Seg.esc (str ", " ++
           (if e.number = [] then e.volume
            else e.volume ++ str "(" ++ e.number ++ str ")") ++ str ", pp. " ++
           pyReplace e.pages (str "--") (str "–")),
         Seg.esc (str "."), Seg.esc (str " doi: ")]
        _ _ ?_ ?_ ?_ ?_ hd0 hdoi
      · simp only [renderR, segRtf, escape_append, List.append_assoc, List.append_nil]
      · simp only [renderP, segPlain, List.append_assoc, List.append_nil]
      · rw [hasNonWs_append, (by decide : hasNonWs (str " (") = true), Bool.or_true]
      · exact asciiRun_append hauth (by decide)
  · rw [if_neg hart]
    by_cases hbook : pyLower (e.entrytype.getD (str "article")) = str "book"
    · rw [if_pos hbook, if_neg (by decide : ¬ (false = true))]
      simp only []
      refine strip_unrtf_via
        (harvardList (parseAuthors e.author) (maxN.getD 3) rev ++ str " (") (str ".")
        [Seg.esc e.year, Seg.esc (str ") "), Seg.ital (cleanLatex e.title),
         Seg.esc (str "." ++
           (if e.edition = [] then [] else str " " ++ e.edition ++ str " edn.") ++
           str " " ++ cleanLatex e.address ++ str ": " ++ cleanLatex e.publisher)]
        _ _ ?_ ?_ ?_ ?_ (by decide) (by decide)
      · simp only [renderR, segRtf, escape_append, List.append_assoc, List.append_nil]
      · simp only [renderP, segPlain, List.append_assoc, List.append_nil]
      · rw [hasNonWs_append, (by decide : hasNonWs (str " (") = true), Bool.or_true]
      · exact asciiRun_append hauth (by decide)
    · rw [if_neg hbook, if_neg (by decide : ¬ (false = true))]
      simp only []
      refine strip_unrtf_via
        (harvardList (parseAuthors e.author) (maxN.getD 3) rev ++ str " (") (str "'.")
        [Seg.esc e.year, Seg.esc (str ") '"), Seg.esc (cleanLatex e.title)]
        _ _ ?_ ?_ ?_ ?_ (by decide) (by decide)
      · simp only [renderR, segRtf, escape_append, List.append_assoc, List.append_nil]
      · simp only [renderP, segPlain, List.append_assoc, List.append_nil]
      · rw [hasNonWs_append, (by decide : hasNonWs (str " (") = true), Bool.or_true]
      · exact asciiRun_append hauth (by decide)

/-- C1 counterexample: on the all-fields-empty entry the ACS article branch
renders a bare period in markup where the plain text keeps the comma-period
placeholder of the empty page range, so stripping the markup does not
recover the plain output. -/
theorem C1_counterexample :
    unrtf (formatAcs entryEmpty 1 none false false).2 ≠
      (formatAcs entryEmpty 1 none false false).1 := by
  decide

/-- C1: for every entry, index, author cap and author-order flag (title not
omitted), provided the DOI does not end in whitespace, stripping the RTF
markup of the reference formatter's marked-up output yields exactly its
plain output for the Vancouver and IEEE styles unconditionally, and for the
ACS, APA, Angewandte, RSC, AoA, Nature, ISO 690 and Harvard styles; for ACS
and APA the page range must additionally be non-empty (their markup output
drops the page separator when the page range is empty while the plain
output keeps it). -/
theorem C1_theorem (e : Entry) (idx : Nat) (maxN : Option Nat) (rev : Bool)
    (hdoi : lastOk e.doi = true) :
    (e.pages ≠ [] →
      unrtf (formatAcs e idx maxN false rev).2 = (formatAcs e idx maxN false rev).1) ∧
    (e.pages ≠ [] →
      unrtf (formatApa e idx maxN false rev).2 = (formatApa e idx maxN false rev).1) ∧
    unrtf (formatVancouver e idx maxN false rev).2 =
      (formatVancouver e idx maxN false rev).1 ∧
    unrtf (formatAngewandte e idx maxN false rev).2 =
      (formatAngewandte e idx maxN false rev).1 ∧
    unrtf (formatRsc e idx maxN false rev).2 = (formatRsc e idx maxN false rev).1 ∧
    unrtf (formatAoa e idx maxN false rev).2 = (formatAoa e idx maxN false rev).1 ∧
    unrtf (formatNature e idx maxN false rev).2 =
      (formatNature e idx maxN false rev).1 ∧
    unrtf (formatIeee e idx maxN false rev).2 = (formatIeee e idx maxN false rev).1 ∧
    unrtf (formatIso690 e idx maxN false rev).2 =
      (formatIso690 e idx maxN false rev).1 ∧
    unrtf (formatHarvard e idx maxN false rev).2 =
      (formatHarvard e idx maxN false rev).1 :=
  ⟨fun hpg => consistAcs e idx maxN rev hdoi hpg,
   fun hpg => consistApa e idx maxN rev hdoi hpg,
   consistVancouver e idx maxN rev,
   consistAngewandte e idx maxN rev hdoi,
   consistRsc e idx maxN rev hdoi,
   consistAoa e idx maxN rev hdoi,
   consistNature e idx maxN rev hdoi,
   consistIeee e idx maxN rev,
   consistIso690 e idx maxN rev hdoi,
   consistHarvard e idx maxN rev hdoi⟩

/-- An append whose right part is non-empty is non-empty. -/
theorem append_ne_right (x : Str) {y : Str} (h : y ≠ []) : x ++ y ≠ [] :=
  fun hc => h (List.append_eq_nil.mp hc).2

/-- Stripping distributes over a whitespace-clean suffix appended to a
whitespace-clean base. -/
theorem pyStrip_append_suffix {x sfx : Str} (hx : lastOk x = true) (hnx : x ≠ [])
    (hne : sfx ≠ []) (hs : lastOk sfx = true) :
    pyStrip (x ++ sfx) = pyStrip x ++ sfx := by
  show pyStripLeft (pyStripRight (x ++ sfx)) = pyStripLeft (pyStripRight x) ++ sfx
  rw [pyStripRight_eq_self hx,
    pyStripRight_eq_self (show lastOk (x ++ sfx) = true by
      rw [lastOk_append x hne]; exact hs)]
  exact stripLeft_append (hasNonWs_of_lastOk hx hnx) sfx

/-- C1 witness: the consistency theorem applied to the concrete scenario
entry at index 1, default cap, natural order. -/
theorem C1_witness :
    lastOk entryDmitrienko.doi = true ∧ entryDmitrienko.pages ≠ [] ∧
    unrtf (formatAcs entryDmitrienko 1 none false false).2 =
      (formatAcs entryDmitrienko 1 none false false).1 ∧
    unrtf (formatVancouver entryDmitrienko 1 none false false).2 =
      (formatVancouver entryDmitrienko 1 none false false).1 :=
  ⟨by decide, by decide,
   (C1_theorem entryDmitrienko 1 none false (by decide)).1 (by decide),
   (C1_theorem entryDmitrienko 1 none false (by decide)).2.2.1⟩

/-- Stripping distributes over the two-part DOI suffix of the plain
outputs. -/
theorem pyStrip_doisfx {x s d : Str} (hx : lastOk x = true) (hnx : x ≠ [])
    (hs : s ≠ []) (hd : d ≠ []) (hdl : lastOk d = true) :
    pyStrip (x ++ s ++ d) = pyStrip x ++ s ++ d := by
  rw [List.append_assoc, List.append_assoc]
  exact pyStrip_append_suffix hx hnx (append_ne_left _ hs)
    (by rw [lastOk_append _ hd]; exact hdl)

/-- C8 case lemma, ACS: on an article entry with a non-empty whitespace-clean
DOI, both outputs are the DOI-cleared outputs with the DOI suffix appended. -/
theorem doiSfxAcs (e : Entry) (idx : Nat) (maxN : Option Nat) (omt rev : Bool)
    (hart : pyLower (e.entrytype.getD (str "article")) = str "article")
    (hd : e.doi ≠ []) (hdok : lastOk e.doi = true) :
    (formatAcs e idx maxN omt rev).1 =
      (formatAcs { e with doi := [] } idx maxN omt rev).1 ++ str " DOI: " ++ e.doi ∧
    (formatAcs e idx maxN omt rev).2 =
      (formatAcs { e with doi := [] } idx maxN omt rev).2 ++
        escape (str " DOI: " ++ e.doi) := by
  simp only [formatAcs, getFields]
  rw [if_pos hart, if_pos hart]
  have hz1 : (if pyReplace e.pages (str "--") (str "–") = [] then str "."
      else str ", " ++ pyReplace e.pages (str "--") (str "–") ++ str ".") ≠ [] := by
    split
    · decide
    · exact append_ne_right _ (by decide)
  have hz2 : lastOk (if pyReplace e.pages (str "--") (str "–") = [] then str "."
      else str ", " ++ pyReplace e.pages (str "--") (str "–") ++ str ".") = true := by
    split
    · decide
    · rw [lastOk_append _ (by decide : (str "." : Str) ≠ [])]; decide
  cases omt with
  | true =>
    rw [if_pos (rfl : true = true), if_pos (rfl : true = true), if_neg hd, if_neg hd]
    refine ⟨?_, ?_⟩
    · exact pyStrip_doisfx
        (by rw [lastOk_append _ (by decide : (str "." : Str) ≠ [])]; decide)
        (append_ne_right _ (by decide))
        (by decide) hd hdok
    · exact pyStrip_append_suffix
        (by rw [lastOk_append _ (escape_ne_nil hz1)]; exact lastOk_escape hz2)
        (append_ne_right _ (escape_ne_nil hz1))
        (escape_ne_nil (append_ne_left _ (by decide)))
        (lastOk_escape (by rw [lastOk_append _ hd]; exact hdok))
  | false =>
    rw [if_neg (by decide : ¬ (false = true)), if_neg (by decide : ¬ (false = true)),
      if_neg hd, if_neg hd]
    refine ⟨?_, ?_⟩
    · exact pyStrip_doisfx
        (by rw [lastOk_append _ (by decide : (str "." : Str) ≠ [])]; decide)
        (append_ne_right _ (by decide))
        (by decide) hd hdok
    · exact pyStrip_append_suffix
        (by rw [lastOk_append _ (escape_ne_nil hz1)]; exact lastOk_escape hz2)
        (append_ne_right _ (escape_ne_nil hz1))
        (escape_ne_nil (append_ne_left _ (by decide)))
        (lastOk_escape (by rw [lastOk_append _ hd]; exact hdok))

/-- C8 case lemma, APA: on an article entry with a non-empty whitespace-clean
DOI, both outputs are the DOI-cleared outputs with the URL suffix appended. -/
theorem doiSfxApa (e : Entry) (idx : Nat) (maxN : Option Nat) (omt rev : Bool)
    (hart : pyLower (e.entrytype.getD (str "article")) = str "article")
    (hd : e.doi ≠ []) (hdok : lastOk e.doi = true) :
    (formatApa e idx maxN omt rev).1 =
      (formatApa { e with doi := [] } idx maxN omt rev).1 ++
        str " https://doi.org/" ++ e.doi ∧
    (formatApa e idx maxN omt rev).2 =
      (formatApa { e with doi := [] } idx maxN omt rev).2 ++
        escape (str " https://doi.org/" ++ e.doi) := by
  simp only [formatApa, getFields]
  rw [if_pos hart, if_pos hart]
  have hz1 : (if pyReplace e.pages (str "--") (str "–") = [] then str "."
      else str ", " ++ pyReplace e.pages (str "--") (str "–") ++ str ".") ≠ [] := by
    split
    · decide
    · exact append_ne_right _ (by decide)
  have hz2 : lastOk (if pyReplace e.pages (str "--") (str "–") = [] then str "."
      else str ", " ++ pyReplace e.pages (str "--") (str "–") ++ str ".") = true := by
    split
    · decide
    · rw [lastOk_append _ (by decide : (str "." : Str) ≠ [])]; decide
  cases omt with
  | true =>
    rw [if_pos (rfl : true = true), if_pos (rfl : true = true), if_neg hd, if_neg hd]
    refine ⟨?_, ?_⟩
    · exact pyStrip_doisfx
        (by rw [lastOk_append _ (by decide : (str "." : Str) ≠ [])]; decide)
        (append_ne_right _ (by decide))
        (by decide) hd hdok
    · exact pyStrip_append_suffix
        (by rw [lastOk_append _ (escape_ne_nil hz1)]; exact lastOk_escape hz2)
        (append_ne_right _ (escape_ne_nil hz1))
        (escape_ne_nil (append_ne_left _ (by decide)))
        (lastOk_escape (by rw [lastOk_append _ hd]; exact hdok))
  | false =>
    rw [if_neg (by decide : ¬ (false = true)), if_neg (by decide : ¬ (false = true)),
      if_neg hd, if_neg hd]
    refine ⟨?_, ?_⟩
    · exact pyStrip_doisfx
        (by rw [lastOk_append _ (by decide : (str "." : Str) ≠ [])]; decide)
        (append_ne_right _ (by decide))
        (by decide) hd hdok
    · exact pyStrip_append_suffix
        (by rw [lastOk_append _ (escape_ne_nil hz1)]; exact lastOk_escape hz2)
        (append_ne_right _ (escape_ne_nil hz1))
        (escape_ne_nil (append_ne_left _ (by decide)))
        (lastOk_escape (by rw [lastOk_append _ hd]; exact hdok))

/-- C8 case lemma, Angewandte: on an article entry with a non-empty
whitespace-clean DOI, both outputs are the DOI-cleared outputs with the
DOI suffix appended. -/
theorem doiSfxAngewandte (e : Entry) (idx : Nat) (maxN : Option Nat) (omt rev : Bool)
    (hart : pyLower (e.entrytype.getD (str "article")) = str "article")
    (hd : e.doi ≠ []) (hdok : lastOk e.doi = true) :
    (formatAngewandte e idx maxN omt rev).1 =
      (formatAngewandte { e with doi := [] } idx maxN omt rev).1 ++
        str " DOI: " ++ e.doi ∧
    (formatAngewandte e idx maxN omt rev).2 =
      (formatAngewandte { e with doi := [] } idx maxN omt rev).2 ++
        escape (str " DOI: " ++ e.doi) := by
  simp only [formatAngewandte, getFields]
  rw [if_pos hart, if_pos hart, if_neg hd, if_neg hd]
  refine ⟨?_, ?_⟩
  · exact pyStrip_doisfx
      (by rw [lastOk_append _ (by decide : (str "." : Str) ≠ [])]; decide)
      (append_ne_right _ (by decide))
      (by decide) hd hdok
  · have hz1 : str ", " ++ pyReplace e.pages (str "--") (str "–") ++ str "." ≠ [] :=
      append_ne_right _ (by decide)
    have hz2 : lastOk (str ", " ++ pyReplace e.pages (str "--") (str "–") ++
        str ".") = true := by
      rw [lastOk_append _ (by decide : (str "." : Str) ≠ [])]; decide
    exact pyStrip_append_suffix
      (by rw [lastOk_append _ (escape_ne_nil hz1)]; exact lastOk_escape hz2)
      (append_ne_right _ (escape_ne_nil hz1))
      (escape_ne_nil (append_ne_left _ (by decide)))
      (lastOk_escape (by rw [lastOk_append _ hd]; exact hdok))

/-- C8 case lemma, RSC: on an article entry with a non-empty whitespace-clean
DOI, both outputs are the DOI-cleared outputs with the DOI suffix appended. -/
theorem doiSfxRsc (e : Entry) (idx : Nat) (maxN : Option Nat) (omt rev : Bool)
    (hart : pyLower (e.entrytype.getD (str "article")) = str "article")
    (hd : e.doi ≠ []) (hdok : lastOk e.doi = true) :
    (formatRsc e idx maxN omt rev).1 =
      (formatRsc { e with doi := [] } idx maxN omt rev).1 ++ str " DOI: " ++ e.doi ∧
    (formatRsc e idx maxN omt rev).2 =
      (formatRsc { e with doi := [] } idx maxN omt rev).2 ++
        escape (str " DOI: " ++ e.doi) := by
  simp only [formatRsc, getFields]
  rw [if_pos hart, if_pos hart, if_neg hd, if_neg hd]
  refine ⟨?_, ?_⟩
  · exact pyStrip_doisfx
      (by rw [lastOk_append _ (by decide : (str "." : Str) ≠ [])]; decide)
      (append_ne_right _ (by decide))
      (by decide) hd hdok
  · have hz1 : str ", " ++ pyReplace e.pages (str "--") (str "–") ++ str "." ≠ [] :=
      append_ne_right _ (by decide)
    have hz2 : lastOk (str ", " ++ pyReplace e.pages (str "--") (str "–") ++
        str ".") = true := by
      rw [lastOk_append _ (by decide : (str "." : Str) ≠ [])]; decide
    exact pyStrip_append_suffix
      (by rw [lastOk_append _ (escape_ne_nil hz1)]; exact lastOk_escape hz2)
      (append_ne_right _ (escape_ne_nil hz1))
      (escape_ne_nil (append_ne_left _ (by decide)))
      (lastOk_escape (by rw [lastOk_append _ hd]; exact hdok))

/-- C8 case lemma, AoA: on an article entry with a non-empty whitespace-clean
DOI, both outputs are the DOI-cleared outputs with the URL suffix appended. -/
theorem doiSfxAoa (e : Entry) (idx : Nat) (maxN : Option Nat) (omt rev : Bool)
    (hart : pyLower (e.entrytype.getD (str "article")) = str "article")
    (hd : e.doi ≠ []) (hdok : lastOk e.doi = true) :
    (formatAoa e idx maxN omt rev).1 =
      (formatAoa { e with doi := [] } idx maxN omt rev).1 ++
        str " https://doi.org/" ++ e.doi ∧
    (formatAoa e idx maxN omt rev).2 =
      (formatAoa { e with doi := [] } idx maxN omt rev).2 ++
        escape (str " https://doi.org/" ++ e.doi) := by
  simp only [formatAoa, getFields]
  rw [if_pos hart, if_pos hart]
  have hz1 : str ", " ++ pyReplace e.pages (str "--") (str "–") ++ str "." ≠ [] :=
    append_ne_right _ (by decide)
  have hz2 : lastOk (str ", " ++ pyReplace e.pages (str "--") (str "–") ++
      str ".") = true := by
    rw [lastOk_append _ (by decide : (str "." : Str) ≠ [])]; decide
  cases omt with
  | true =>
    rw [if_pos (rfl : true = true), if_pos (rfl : true = true), if_neg hd, if_neg hd]
    refine ⟨?_, ?_⟩
    · exact pyStrip_doisfx
        (by rw [lastOk_append _ (by decide : (str "." : Str) ≠ [])]; decide)
        (append_ne_right _ (by decide))
        (by decide) hd hdok
    · exact pyStrip_append_suffix
        (by rw [lastOk_append _ (escape_ne_nil hz1)]; exact lastOk_escape hz2)
        (append_ne_right _ (escape_ne_nil hz1))
        (escape_ne_nil (append_ne_left _ (by decide)))
        (lastOk_escape (by rw [lastOk_append _ hd]; exact hdok))
  | false =>
    rw [if_neg (by decide : ¬ (false = true)), if_neg (by decide : ¬ (false = true)),
      if_neg hd, if_neg hd]
    refine ⟨?_, ?_⟩
    · exact pyStrip_doisfx
        (by rw [lastOk_append _ (by decide : (str "." : Str) ≠ [])]; decide)
        (append_ne_right _ (by decide))
        (by decide) hd hdok
    · exact pyStrip_append_suffix
        (by rw [lastOk_append _ (escape_ne_nil hz1)]; exact lastOk_escape hz2)
        (append_ne_right _ (escape_ne_nil hz1))
        (escape_ne_nil (append_ne_left _ (by decide)))
        (lastOk_escape (by rw [lastOk_append _ hd]; exact hdok))

/-- C8 case lemma, Nature: on an article entry with a non-empty
whitespace-clean DOI, both outputs are the DOI-cleared outputs with the
URL suffix appended. -/
theorem doiSfxNature (e : Entry) (idx : Nat) (maxN : Option Nat) (omt rev : Bool)
    (hart : pyLower (e.entrytype.getD (str "article")) = str "article")
    (hd : e.doi ≠ []) (hdok : lastOk e.doi = true) :
    (formatNature e idx maxN omt rev).1 =
      (formatNature { e with doi := [] } idx maxN omt rev).1 ++
        str " https://doi.org/" ++ e.doi ∧
    (formatNature e idx maxN omt rev).2 =
      (formatNature { e with doi := [] } idx maxN omt rev).2 ++
        escape (str " https://doi.org/" ++ e.doi) := by
  simp only [formatNature, getFields]
  rw [if_pos hart, if_pos hart]
  have hz1 : str ", " ++ pyReplace e.pages (str "--") (str "–") ++ str " (" ++
      e.year ++ str ")." ≠ [] :=
    append_ne_right _ (by decide)
  have hz2 : lastOk (str ", " ++ pyReplace e.pages (str "--") (str "–") ++
      str " (" ++ e.year ++ str ").") = true := by
    rw [lastOk_append _ (by decide : (str ")." : Str) ≠ [])]; decide
  cases omt with
  | true =>
    rw [if_pos (rfl : true = true), if_pos (rfl : true = true), if_neg hd, if_neg hd]
    refine ⟨?_, ?_⟩
    · exact pyStrip_doisfx
        (by rw [lastOk_append _ (by decide : (str ")." : Str) ≠ [])]; decide)
        (append_ne_right _ (by decide))
        (by decide) hd hdok
    · exact pyStrip_append_suffix
        (by rw [lastOk_append _ (escape_ne_nil hz1)]; exact lastOk_escape hz2)
        (append_ne_right _ (escape_ne_nil hz1))
        (escape_ne_nil (append_ne_left _ (by decide)))
        (lastOk_escape (by rw [lastOk_append _ hd]; exact hdok))
  | false =>
    rw [if_neg (by decide : ¬ (false = true)), if_neg (by decide : ¬ (false = true)),
      if_neg hd, if_neg hd]
    refine ⟨?_, ?_⟩
    · exact pyStrip_doisfx
        (by rw [lastOk_append _ (by decide : (str ")." : Str) ≠ [])]; decide)
        (append_ne_right _ (by decide))
        (by decide) hd hdok
    · exact pyStrip_append_suffix
        (by rw [lastOk_append _ (escape_ne_nil hz1)]; exact lastOk_escape hz2)
        (append_ne_right _ (escape_ne_nil hz1))
        (escape_ne_nil (append_ne_left _ (by decide)))
        (lastOk_escape (by rw [lastOk_append _ hd]; exact hdok))

/-- C8 case lemma, ISO 690: on an article entry with a non-empty
whitespace-clean DOI, both outputs are the DOI-cleared outputs with the
DOI suffix appended. -/
theorem doiSfxIso690 (e : Entry) (idx : Nat) (maxN : Option Nat) (omt rev : Bool)
    (hart : pyLower (e.entrytype.getD (str "article")) = str "article")
    (hd : e.doi ≠ []) (hdok : lastOk e.doi = true) :
    (formatIso690 e idx maxN omt rev).1 =
      (formatIso690 { e with doi := [] } idx maxN omt rev).1 ++
        str " DOI: " ++ e.doi ∧
    (formatIso690 e idx maxN omt rev).2 =
      (formatIso690 { e with doi := [] } idx maxN omt rev).2 ++
        escape (str " DOI: " ++ e.doi) := by
  simp only [formatIso690, getFields]
  rw [if_pos hart, if_pos hart]
  have hz1 : str ". " ++ e.year ++ str ", " ++
      (if e.number = [] then e.volume
       else e.volume ++ str "(" ++ e.number ++ str ")") ++ str ", " ++
      pyReplace e.pages (str "--") (str "–") ++ str "." ≠ [] :=
    append_ne_right _ (by decide)
  have hz2 : lastOk (str ". " ++ e.year ++ str ", " ++
      (if e.number = [] then e.volume
       else e.volume ++ str "(" ++ e.number ++ str ")") ++ str ", " ++
      pyReplace e.pages (str "--") (str "–") ++ str ".") = true := by
    rw [lastOk_append _ (by decide : (str "." : Str) ≠ [])]; decide
  cases omt with
  | true =>
    rw [if_pos (rfl : true = true), if_pos (rfl : true = true), if_neg hd, if_neg hd]
    refine ⟨?_, ?_⟩
    · exact pyStrip_doisfx
        (by rw [lastOk_append _ (by decide : (str "." : Str) ≠ [])]; decide)
        (append_ne_right _ (by decide))
        (by decide) hd hdok
    · exact pyStrip_append_suffix
        (by rw [lastOk_append _ (escape_ne_nil hz1)]; exact lastOk_escape hz2)
        (append_ne_right _ (escape_ne_nil hz1))
        (escape_ne_nil (append_ne_left _ (by decide)))
        (lastOk_escape (by rw [lastOk_append _ hd]; exact hdok))
  | false =>
    rw [if_neg (by decide : ¬ (false = true)), if_neg (by decide : ¬ (false = true)),
      if_neg hd, if_neg hd]
    refine ⟨?_, ?_⟩
    · exact pyStrip_doisfx
        (by rw [lastOk_append _ (by decide : (str "." : Str) ≠ [])]; decide)
        (append_ne_right _ (by decide))
        (by decide) hd hdok
    · exact pyStrip_append_suffix
        (by rw [lastOk_append _ (escape_ne_nil hz1)]; exact lastOk_escape hz2)
        (append_ne_right _ (escape_ne_nil hz1))
        (escape_ne_nil (append_ne_left _ (by decide)))
        (lastOk_escape (by rw [lastOk_append _ hd]; exact hdok))

/-- C8 case lemma, Harvard: on an article entry with a non-empty
whitespace-clean DOI, both outputs are the DOI-cleared outputs with the
doi suffix appended. -/
theorem doiSfxHarvard (e : Entry) (idx : Nat) (maxN : Option Nat) (omt rev : Bool)
    (hart : pyLower (e.entrytype.getD (str "article")) = str "article")
    (hd : e.doi ≠ []) (hdok : lastOk e.doi = true) :
    (formatHarvard e idx maxN omt rev).1 =
      (formatHarvard { e with doi := [] } idx maxN omt rev).1 ++
        str " doi: " ++ e.doi ∧
    (formatHarvard e idx maxN omt rev).2 =
      (formatHarvard { e with doi := [] } idx maxN omt rev).2 ++
        escape (str " doi: " ++ e.doi) := by
  simp only [formatHarvard, getFields]
  rw [if_pos hart, if_pos hart]
  have hz1 : str ", " ++
      (if e.number = [] then e.volume
       else e.volume ++ str "(" ++ e.number ++ str ")") ++ str ", pp. " ++
      pyReplace e.pages (str "--") (str "–") ++ str "." ≠ [] :=
    append_ne_right _ (by decide)
  have hz2 : lastOk (str ", " ++
      (if e.number = [] then e.volume
       else e.volume ++ str "(" ++ e.number ++ str ")") ++ str ", pp. " ++
      pyReplace e.pages (str "--") (str "–") ++ str ".") = true := by
    rw [lastOk_append _ (by decide : (str "." : Str) ≠ [])]; decide
  cases omt with
  | true =>
    rw [if_pos (rfl : true = true), if_pos (rfl : true = true), if_neg hd, if_neg hd]
    refine ⟨?_, ?_⟩
    · exact pyStrip_doisfx
        (by rw [lastOk_append _ (by decide : (str "." : Str) ≠ [])]; decide)
        (append_ne_right _ (by decide))
        (by decide) hd hdok
    · exact pyStrip_append_suffix
        (by rw [lastOk_append _ (escape_ne_nil hz1)]; exact lastOk_escape hz2)
        (append_ne_right _ (escape_ne_nil hz1))
        (escape_ne_nil (append_ne_left _ (by decide)))
        (lastOk_escape (by rw [lastOk_append _ hd]; exact hdok))
  | false =>
    rw [if_neg (by decide : ¬ (false = true)), if_neg (by decide : ¬ (false = true)),
      if_neg hd, if_neg hd]
    refine ⟨?_, ?_⟩
    · exact pyStrip_doisfx
        (by rw [lastOk_append _ (by decide : (str "." : Str) ≠ [])]; decide)
        (append_ne_right _ (by decide))
        (by decide) hd hdok
    · exact pyStrip_append_suffix
        (by rw [lastOk_append _ (escape_ne_nil hz1)]; exact lastOk_escape hz2)
        (append_ne_right _ (escape_ne_nil hz1))
        (escape_ne_nil (append_ne_left _ (by decide)))
        (lastOk_escape (by rw [lastOk_append _ hd]; exact hdok))

/-- C8 case lemma: the Vancouver formatter never reads the DOI. -/
theorem doiIndepVancouver (e : Entry) (idx : Nat) (maxN : Option Nat) (omt rev : Bool) :
    formatVancouver e idx maxN omt rev =
      formatVancouver { e with doi := [] } idx maxN omt rev := by
  simp only [formatVancouver, getFields]

/-- C8 case lemma: the IEEE formatter never reads the DOI. -/
theorem doiIndepIeee (e : Entry) (idx : Nat) (maxN : Option Nat) (omt rev : Bool) :
    formatIeee e idx maxN omt rev = formatIeee { e with doi := [] } idx maxN omt rev := by
  simp only [formatIeee, getFields]

/-- C8 case lemma: no book branch reads the DOI (stated for each style that
has a book branch). -/
theorem bookIndepAll (e : Entry) (idx : Nat) (maxN : Option Nat) (omt rev : Bool)
    (hartn : pyLower (e.entrytype.getD (str "article")) ≠ str "article")
    (hbook : pyLower (e.entrytype.getD (str "article")) = str "book") :
    formatAcs e idx maxN omt rev = formatAcs { e with doi := [] } idx maxN omt rev ∧
    formatApa e idx maxN omt rev = formatApa { e with doi := [] } idx maxN omt rev ∧
    formatAngewandte e idx maxN omt rev =
      formatAngewandte { e with doi := [] } idx maxN omt rev ∧
    formatRsc e idx maxN omt rev = formatRsc { e with doi := [] } idx maxN omt rev ∧
    formatNature e idx maxN omt rev =
      formatNature { e with doi := [] } idx maxN omt rev ∧
    formatIso690 e idx maxN omt rev =
      formatIso690 { e with doi := [] } idx maxN omt rev ∧
    formatHarvard e idx maxN omt rev =
      formatHarvard { e with doi := [] } idx maxN omt rev := by
  refine ⟨?_, ?_, ?_, ?_, ?_, ?_, ?_⟩
  · simp only [formatAcs, getFields]
    rw [if_neg hartn, if_neg hartn, if_pos hbook]
  · simp only [formatApa, getFields]
    rw [if_neg hartn, if_neg hartn, if_pos hbook]
  · simp only [formatAngewandte, getFields]
    rw [if_neg hartn, if_neg hartn, if_pos hbook]
  · simp only [formatRsc, getFields]
    rw [if_neg hartn, if_neg hartn, if_pos hbook]
  · simp only [formatNature, getFields]
    rw [if_neg hartn, if_neg hartn, if_pos hbook]
  · simp only [formatIso690, getFields]
    rw [if_neg hartn, if_neg hartn, if_pos hbook]
  · simp only [formatHarvard, getFields]
    rw [if_neg hartn, if_neg hartn, if_pos hbook]

/-- C8 case lemma: every generic (non-article, non-book) branch reads only
the author, title, year and entry-kind fields. -/
theorem genIndepAll (e : Entry) (idx : Nat) (maxN : Option Nat) (omt rev : Bool)
    (hartn : pyLower (e.entrytype.getD (str "article")) ≠ str "article")
    (hbookn : pyLower (e.entrytype.getD (str "article")) ≠ str "book") :
    formatAcs e idx maxN omt rev = formatAcs (genEntry e) idx maxN omt rev ∧
    formatApa e idx maxN omt rev = formatApa (genEntry e) idx maxN omt rev ∧
    formatVancouver e idx maxN omt rev =
      formatVancouver (genEntry e) idx maxN omt rev ∧
    formatAngewandte e idx maxN omt rev =
      formatAngewandte (genEntry e) idx maxN omt rev ∧
    formatRsc e idx maxN omt rev = formatRsc (genEntry e) idx maxN omt rev ∧
    formatAoa e idx maxN omt rev = formatAoa (genEntry e) idx maxN omt rev ∧
    formatNature e idx maxN omt rev = formatNature (genEntry e) idx maxN omt rev ∧
    formatIeee e idx maxN omt rev = formatIeee (genEntry e) idx maxN omt rev ∧
    formatIso690 e idx maxN omt rev = formatIso690 (genEntry e) idx maxN omt rev ∧
    formatHarvard e idx maxN omt rev = formatHarvard (genEntry e) idx maxN omt rev := by
  refine ⟨?_, ?_, ?_, ?_, ?_, ?_, ?_, ?_, ?_, ?_⟩
  · simp only [formatAcs, getFields, genEntry]
    rw [if_neg hartn, if_neg hartn, if_neg hbookn, if_neg hbookn]
  · simp only [formatApa, getFields, genEntry]
    rw [if_neg hartn, if_neg hartn, if_neg hbookn, if_neg hbookn]
  · simp only [formatVancouver, getFields, genEntry]
    rw [if_neg hartn, if_neg hartn]
  · simp only [formatAngewandte, getFields, genEntry]
    rw [if_neg hartn, if_neg hartn, if_neg hbookn, if_neg hbookn]
  · simp only [formatRsc, getFields, genEntry]
    rw [if_neg hartn, if_neg hartn, if_neg hbookn, if_neg hbookn]
  · simp only [formatAoa, getFields, genEntry]
    rw [if_neg hartn, if_neg hartn]
  · simp only [formatNature, getFields, genEntry]
    rw [if_neg hartn, if_neg hartn, if_neg hbookn, if_neg hbookn]
  · simp only [formatIeee, getFields, genEntry]
    rw [if_neg hartn, if_neg hartn, if_neg hbookn, if_neg hbookn]
  · simp only [formatIso690, getFields, genEntry]
    rw [if_neg hartn, if_neg hartn, if_neg hbookn, if_neg hbookn]
  · simp only [formatHarvard, getFields, genEntry]
    rw [if_neg hartn, if_neg hartn, if_neg hbookn, if_neg hbookn]

/-- C8 counterexample: the Vancouver article branch ignores a non-empty DOI
entirely (its output equals the output on the DOI-cleared entry), so not
every style's article branch appends a DOI suffix when the DOI is
non-empty. -/
theorem C8_counterexample :
    entryVanDoi.doi ≠ [] ∧
    formatVancouver entryVanDoi 1 none false false =
      formatVancouver { entryVanDoi with doi := [] } 1 none false false :=
  ⟨by decide, by decide⟩

/-- C8: for every entry, index, cap, title-omission and order flag: on an
article entry with a non-empty whitespace-clean DOI the ACS, APA,
Angewandte, RSC, AoA, Nature, ISO 690 and Harvard formatters return exactly
the DOI-cleared outputs with the style's DOI/URL suffix appended to both
the plain and the marked-up output; the Vancouver and IEEE formatters never
read the DOI; the book branches of the styles that have one never read the
DOI; and every generic (non-article, non-book) branch reads only the
author, title, year and entry-kind fields. -/
theorem C8_theorem (e : Entry) (idx : Nat) (maxN : Option Nat) (omt rev : Bool) :
    (pyLower (e.entrytype.getD (str "article")) = str "article" →
      e.doi ≠ [] → lastOk e.doi = true →
      ((formatAcs e idx maxN omt rev).1 =
          (formatAcs { e with doi := [] } idx maxN omt rev).1 ++
            str " DOI: " ++ e.doi ∧
        (formatAcs e idx maxN omt rev).2 =
          (formatAcs { e with doi := [] } idx maxN omt rev).2 ++
            escape (str " DOI: " ++ e.doi)) ∧
      ((formatApa e idx maxN omt rev).1 =
          (formatApa { e with doi := [] } idx maxN omt rev).1 ++
            str " https://doi.org/" ++ e.doi ∧
        (formatApa e idx maxN omt rev).2 =
          (formatApa { e with doi := [] } idx maxN omt rev).2 ++
            escape (str " https://doi.org/" ++ e.doi)) ∧
      ((formatAngewandte e idx maxN omt rev).1 =
          (formatAngewandte { e with doi := [] } idx maxN omt rev).1 ++
            str " DOI: " ++ e.doi ∧
        (formatAngewandte e idx maxN omt rev).2 =
          (formatAngewandte { e with doi := [] } idx maxN omt rev).2 ++
            escape (str " DOI: " ++ e.doi)) ∧
      ((formatRsc e idx maxN omt rev).1 =
          (formatRsc { e with doi := [] } idx maxN omt rev).1 ++
            str " DOI: " ++ e.doi ∧
        (formatRsc e idx maxN omt rev).2 =
          (formatRsc { e with doi := [] } idx maxN omt rev).2 ++
            escape (str " DOI: " ++ e.doi)) ∧
      ((formatAoa e idx maxN omt rev).1 =
          (formatAoa { e with doi := [] } idx maxN omt rev).1 ++
            str " https://doi.org/" ++ e.doi ∧
        (formatAoa e idx maxN omt rev).2 =
          (formatAoa { e with doi := [] } idx maxN omt rev).2 ++
            escape (str " https://doi.org/" ++ e.doi)) ∧
      ((formatNature e idx maxN omt rev).1 =
          (formatNature { e with doi := [] } idx maxN omt rev).1 ++
            str " https://doi.org/" ++ e.doi ∧
        (formatNature e idx maxN omt rev).2 =
          (formatNature { e with doi := [] } idx maxN omt rev).2 ++
            escape (str " https://doi.org/" ++ e.doi)) ∧
      ((formatIso690 e idx maxN omt rev).1 =
          (formatIso690 { e with doi := [] } idx maxN omt rev).1 ++
            str " DOI: " ++ e.doi ∧
        (formatIso690 e idx maxN omt rev).2 =
          (formatIso690 { e with doi := [] } idx maxN omt rev).2 ++
            escape (str " DOI: " ++ e.doi)) ∧
      ((formatHarvard e idx maxN omt rev).1 =
          (formatHarvard { e with doi := [] } idx maxN omt rev).1 ++
            str " doi: " ++ e.doi ∧
        (formatHarvard e idx maxN omt rev).2 =
          (formatHarvard { e with doi := [] } idx maxN omt rev).2 ++
            escape (str " doi: " ++ e.doi))) ∧
    formatVancouver e idx maxN omt rev =
      formatVancouver { e with doi := [] } idx maxN omt rev ∧
    formatIeee e idx maxN omt rev =
      formatIeee { e with doi := [] } idx maxN omt rev ∧
    (pyLower (e.entrytype.getD (str "article")) ≠ str "article" →
      pyLower (e.entrytype.getD (str "article")) = str "book" →
      formatAcs e idx maxN omt rev = formatAcs { e with doi := [] } idx maxN omt rev ∧
      formatApa e idx maxN omt rev = formatApa { e with doi := [] } idx maxN omt rev ∧
      formatAngewandte e idx maxN omt rev =
        formatAngewandte { e with doi := [] } idx maxN omt rev ∧
      formatRsc e idx maxN omt rev = formatRsc { e with doi := [] } idx maxN omt rev ∧
      formatNature e idx maxN omt rev =
        formatNature { e with doi := [] } idx maxN omt rev ∧
      formatIso690 e idx maxN omt rev =
        formatIso690 { e with doi := [] } idx maxN omt rev ∧
      formatHarvard e idx maxN omt rev =
        formatHarvard { e with doi := [] } idx maxN omt rev) ∧
    (pyLower (e.entrytype.getD (str "article")) ≠ str "article" →
      pyLower (e.entrytype.getD (str "article")) ≠ str "book" →
      formatAcs e idx maxN omt rev = formatAcs (genEntry e) idx maxN omt rev ∧
      formatApa e idx maxN omt rev = formatApa (genEntry e) idx maxN omt rev ∧
      formatVancouver e idx maxN omt rev =
        formatVancouver (genEntry e) idx maxN omt rev ∧
      formatAngewandte e idx maxN omt rev =
        formatAngewandte (genEntry e) idx maxN omt rev ∧
      formatRsc e idx maxN omt rev = formatRsc (genEntry e) idx maxN omt rev ∧
      formatAoa e idx maxN omt rev = formatAoa (genEntry e) idx maxN omt rev ∧
      formatNature e idx maxN omt rev = formatNature (genEntry e) idx maxN omt rev ∧
      formatIeee e idx maxN omt rev = formatIeee (genEntry e) idx maxN omt rev ∧
      formatIso690 e idx maxN omt rev = formatIso690 (genEntry e) idx maxN omt rev ∧
      formatHarvard e idx maxN omt rev =
        formatHarvard (genEntry e) idx maxN omt rev) :=
  ⟨fun hart hd hdok =>
    ⟨doiSfxAcs e idx maxN omt rev hart hd hdok,
     doiSfxApa e idx maxN omt rev hart hd hdok,
     doiSfxAngewandte e idx maxN omt rev hart hd hdok,
     doiSfxRsc e idx maxN omt rev hart hd hdok,
     doiSfxAoa e idx maxN omt rev hart hd hdok,
     doiSfxNature e idx maxN omt rev hart hd hdok,
     doiSfxIso690 e idx maxN omt rev hart hd hdok,
     doiSfxHarvard e idx maxN omt rev hart hd hdok⟩,
   doiIndepVancouver e idx maxN omt rev,
   doiIndepIeee e idx maxN omt rev,
   fun hartn hbook => bookIndepAll e idx maxN omt rev hartn hbook,
   fun hartn hbookn => genIndepAll e idx maxN omt rev hartn hbookn⟩

/-- C8 witness: the DOI-suffix decomposition applied to the concrete
scenario entry (an article with a non-empty DOI) at index 1. -/
theorem C8_witness :
    pyLower (entryDmitrienko.entrytype.getD (str "article")) = str "article" ∧
    entryDmitrienko.doi ≠ [] ∧
    (formatAcs entryDmitrienko 1 none false false).1 =
      (formatAcs { entryDmitrienko with doi := [] } 1 none false false).1 ++
        str " DOI: " ++ entryDmitrienko.doi :=
  ⟨by decide, by decide,
   ((C8_theorem entryDmitrienko 1 none false false).1
     (by decide) (by decide) (by decide)).1.1⟩

end BibCite
